import Mathlib

/-!
# bdbstore: a shallow embedding of `bdbstore.cc`

`bdbstore.cc` wraps the Berkeley DB 5.3 C API for a single-threaded JavaScript host.
This development embeds the facade: the JavaScript values it inspects and builds, the
C heap its buffer descriptors live on, the task record (`AsyncData`), the completion
handlers and the exported operations.

Conventions.
* JavaScript objects are modelled by value: the source writes properties only while it
  builds an object, so no aliasing is observable.
* Pointers are natural numbers, `0` is `NULL`.  A pointer into a bulk buffer is kept as
  its byte offset from `dbt->data`.
* `malloc` always succeeds and returns a fresh non-null address (also for size 0, as in
  glibc); freshly allocated memory holds indeterminate bytes (`Heap.junk`).
* Everything the source takes from `db.h` or from the host (flag constants, message
  strings, value conversions) is a field of `Consts`.
* An out-of-bounds read, an invalid `free` or a dangling descriptor pointer is undefined
  behaviour in C; here the function returns `none`.
-/

set_option autoImplicit false

namespace Bdbstore

/-- Byte strings: the UTF-8 image of a JavaScript string, or raw record contents. -/
abbrev Bytes := List Nat

/-! ## JavaScript values -/

/-- The JavaScript values the facade reads or builds. -/
inductive Value where
  | undefined
  | null
  | bool (b : Bool)
  | num (n : Int)
  | str (s : Bytes)
  | func (name : String)
  | external (p : Nat)
  | array (xs : List Value)
  | obj (props : List (String × Value))

namespace Value

/-- `Value::IsObject`. -/
def IsObject : Value → Bool
  | obj _ => true
  | array _ => true
  | func _ => true
  | _ => false

/-- `Value::IsFunction`. -/
def IsFunction : Value → Bool
  | func _ => true
  | _ => false

/-- `Value::IsNull`. -/
def IsNull : Value → Bool
  | null => true
  | _ => false

/-- `Value::BooleanValue`: JavaScript truthiness. -/
def BooleanValue : Value → Bool
  | undefined => false
  | null => false
  | bool b => b
  | num n => n != 0
  | str s => !s.isEmpty
  | _ => true

/-- Property lookup in a property list. -/
def lookupProp : List (String × Value) → String → Value
  | [], _ => undefined
  | (m, v) :: rest, n => if m = n then v else lookupProp rest n

/-- `Object::Get` for a named property.  Only plain objects carry the properties the
source asks for; every other value answers `undefined`. -/
def Get : Value → String → Value
  | obj props, n => lookupProp props n
  | _, _ => undefined

/-- Property store in a property list: overwrite in place, or append. -/
def setProp : List (String × Value) → String → Value → List (String × Value)
  | [], n, v => [(n, v)]
  | (m, w) :: rest, n, v => if m = n then (n, v) :: rest else (m, w) :: setProp rest n v

/-- `Object::Set` for a named property (`SET_VALUE`). -/
def Set : Value → String → Value → Value
  | obj props, n, v => obj (setProp props n v)
  | other, _, _ => other

/-- Indexed store into a list of array elements; holes are `undefined`. -/
def setIndex : List Value → Nat → Value → List Value
  | [], 0, v => [v]
  | [], i + 1, v => undefined :: setIndex [] i v
  | _ :: xs, 0, v => v :: xs
  | x :: xs, i + 1, v => x :: setIndex xs i v

/-- `Array::Set(i, v)`. -/
def SetAt : Value → Nat → Value → Value
  | array xs, i, v => array (setIndex xs i v)
  | other, _, _ => other

/-- `External::Unwrap`: the wrapped pointer, `NULL` for anything that is not an external. -/
def Unwrap : Value → Nat
  | external p => p
  | _ => 0

end Value

open Value

/-- `GET_EXTERNAL(obj, name)`. -/
def GET_EXTERNAL (o : Value) (name : String) : Nat :=
  if o.IsObject then (o.Get name).Unwrap else 0

/-- `GET_BOOLEAN(obj, name)`. -/
def GET_BOOLEAN (o : Value) (name : String) : Bool :=
  if o.IsObject then (o.Get name).BooleanValue else false

/-! ## What comes from `db.h` and the host -/

/-- Constants and host functions the source uses but does not define. -/
structure Consts where
  /-- Value of the constant `DB_<NAME>` for the option name `<name>`. -/
  flag : String → Nat
  DB_DBT_MALLOC : Nat
  DB_DBT_USERMEM : Nat
  DB_BTREE : Nat
  DB_HASH : Nat
  DB_HEAP : Nat
  DB_RECNO : Nat
  DB_QUEUE : Nat
  DB_UNKNOWN : Nat
  /-- Engine message for a return code. -/
  db_strerror : Int → Bytes
  /-- `String::Utf8Value` of a value that is not a string (`none`: conversion failed). -/
  ToString : Value → Option Bytes
  /-- `Value::Uint32Value`. -/
  Uint32Value : Value → Nat
  /-- Whether the continuation, called with these arguments, throws. -/
  throws : Value → List Value → Bool

/-- `DB_MULTIPLE`. -/
def Consts.DB_MULTIPLE (K : Consts) : Nat := K.flag "multiple"

/-- `DB_MULTIPLE_KEY`. -/
def Consts.DB_MULTIPLE_KEY (K : Consts) : Nat := K.flag "multiple_key"

/-- Facts about `db.h` the facade relies on: `DB_DBT_USERMEM` is a flag bit that
`DB_DBT_MALLOC` does not contain. -/
structure Consts.WF (K : Consts) : Prop where
  usermem_ne : K.DB_DBT_USERMEM ≠ 0
  malloc_usermem : K.DB_DBT_MALLOC &&& K.DB_DBT_USERMEM = 0

/-- A fact about the `DBTYPE` enumeration of `db.h`: the five access-method codes
`_db_open` can select are nonzero (the enumeration starts at `DB_BTREE = 1`). -/
structure Consts.TypeWF (K : Consts) : Prop where
  hash : K.DB_HASH ≠ 0
  heap : K.DB_HEAP ≠ 0
  recno : K.DB_RECNO ≠ 0
  queue : K.DB_QUEUE ≠ 0
  unknown : K.DB_UNKNOWN ≠ 0

/-- `BUFFER_LENGTH`. -/
def BUFFER_LENGTH : Nat := 5 * 1024 * 1024

/-- `String::Utf8Value`: the C string of a value. -/
def Utf8Value (K : Consts) : Value → Option Bytes
  | str s => some s
  | v => K.ToString v

/-! ## The error object -/

/-- `err_object`. -/
def err_object (K : Consts) (ret : Int) : Value :=
  if ret = 0 then Value.null
  else ((Value.obj []).Set "message" (.str (K.db_strerror ret))).Set "error" (.num ret)

/-! ## The options object -/

/-- Option names of `get_flags`, in source order; entry `n` pairs with `DB_<N>`. -/
def flagNames : List String :=
  ["after", "append", "auto_commit", "before", "cdb_alldb", "chksum", "consume", "consume_wait",
   "create", "current", "cursor_bulk", "direct_db", "dsync_db", "dup", "dupsort", "encrypt",
   "excl", "failchk", "first", "get_both", "get_both_range", "get_recno",
   "hotbackup_in_progress", "ignore_lease", "init_cdb", "init_lock", "init_log", "init_mpool",
   "init_rep", "init_txn", "inorder", "join_item", "keyfirst", "keylast", "last", "lockdown",
   "multiple", "multiple_key", "multiversion", "next", "next_dup", "next_nodup", "nodupdata",
   "nolocking", "nommap", "nooverwrite", "nopanic", "overwrite", "overwrite_dup",
   "panic_environment", "prev", "prev_dup", "prev_nodup", "private", "rdonly", "read_committed",
   "read_uncommitted", "recnum", "recover", "recover_fatal", "region_init", "register",
   "renumber", "revsplitoff", "rmw", "set", "set_lock_timeout", "set_range", "set_recno",
   "set_reg_timeout", "set_txn_timeout", "snapshot", "system_mem", "thread", "time_notgranted",
   "truncate", "txn_bulk", "txn_nosync", "txn_not_durable", "txn_nowait", "txn_snapshot",
   "txn_sync", "txn_wait", "txn_write_nosync", "use_environ", "use_environ_root", "writecursor",
   "yieldcpu"]

/-- `IF_TRUE_SET_FLAG(name, value)`. -/
def IF_TRUE_SET_FLAG (K : Consts) (target : Value) (flags : Nat) (name : String) : Nat :=
  if GET_BOOLEAN target name then flags ||| K.flag name else flags

/-- `get_flags(obj, flags)`; every caller passes `flags = 0`. -/
def get_flags (K : Consts) (o : Value) (flags : Nat) : Nat :=
  if !o.IsObject then 0
  else flagNames.foldl (IF_TRUE_SET_FLAG K o) flags

/-! ## The C heap -/

/-- A `DBT`: the fields the facade touches (`memset` clears the rest). -/
structure DBT where
  data : Nat
  size : Nat
  ulen : Nat
  flags : Nat

/-- A `malloc`ed byte block: its size and the byte at each offset. -/
structure Block where
  size : Nat
  byte : Nat → Nat

/-- What an allocation holds. -/
inductive Cell where
  | raw (b : Block)
  | dbt (d : DBT)
  | node

/-- The heap: the live allocation at each address, the log of `free`/`delete` calls, the
highest address handed out, and the indeterminate contents fresh memory comes with. -/
structure Heap where
  next : Nat
  cells : Nat → Option Cell
  frees : List Nat
  junk : Nat → Nat → Nat

namespace Heap

/-- The live cell a pointer addresses; `NULL` addresses nothing. -/
def find (h : Heap) (p : Nat) : Option Cell :=
  if p = 0 then none else h.cells p

/-- Allocate a cell at a fresh non-null address. -/
def alloc (h : Heap) (c : Cell) : Nat × Heap :=
  (h.next + 1,
   { h with next := h.next + 1, cells := fun a => if a = h.next + 1 then some c else h.cells a })

/-- `malloc(n)`: a fresh block of indeterminate bytes. -/
def malloc (h : Heap) (n : Nat) : Nat × Heap :=
  h.alloc (.raw ⟨n, h.junk (h.next + 1)⟩)

/-- Write through a pointer (the source only writes through pointers it has just obtained). -/
def store (h : Heap) (p : Nat) (c : Cell) : Heap :=
  { h with cells := fun a => if a = p then some c else h.cells a }

/-- `free(p)` / `delete p`: `none` when `p` is not a live allocation; `free(NULL)` does nothing. -/
def free (h : Heap) (p : Nat) : Option Heap :=
  if p = 0 then some h
  else match h.find p with
    | some _ =>
      some { h with cells := fun a => if a = p then none else h.cells a, frees := h.frees ++ [p] }
    | none => none

/-- Read a `DBT` through a pointer. -/
def getDBT (h : Heap) (p : Nat) : Option DBT :=
  match h.find p with
  | some (.dbt d) => some d
  | _ => none

/-- The block a pointer addresses. -/
def getBlock (h : Heap) (p : Nat) : Option Block :=
  match h.find p with
  | some (.raw b) => some b
  | _ => none

/-- The `data` field of the `DBT` at `p` (`NULL` when there is none). -/
def dataOf (h : Heap) (p : Nat) : Nat :=
  match h.getDBT p with
  | some d => d.data
  | none => 0

/-- The idiom `if (orig && orig != cur) free(orig); free(cur);` of `async_after`. -/
def freeBoth (h : Heap) (orig cur : Nat) : Option Heap :=
  match (if orig ≠ 0 ∧ orig ≠ cur then h.free orig else some h) with
  | none => none
  | some h1 => h1.free cur

end Heap

namespace Block

/-- The block holding exactly the given bytes. -/
def ofBytes (s : Bytes) : Block := ⟨s.length, fun i => s.getD i 0⟩

/-- `memcpy(block, src, n)`. -/
def write (b : Block) (src : Bytes) (n : Nat) : Block :=
  ⟨b.size, fun i => if i < n then src.getD i 0 else b.byte i⟩

/-- The `len` bytes from offset `off`; `none` when they leave the block. -/
def read (b : Block) (off len : Nat) : Option Bytes :=
  if off + len ≤ b.size then some ((List.range len).map fun i => b.byte (off + i)) else none

/-- A host-order `u_int32_t` load at byte offset `p`. -/
def rd32 (b : Block) (p : Nat) : Option Nat :=
  if p + 4 ≤ b.size then
    some (b.byte p % 256 + 256 * (b.byte (p + 1) % 256) + 65536 * (b.byte (p + 2) % 256)
      + 16777216 * (b.byte (p + 3) % 256))
  else none

end Block

/-- `strlen`: the bytes before the first zero byte. -/
def strlen (buf : Bytes) : Nat := (buf.takeWhile (fun c => c != 0)).length

/-- `String::New(data, length)`: `src` is the resolved pointer (block and offset), `none`
for a pointer that cannot be read.  Length 0 yields the empty string without a read. -/
def String_New (src : Option (Block × Nat)) (len : Nat) : Option Value :=
  if len = 0 then some (.str [])
  else match src with
    | some (b, off) => (b.read off len).map Value.str
    | none => none

/-- `dbt_set(buf, flags)`: returns the descriptor's address.  The `u_int32_t` cast of
`strlen` is exact for every string the host can build. -/
def dbt_set (K : Consts) (h : Heap) (buf : Option Bytes) (flags : Nat) : Nat × Heap :=
  let dbt := h.alloc (.dbt ⟨0, 0, 0, 0⟩)
  match buf with
  | some s =>
    let p := dbt.2.malloc (strlen s)
    let h3 := p.2.store p.1 (.raw ((Block.mk (strlen s) (dbt.2.junk p.1)).write s (strlen s)))
    (dbt.1, h3.store dbt.1 (.dbt ⟨p.1, strlen s, 0, flags⟩))
  | none =>
    if flags &&& K.DB_DBT_USERMEM ≠ 0 then
      let p := dbt.2.malloc BUFFER_LENGTH
      (dbt.1, p.2.store dbt.1 (.dbt ⟨p.1, 0, BUFFER_LENGTH, flags⟩))
    else (dbt.1, dbt.2.store dbt.1 (.dbt ⟨0, 0, 0, flags⟩))

/-! ## Tasks -/

/-- `AsyncData`.  `err` and `data` are indeterminate until a work function stores them;
the field `parent` is never read or written. -/
structure AsyncData where
  db : Nat
  txn : Nat
  cur : Nat
  key_dbt : Nat
  data_dbt : Nat
  flags : Nat
  key : Nat
  value : Nat
  callback : Value
  err : Int
  data : Nat

/-- A `uv_work_t` request: its address, the address of its `AsyncData`, and that record. -/
structure Req where
  req : Nat
  datap : Nat
  data : AsyncData

/-- Whether the operation flags ask for a bulk result. -/
def bulkFlags (K : Consts) (flags : Nat) : Bool :=
  (flags &&& K.DB_MULTIPLE != 0) || (flags &&& K.DB_MULTIPLE_KEY != 0)

/-- `async_before`. -/
def async_before (K : Consts) (h : Heap) (db txn cur : Nat) (key value : Option Bytes)
    (cb : Value) (flags : Nat) (query : Bool) : Req × Heap :=
  let req := h.alloc .node
  let data := req.2.alloc .node
  let d : AsyncData := ⟨db, txn, cur, 0, 0, flags, 0, 0, cb, 0, 0⟩
  if query then
    let key_dbt := dbt_set K data.2 key K.DB_DBT_MALLOC
    let data_dbt := dbt_set K key_dbt.2 value
      (if value.isSome then 0
       else if bulkFlags K flags then K.DB_DBT_USERMEM else K.DB_DBT_MALLOC)
    (⟨req.1, data.1, { d with key_dbt := key_dbt.1, data_dbt := data_dbt.1,
                              key := data_dbt.2.dataOf key_dbt.1,
                              value := data_dbt.2.dataOf data_dbt.1 }⟩, data_dbt.2)
  else (⟨req.1, data.1, d⟩, data.2)

/-! ## Bulk buffers (`db.h`) -/

/-- Modelled from the spec: `DB_MULTIPLE_INIT(pointer, dbt)` is a macro of the engine's
`db.h`, which the repository does not carry; it starts the bulk-buffer cursor at the last
`u_int32_t` of the buffer. -/
def DB_MULTIPLE_INIT (dbt : DBT) : Option Nat :=
  if 4 ≤ dbt.ulen then some (dbt.ulen - 4) else none

/-- What `DB_MULTIPLE_NEXT` leaves in its output variables (`none` is `NULL`). -/
structure MultipleNext where
  pointer : Option Nat
  retdata : Option Nat
  retdlen : Nat

/-- Modelled from the spec: `DB_MULTIPLE_NEXT(pointer, dbt, retdata, retdlen)` is a macro
of the engine's `db.h`, which the repository does not carry; it is one step of the
bulk-buffer cursor.  The word at `pointer` is the record's offset or the end mark
`(u_int32_t)-1` (no more records: `pointer` becomes `NULL`), the word below it the
record's length. -/
def DB_MULTIPLE_NEXT (b : Block) (p : Nat) : Option MultipleNext :=
  match b.rd32 p with
  | none => none
  | some off =>
    if off = 4294967295 then some ⟨none, none, 0⟩
    else if p < 8 then none
    else match b.rd32 (p - 4) with
      | none => none
      | some len => some ⟨some (p - 8), if len = 0 ∧ off = 0 then none else some off, len⟩

/-- What `DB_MULTIPLE_KEY_NEXT` leaves in its output variables. -/
structure MultipleKeyNext where
  pointer : Option Nat
  retkey : Option Nat
  retklen : Nat
  retdata : Option Nat
  retdlen : Nat

/-- Modelled from the spec: `DB_MULTIPLE_KEY_NEXT(pointer, dbt, retkey, retklen, retdata,
retdlen)` is a macro of the engine's `db.h`, which the repository does not carry; it is one
step of the bulk-buffer cursor over key/data records.  Four words per record (key offset,
key length, data offset, data length) going down, or the end mark `(u_int32_t)-1`. -/
def DB_MULTIPLE_KEY_NEXT (b : Block) (p : Nat) : Option MultipleKeyNext :=
  match b.rd32 p with
  | none => none
  | some koff =>
    if koff = 4294967295 then some ⟨none, none, 0, none, 0⟩
    else if p < 16 then none
    else match b.rd32 (p - 4), b.rd32 (p - 8), b.rd32 (p - 12) with
      | some klen, some doff, some dlen => some ⟨some (p - 16), some koff, klen, some doff, dlen⟩
      | _, _, _ => none

/-- The `DB_MULTIPLE` loop of `async_after`.  `pointer` falls by 8 on every round, so the
round counter `fuel` (started above `pointer`) never runs out before the loop ends. -/
def multipleLoop (b : Block) : Nat → Nat → Nat → Value → Option Value
  | 0, _, _, _ => none
  | fuel + 1, p, i, arr =>
    match DB_MULTIPLE_NEXT b p with
    | none => none
    | some r =>
      match r.pointer with
      | none => some arr
      | some p1 =>
        match String_New (r.retdata.map fun o => (b, o)) r.retdlen with
        | none => none
        | some s => multipleLoop b fuel p1 (i + 1) (arr.SetAt i s)

/-- The `DB_MULTIPLE_KEY` loop of `async_after`. -/
def multipleKeyLoop (b : Block) : Nat → Nat → Nat → Value → Option Value
  | 0, _, _, _ => none
  | fuel + 1, p, i, arr =>
    match DB_MULTIPLE_KEY_NEXT b p with
    | none => none
    | some r =>
      match r.pointer with
      | none => some arr
      | some p1 =>
        match String_New (r.retdata.map fun o => (b, o)) r.retdlen,
              String_New (r.retkey.map fun o => (b, o)) r.retklen with
        | some d, some k =>
          multipleKeyLoop b fuel p1 (i + 1)
            (arr.SetAt i (((Value.array []).SetAt 0 d).SetAt 1 k))
        | _, _ => none

/-- The bulk branch of `async_after`: the array built from a pre-sized receive buffer. -/
def decodeBulk (K : Consts) (flags : Nat) (data_dbt : DBT) (b : Block) : Option Value :=
  if flags &&& K.DB_MULTIPLE ≠ 0 then
    match DB_MULTIPLE_INIT data_dbt with
    | some p => multipleLoop b (p + 1) p 0 (.array [])
    | none => none
  else if flags &&& K.DB_MULTIPLE_KEY ≠ 0 then
    match DB_MULTIPLE_INIT data_dbt with
    | some p => multipleKeyLoop b (p + 1) p 0 (.array [])
    | none => none
  else some (.array [])

/-! ## Completion -/

/-- One call of a continuation. -/
structure Invocation where
  callback : Value
  args : List Value

/-- What a completion handler leaves: the heap, the call it made, and whether the
continuation threw (`node::FatalException`). -/
structure Completed where
  heap : Heap
  call : Invocation
  fatal : Bool

/-- `ASYNC_AFTER_TAIL(argn)`. -/
def ASYNC_AFTER_TAIL (K : Consts) (t : Req) (h : Heap) (argn : Nat) (result keyresult : Value) :
    Option Completed :=
  let argv := [err_object K t.data.err, result, keyresult]
  let call : Invocation := ⟨t.data.callback, argv.take argn⟩
  match h.free t.datap with
  | none => none
  | some h1 =>
    match h1.free t.req with
    | none => none
    | some h2 => some ⟨h2, call, K.throws call.callback call.args⟩

/-- The value half of `async_after`: `result`, then the frees of the value buffers. -/
def afterValue (K : Consts) (data : AsyncData) (data_dbt : DBT) (h : Heap) :
    Option (Value × Heap) :=
  let value := data_dbt.data
  if value ≠ 0 then
    match (if data_dbt.flags &&& K.DB_DBT_USERMEM ≠ 0 then
             (h.getBlock value).bind (decodeBulk K data.flags data_dbt)
           else String_New ((h.getBlock value).map fun b => (b, 0)) data_dbt.size) with
    | none => none
    | some result => (h.freeBoth data.value value).map fun h2 => (result, h2)
  else some (.undefined, h)

/-- The key half of `async_after`: `keyresult`, then the frees of the key buffers. -/
def afterKey (data : AsyncData) (key_dbt : DBT) (h : Heap) : Option (Value × Heap) :=
  let key := key_dbt.data
  if key ≠ 0 then
    match String_New ((h.getBlock key).map fun b => (b, 0)) key_dbt.size with
    | none => none
    | some keyresult => (h.freeBoth data.key key).map fun h2 => (keyresult, h2)
  else some (.undefined, h)

/-- `async_after`. -/
def async_after (K : Consts) (t : Req) (h : Heap) : Option Completed :=
  if t.data.key_dbt ≠ 0 then
    match h.getDBT t.data.key_dbt, h.getDBT t.data.data_dbt with
    | some key_dbt, some data_dbt =>
      match afterValue K t.data data_dbt h with
      | none => none
      | some (result, h1) =>
        match afterKey t.data key_dbt h1 with
        | none => none
        | some (keyresult, h2) =>
          match h2.free t.data.key_dbt with
          | none => none
          | some h3 =>
            match h3.free t.data.data_dbt with
            | none => none
            | some h4 => ASYNC_AFTER_TAIL K t h4 3 result keyresult
    | _, _ => none
  else ASYNC_AFTER_TAIL K t h 1 .undefined .undefined

/-! ## The engine and the dispatcher -/

/-- One call into the Berkeley DB C API, with the arguments the facade passes. -/
inductive EngCall where
  | db_create (env : Nat)
  | db_env_create
  | txn_begin (env parent flags : Nat)
  | env_set_flags (env flags onoff : Nat)
  | env_close (env : Nat)
  | env_open (env : Nat) (home : Option Bytes) (flags mode : Nat)
  | db_cursor (db txn flags : Nat)
  | db_get (db txn key_dbt data_dbt flags : Nat)
  | db_del (db txn key_dbt flags : Nat)
  | db_put (db txn key_dbt data_dbt flags : Nat)
  | db_set_flags (db flags : Nat)
  | db_close (db : Nat)
  | db_open (db txn : Nat) (file : Option Bytes) (type flags mode : Nat)
  | c_put (cur key_dbt data_dbt flags : Nat)
  | c_get (cur key_dbt data_dbt flags : Nat)
  | c_del (cur flags : Nat)
  | c_close (cur : Nat)
  | txn_commit (txn flags : Nat)
  | txn_abort (txn : Nat)

/-- What an engine call leaves: its return code, the handle it wrote through an
out-pointer (if it wrote one), the heap and its own state. -/
structure EngResult (σ : Type) where
  ret : Int
  handle : Option Nat
  heap : Heap
  eng : σ

/-- The engine: an external collaborator with a state of its own. -/
abbrev Engine (σ : Type) := σ → Heap → EngCall → EngResult σ

/-- The work functions handed to `uv_queue_work`. -/
inductive Work where
  | txn_begin
  | db_cursor
  | db_get
  | db_del
  | db_put
  | c_put
  | c_get
  | c_del
  | c_close
  | txn_commit
  | txn_abort

/-- The completion handlers handed to `uv_queue_work`: the file-level `async_after`, and
the local ones of `_env_txn_begin` and `_db_cursor`. -/
inductive After where
  | generic
  | txn
  | cursor

/-- A queued task. -/
structure Task where
  req : Req
  work : Work
  after : After

/-- Process state: heap, the global `dbenv`, the engine, the dispatcher queue, the engine
calls made, the continuation calls made, whether `node::FatalException` was reached, and
the indeterminate value of an uninitialised local. -/
structure World (σ : Type) where
  heap : Heap
  dbenv : Nat
  eng : σ
  queue : List Task
  trace : List EngCall
  out : List Invocation
  fatal : Bool
  stackJunk : Nat

section
variable {σ : Type}

/-- Perform one engine call and log it. -/
def engineCall (E : Engine σ) (w : World σ) (c : EngCall) : EngResult σ × World σ :=
  let r := E w.eng w.heap c
  (r, { w with heap := r.heap, eng := r.eng, trace := w.trace ++ [c] })

/-- Store the outputs of a work function in the task. -/
def Task.done (t : Task) (err : Int) (data : Nat) : Task :=
  { t with req := { t.req with data := { t.req.data with err := err, data := data } } }

/-- The work function of a task, run on a worker thread. -/
def runWork (E : Engine σ) (t : Task) (w : World σ) : Task × World σ :=
  let d := t.req.data
  match t.work with
  | .txn_begin =>
    let (r, w1) := engineCall E w (.txn_begin w.dbenv d.txn d.flags)
    (t.done r.ret (r.handle.getD w.stackJunk), w1)
  | .db_cursor =>
    let (r, w1) := engineCall E w (.db_cursor d.db d.txn d.flags)
    (t.done r.ret (r.handle.getD 0), w1)
  | .db_get =>
    let (r, w1) := engineCall E w (.db_get d.db d.txn d.key_dbt d.data_dbt d.flags)
    (t.done r.ret d.data, w1)
  | .db_del =>
    let (r, w1) := engineCall E w (.db_del d.db d.txn d.key_dbt d.flags)
    (t.done r.ret d.data, w1)
  | .db_put =>
    let (r, w1) := engineCall E w (.db_put d.db d.txn d.key_dbt d.data_dbt d.flags)
    (t.done r.ret d.data, w1)
  | .c_put =>
    let (r, w1) := engineCall E w (.c_put d.cur d.key_dbt d.data_dbt d.flags)
    (t.done r.ret d.data, w1)
  | .c_get =>
    let (r, w1) := engineCall E w (.c_get d.cur d.key_dbt d.data_dbt d.flags)
    (t.done r.ret d.data, w1)
  | .c_del =>
    let (r, w1) := engineCall E w (.c_del d.cur d.flags)
    (t.done r.ret d.data, w1)
  | .c_close =>
    let (r, w1) := engineCall E w (.c_close d.cur)
    (t.done r.ret d.data, w1)
  | .txn_commit =>
    let (r, w1) := engineCall E w (.txn_commit d.txn 0)
    (t.done r.ret d.data, w1)
  | .txn_abort =>
    let (r, w1) := engineCall E w (.txn_abort d.txn)
    (t.done r.ret d.data, w1)

/-! ## Handle objects -/

/-- `SET_METHOD(name, value)`: a native function is named by its C function. -/
def SET_METHOD (target : Value) (name fn : String) : Value := target.Set name (.func fn)

/-- `SET_EXTERNAL(obj, name, value)`. -/
def SET_EXTERNAL (target : Value) (name : String) (p : Nat) : Value :=
  target.Set name (.external p)

/-- `env_object`. -/
def env_object : Value :=
  let target := Value.obj []
  let target := SET_METHOD target "flags" "_env_set_flags"
  let target := SET_METHOD target "open" "_env_open"
  let target := SET_METHOD target "close" "_env_close"
  SET_METHOD target "begin" "_env_txn_begin"

/-- `db_object`. -/
def db_object (db txn : Nat) : Value :=
  let target := Value.obj []
  let target := SET_METHOD target "cursor" "_db_cursor"
  let target := SET_METHOD target "get" "_db_get"
  let target := SET_METHOD target "put" "_db_put"
  let target := SET_METHOD target "del" "_db_del"
  let target := SET_METHOD target "open" "_db_open"
  let target := SET_METHOD target "close" "_db_close"
  let target := SET_METHOD target "flags" "_db_set_flags"
  let target := SET_EXTERNAL target "_db" db
  if txn ≠ 0 then SET_EXTERNAL target "_txn" txn else target

/-- `cursor_object`. -/
def cursor_object (cur : Nat) : Value :=
  let target := Value.obj []
  let target := SET_METHOD target "close" "_cursor_close"
  let target := SET_METHOD target "get" "_cursor_get"
  let target := SET_METHOD target "put" "_cursor_put"
  let target := SET_METHOD target "del" "_cursor_del"
  SET_EXTERNAL target "_cur" cur

/-- `txn_object`. -/
def txn_object (txn : Nat) : Value :=
  let target := Value.obj []
  let target := SET_METHOD target "commit" "_txn_commit"
  let target := SET_METHOD target "abort" "_txn_abort"
  let target := SET_METHOD target "wrap" "_txn_wrap"
  let target := SET_METHOD target "begin" "_env_txn_begin"
  SET_EXTERNAL target "_txn" txn

/-- The completion handler of a task, run on the caller's thread. -/
def completion (K : Consts) (t : Task) (h : Heap) : Option Completed :=
  match t.after with
  | .generic => async_after K t.req h
  | .txn => ASYNC_AFTER_TAIL K t.req h 2 (txn_object t.req.data.data) .undefined
  | .cursor => ASYNC_AFTER_TAIL K t.req h 2 (cursor_object t.req.data.data) .undefined

/-- Run the completion handler of a task in a world. -/
def runAfter (K : Consts) (t : Task) (w : World σ) : Option (World σ) :=
  match completion K t w.heap with
  | none => none
  | some c =>
    some { w with heap := c.heap, out := w.out ++ [c.call], fatal := w.fatal || c.fatal }

/-- Take the task at the head of the queue through its work function and its completion
handler. -/
def runNext (K : Consts) (E : Engine σ) (w : World σ) : Option (World σ) :=
  match w.queue with
  | [] => some w
  | t :: rest =>
    let (t1, w1) := runWork E t { w with queue := rest }
    runAfter K t1 w1

/-! ## Exported operations -/

/-- How a native function ends: with a return value, or with a pending `TypeError`. -/
inductive Outcome where
  | returned (v : Value)
  | typeError (msg : String)

/-- `args[i]`: `undefined` outside the argument list. -/
def argAt (args : List Value) (i : Nat) : Value := args.getD i .undefined

/-- `args[args.Length() - 1]`. -/
def lastArg (args : List Value) : Value := argAt args (args.length - 1)

/-- The test of `CHECK_NUMARGS(n, m)`. -/
def badNumArgs (args : List Value) (n m : Nat) : Bool :=
  decide (args.length < n) || decide (args.length > m)

/-- `CHECK_NUMARGS(n, m); CHECK_CALLBACK;` in front of the body of an asynchronous
operation. -/
def checked (args : List Value) (n m : Nat) (w : World σ) (body : World σ → World σ) :
    Outcome × World σ :=
  if badNumArgs args n m then (.typeError "Wrong number of arguments", w)
  else if !(lastArg args).IsFunction then (.typeError "Callback is not a function", w)
  else (.returned .undefined, body w)

/-- `uv_queue_work(uv_default_loop(), req, work, after)`. -/
def uv_queue_work (w : World σ) (r : Req × Heap) (work : Work) (after : After) : World σ :=
  { w with heap := r.2, queue := w.queue ++ [⟨r.1, work, after⟩] }

/-- `_env_txn_begin` (`env.begin` and `txn.begin`). -/
def _env_txn_begin (K : Consts) (this : Value) (args : List Value) (w : World σ) :
    Outcome × World σ :=
  checked args 1 2 w fun w =>
    let txn := GET_EXTERNAL this "_txn"
    uv_queue_work w
      (async_before K w.heap 0 txn 0 none none (lastArg args)
        (if args.length > 1 then get_flags K (argAt args 0) 0 else 0) false)
      .txn_begin .txn

/-- `_db_cursor`. -/
def _db_cursor (K : Consts) (this : Value) (args : List Value) (w : World σ) :
    Outcome × World σ :=
  checked args 1 2 w fun w =>
    let txn := GET_EXTERNAL this "_txn"
    let db := GET_EXTERNAL this "_db"
    uv_queue_work w
      (async_before K w.heap db txn 0 none none (lastArg args)
        (if args.length > 1 then get_flags K (argAt args 0) 0 else 0) false)
      .db_cursor .cursor

/-- `_db_get`. -/
def _db_get (K : Consts) (this : Value) (args : List Value) (w : World σ) :
    Outcome × World σ :=
  checked args 2 3 w fun w =>
    let txn := GET_EXTERNAL this "_txn"
    let db := GET_EXTERNAL this "_db"
    let key := Utf8Value K (argAt args 0)
    uv_queue_work w
      (async_before K w.heap db txn 0 key none (lastArg args)
        (if args.length > 2 then get_flags K (argAt args 1) 0 else 0) true)
      .db_get .generic

/-- `_db_del`. -/
def _db_del (K : Consts) (this : Value) (args : List Value) (w : World σ) :
    Outcome × World σ :=
  checked args 2 3 w fun w =>
    let txn := GET_EXTERNAL this "_txn"
    let db := GET_EXTERNAL this "_db"
    let key := Utf8Value K (argAt args 0)
    uv_queue_work w
      (async_before K w.heap db txn 0 key none (lastArg args)
        (if args.length > 2 then get_flags K (argAt args 1) 0 else 0) true)
      .db_del .generic

/-- `_db_put`. -/
def _db_put (K : Consts) (this : Value) (args : List Value) (w : World σ) :
    Outcome × World σ :=
  checked args 3 4 w fun w =>
    let txn := GET_EXTERNAL this "_txn"
    let db := GET_EXTERNAL this "_db"
    let key := Utf8Value K (argAt args 0)
    let value := Utf8Value K (argAt args 1)
    uv_queue_work w
      (async_before K w.heap db txn 0 key value (lastArg args)
        (if args.length > 3 then get_flags K (argAt args 2) 0 else 0) true)
      .db_put .generic

/-- `_cursor_put`. -/
def _cursor_put (K : Consts) (this : Value) (args : List Value) (w : World σ) :
    Outcome × World σ :=
  checked args 4 4 w fun w =>
    let cur := GET_EXTERNAL this "_cur"
    let key := Utf8Value K (argAt args 0)
    let value := Utf8Value K (argAt args 1)
    uv_queue_work w
      (async_before K w.heap 0 0 cur (if (argAt args 0).IsNull then none else key) value
        (lastArg args) (get_flags K (argAt args 2) 0) true)
      .c_put .generic

/-- `_cursor_get`. -/
def _cursor_get (K : Consts) (this : Value) (args : List Value) (w : World σ) :
    Outcome × World σ :=
  checked args 2 3 w fun w =>
    let cur := GET_EXTERNAL this "_cur"
    let key := Utf8Value K (argAt args 0)
    uv_queue_work w
      (async_before K w.heap 0 0 cur
        (if args.length < 3 || (argAt args 0).IsNull then none else key) none
        (lastArg args) (get_flags K (argAt args (if args.length > 2 then 1 else 0)) 0) true)
      .c_get .generic

/-- `_cursor_del`. -/
def _cursor_del (K : Consts) (this : Value) (args : List Value) (w : World σ) :
    Outcome × World σ :=
  checked args 1 2 w fun w =>
    let cur := GET_EXTERNAL this "_cur"
    uv_queue_work w
      (async_before K w.heap 0 0 cur none none (lastArg args)
        (if args.length > 1 then get_flags K (argAt args 0) 0 else 0) false)
      .c_del .generic

/-- `_cursor_close`. -/
def _cursor_close (K : Consts) (this : Value) (args : List Value) (w : World σ) :
    Outcome × World σ :=
  checked args 1 1 w fun w =>
    let cur := GET_EXTERNAL this "_cur"
    uv_queue_work w
      (async_before K w.heap 0 0 cur none none (argAt args 0) 0 false)
      .c_close .generic

/-- `_txn_commit`. -/
def _txn_commit (K : Consts) (this : Value) (args : List Value) (w : World σ) :
    Outcome × World σ :=
  checked args 1 1 w fun w =>
    let txn := GET_EXTERNAL this "_txn"
    uv_queue_work w
      (async_before K w.heap 0 txn 0 none none (argAt args 0) 0 false)
      .txn_commit .generic

/-- `_txn_abort`. -/
def _txn_abort (K : Consts) (this : Value) (args : List Value) (w : World σ) :
    Outcome × World σ :=
  checked args 1 1 w fun w =>
    let txn := GET_EXTERNAL this "_txn"
    uv_queue_work w
      (async_before K w.heap 0 txn 0 none none (argAt args 0) 0 false)
      .txn_abort .generic

/-- `CHECK_NUMARGS(n, m);` in front of the body of a synchronous operation. -/
def counted (args : List Value) (n m : Nat) (w : World σ)
    (body : World σ → Value × World σ) : Outcome × World σ :=
  if badNumArgs args n m then (.typeError "Wrong number of arguments", w)
  else let r := body w
       (.returned r.1, r.2)

/-- `_txn_wrap`. -/
def _txn_wrap (this : Value) (args : List Value) (w : World σ) : Outcome × World σ :=
  counted args 1 1 w fun w =>
    let txn := GET_EXTERNAL this "_txn"
    let db := GET_EXTERNAL (argAt args 0) "_db"
    (db_object db txn, w)

/-- The access method `_db_open` settles on. -/
def openType (K : Consts) (args : List Value) : Nat :=
  let type := 0
  let type :=
    if args.length > 1 && (argAt args 1).IsObject then
      let o := argAt args 1
      let type := if GET_BOOLEAN o "hash" then K.DB_HASH else type
      let type := if GET_BOOLEAN o "heap" then K.DB_HEAP else type
      let type := if GET_BOOLEAN o "recno" then K.DB_RECNO else type
      let type := if GET_BOOLEAN o "queue" then K.DB_QUEUE else type
      if GET_BOOLEAN o "unknown" then K.DB_UNKNOWN else type
    else type
  if type = 0 then K.DB_BTREE else type

/-- `_db_open`. -/
def _db_open (K : Consts) (E : Engine σ) (this : Value) (args : List Value) (w : World σ) :
    Outcome × World σ :=
  counted args 1 3 w fun w =>
    let txn := GET_EXTERNAL this "_txn"
    let db := GET_EXTERNAL this "_db"
    let dbfile := Utf8Value K (argAt args 0)
    let flags :=
      if args.length > 1 && (argAt args 1).IsObject then get_flags K (argAt args 1) 0 else 0
    let (r, w1) := engineCall E w
      (.db_open db txn dbfile (openType K args) flags
        (if args.length > 2 then K.Uint32Value (argAt args 2) else 0))
    (err_object K r.ret, w1)

/-- `_db_set_flags`. -/
def _db_set_flags (K : Consts) (E : Engine σ) (this : Value) (args : List Value)
    (w : World σ) : Outcome × World σ :=
  counted args 1 1 w fun w =>
    let db := GET_EXTERNAL this "_db"
    let (r, w1) := engineCall E w (.db_set_flags db (get_flags K (argAt args 0) 0))
    (err_object K r.ret, w1)

/-- `_db_close`. -/
def _db_close (K : Consts) (E : Engine σ) (this : Value) (args : List Value) (w : World σ) :
    Outcome × World σ :=
  counted args 0 0 w fun w =>
    let db := GET_EXTERNAL this "_db"
    let (r, w1) := engineCall E w (.db_close db)
    (err_object K r.ret, w1)

/-- `_env_set_flags`. -/
def _env_set_flags (K : Consts) (E : Engine σ) (args : List Value) (w : World σ) :
    Outcome × World σ :=
  counted args 1 2 w fun w =>
    let (r, w1) := engineCall E w
      (.env_set_flags w.dbenv (get_flags K (argAt args 0) 0)
        (if args.length = 1 then 1 else K.Uint32Value (argAt args 1)))
    (err_object K r.ret, w1)

/-- `_env_close`. -/
def _env_close (K : Consts) (E : Engine σ) (args : List Value) (w : World σ) :
    Outcome × World σ :=
  counted args 0 0 w fun w =>
    let (r, w1) := engineCall E w (.env_close w.dbenv)
    (err_object K r.ret, w1)

/-- `_env_open`. -/
def _env_open (K : Consts) (E : Engine σ) (args : List Value) (w : World σ) :
    Outcome × World σ :=
  counted args 2 3 w fun w =>
    let dbhome := Utf8Value K (argAt args 0)
    let flags := get_flags K (argAt args 1) 0
    let (r, w1) := engineCall E w
      (.env_open w.dbenv (if (argAt args 0).IsNull then none else dbhome) flags
        (if args.length > 2 then K.Uint32Value (argAt args 2) else 0))
    (err_object K r.ret, w1)

/-- `_db_create` (`createDb`). -/
def _db_create (E : Engine σ) (args : List Value) (w : World σ) : Outcome × World σ :=
  counted args 0 0 w fun w =>
    let (r, w1) := engineCall E w (.db_create w.dbenv)
    (db_object (r.handle.getD 0) 0, w1)

/-- `_env_create` (`createEnv`). -/
def _env_create (E : Engine σ) (args : List Value) (w : World σ) : Outcome × World σ :=
  counted args 0 0 w fun w =>
    let (r, w1) := engineCall E w .db_env_create
    (env_object, { w1 with dbenv := r.handle.getD w.dbenv })

/-- Call a native function by the name of its C function. -/
def callNative (K : Consts) (E : Engine σ) (fn : String) (this : Value) (args : List Value)
    (w : World σ) : Outcome × World σ :=
  if fn = "_env_txn_begin" then _env_txn_begin K this args w
  else if fn = "_env_set_flags" then _env_set_flags K E args w
  else if fn = "_env_open" then _env_open K E args w
  else if fn = "_env_close" then _env_close K E args w
  else if fn = "_db_cursor" then _db_cursor K this args w
  else if fn = "_db_get" then _db_get K this args w
  else if fn = "_db_put" then _db_put K this args w
  else if fn = "_db_del" then _db_del K this args w
  else if fn = "_db_open" then _db_open K E this args w
  else if fn = "_db_close" then _db_close K E this args w
  else if fn = "_db_set_flags" then _db_set_flags K E this args w
  else if fn = "_cursor_close" then _cursor_close K this args w
  else if fn = "_cursor_get" then _cursor_get K this args w
  else if fn = "_cursor_put" then _cursor_put K this args w
  else if fn = "_cursor_del" then _cursor_del K this args w
  else if fn = "_txn_commit" then _txn_commit K this args w
  else if fn = "_txn_abort" then _txn_abort K this args w
  else if fn = "_txn_wrap" then _txn_wrap this args w
  else if fn = "_db_create" then _db_create E args w
  else if fn = "_env_create" then _env_create E args w
  else (.typeError "not a native function", w)

/-- The method call `recv.name(args...)` on a handle object. -/
def invoke (K : Consts) (E : Engine σ) (recv : Value) (name : String) (args : List Value)
    (w : World σ) : Outcome × World σ :=
  match recv.Get name with
  | .func fn => callNative K E fn recv args w
  | _ => (.typeError "not a function", w)

end

/-! ## Engine models -/

/-- What one engine call does in the allocation model: its return code, the handle it
hands out, and for each descriptor either nothing (`none`) or a fresh engine allocation
holding the given bytes that replaces the descriptor's `data` (and sets `size`); `fill`
maps the old contents of the value descriptor's existing buffer to what the engine leaves
there (`id` when it writes nothing in place). -/
structure Effect where
  ret : Int
  handle : Option Nat
  key : Option Bytes
  val : Option Bytes
  fill : (Nat → Nat) → (Nat → Nat)

/-- Replace the `data` of the descriptor at `d` by a fresh allocation holding `b`. -/
def replaceData (h : Heap) (d : Nat) (b : Option Bytes) : Heap :=
  match b, h.getDBT d with
  | some bytes, some dbt =>
    let p := h.alloc (.raw (Block.ofBytes bytes))
    p.2.store d (.dbt { dbt with data := p.1, size := bytes.length })
  | _, _ => h

/-- Overwrite in place the buffer of the descriptor at `d`. -/
def fillData (h : Heap) (d : Nat) (f : (Nat → Nat) → (Nat → Nat)) : Heap :=
  match h.getDBT d with
  | some dbt =>
    match h.getBlock dbt.data with
    | some b => h.store dbt.data (.raw ⟨b.size, f b.byte⟩)
    | none => h
  | none => h

/-- The heap after an engine call with effect `e` on the descriptors at `kd` and `dd`. -/
def applyEffect (e : Effect) (h : Heap) (kd dd : Nat) : Heap :=
  replaceData (replaceData (fillData h dd e.fill) dd e.val) kd e.key

/-- Modelled from the spec: the storage engine (an external collaborator, not under src/)
in the allocation model.  Every call has the effect `e`; only calls that receive a
descriptor touch it. -/
def modelEngine (e : Effect) : Engine Unit := fun s h c =>
  match c with
  | .db_get _ _ kd dd _ => ⟨e.ret, e.handle, applyEffect e h kd dd, s⟩
  | .db_put _ _ kd dd _ => ⟨e.ret, e.handle, applyEffect e h kd dd, s⟩
  | .c_get _ kd dd _ => ⟨e.ret, e.handle, applyEffect e h kd dd, s⟩
  | .c_put _ kd dd _ => ⟨e.ret, e.handle, applyEffect e h kd dd, s⟩
  | .db_del _ _ kd _ => ⟨e.ret, e.handle, replaceData h kd e.key, s⟩
  | _ => ⟨e.ret, e.handle, h, s⟩

/-- The bytes a descriptor addresses: `size` bytes from `data`. -/
def readDBT (h : Heap) (d : Nat) : Option Bytes :=
  match h.getDBT d with
  | some dbt =>
    match h.getBlock dbt.data with
    | some b => b.read 0 dbt.size
    | none => none
  | none => none

/-- Modelled from the spec: the storage engine (an external collaborator, not under src/)
as a key-value map.  `put` stores the bytes the two descriptors address under the key and
returns 0; `get` looks the key's bytes up and on a hit hands the stored value back in a
fresh allocation that replaces the value descriptor's `data`, on a miss returns the
engine's not-found code; a descriptor that cannot be read gives `EINVAL`; every other call
returns 0 and touches nothing. -/
def kvEngine : Engine (List (Bytes × Bytes)) := fun s h c =>
  match c with
  | .db_put _ _ kd dd _ =>
    match readDBT h kd, readDBT h dd with
    | some k, some v => ⟨0, none, h, (k, v) :: s⟩
    | _, _ => ⟨22, none, h, s⟩
  | .db_get _ _ kd dd _ =>
    match readDBT h kd with
    | some k =>
      match s.lookup k with
      | some v => ⟨0, none, replaceData h dd (some v), s⟩
      | none => ⟨-30988, none, h, s⟩
    | none => ⟨22, none, h, s⟩
  | _ => ⟨0, none, h, s⟩

/-- The scenario `db.put(putArgs...)` run to completion, then `db.get(getArgs...)` run to
completion, on the handle `this`; `none` when a call is rejected or a completion handler
has undefined behaviour. -/
def putThenGet {σ : Type} (K : Consts) (E : Engine σ) (this : Value)
    (putArgs getArgs : List Value) (w : World σ) : Option (World σ) :=
  match _db_put K this putArgs w with
  | (.returned _, w1) =>
    match runNext K E w1 with
    | some w2 =>
      match _db_get K this getArgs w2 with
      | (.returned _, w3) => runNext K E w3
      | (.typeError _, _) => none
    | none => none
  | (.typeError _, _) => none

/-- A sample assignment of the constants, for instantiating theorems: the option at
position `i` of the table gets bit `i mod 32`, the descriptor modes and access methods
get the values of Berkeley DB 5.3. -/
def sampleConsts : Consts where
  flag := fun n => 2 ^ (flagNames.indexOf n % 32)
  DB_DBT_MALLOC := 16
  DB_DBT_USERMEM := 2048
  DB_BTREE := 1
  DB_HASH := 2
  DB_HEAP := 6
  DB_RECNO := 3
  DB_QUEUE := 4
  DB_UNKNOWN := 5
  db_strerror := fun c => if c = -30988 then [110, 111] else [63]
  ToString := fun _ => none
  Uint32Value := fun _ => 0
  throws := fun _ _ => false

/-- An empty heap. -/
def Heap.empty : Heap := ⟨0, fun _ => none, [], fun _ _ => 0⟩

/-- A world with nothing in it. -/
def World.empty : World Unit := ⟨Heap.empty, 0, (), [], [], [], false, 0⟩

/-- A world with nothing in it whose fresh allocations come filled with `0xFF` bytes. -/
def World.stale : World Unit := ⟨⟨0, fun _ => none, [], fun _ _ => 255⟩, 0, (), [], [], [], false, 0⟩

/-- A world with nothing in it, over the key-value engine with an empty map. -/
def World.kvEmpty : World (List (Bytes × Bytes)) := ⟨Heap.empty, 0, [], [], [], [], false, 0⟩

/-! ## Ownership bookkeeping used by the proofs -/

/-- The addresses `async_after` frees for one descriptor whose buffer pointer was `orig`
when the task was built and is `cur` when the task completes. -/
def slotFrees (orig cur : Nat) : List Nat :=
  if cur = 0 then [] else (if orig ≠ 0 ∧ orig ≠ cur then [orig] else []) ++ [cur]

/-- The heap after the allocations in `L` were freed, in that order. -/
def Heap.release (h : Heap) (L : List Nat) : Heap :=
  { h with cells := fun a => if a ∈ L then none else h.cells a, frees := h.frees ++ L }

/-- Every address `async_after` frees for a query task with descriptors `DK` and `DV`, in
the order of the calls. -/
def freeList (t : Req) (DK DV : DBT) : List Nat :=
  slotFrees t.data.value DV.data ++ slotFrees t.data.key DK.data
    ++ [t.data.key_dbt, t.data.data_dbt, t.datap, t.req]

/-- The bulk decoder of `async_after` stays inside the receive buffer: whenever the value
descriptor at `dd` is a pre-sized receive buffer, decoding it yields a result. -/
def bulkSafe (K : Consts) (flags : Nat) (h : Heap) (dd : Nat) : Prop :=
  ∀ d b, h.getDBT dd = some d → d.data ≠ 0 → d.flags &&& K.DB_DBT_USERMEM ≠ 0 →
    h.getBlock d.data = some b → (decodeBulk K flags d b).isSome = true

/-- The value `async_after` computes for `result` from the value descriptor and its buffer. -/
def valuePart (K : Consts) (flags : Nat) (DV : DBT) (VB : Block) : Option Value :=
  if DV.data = 0 then some .undefined
  else if DV.flags &&& K.DB_DBT_USERMEM ≠ 0 then decodeBulk K flags DV VB
  else String_New (some (VB, 0)) DV.size

/-- The value `async_after` computes for `keyresult` from the key descriptor and its buffer. -/
def keyPart (DK : DBT) (KB : Block) : Option Value :=
  if DK.data = 0 then some .undefined else String_New (some (KB, 0)) DK.size

/-- The heap `h` grew out of `h0` by allocation only: every address handed out since is
live, everything else is as it was, and nothing was freed. -/
structure Grown (h0 h : Heap) : Prop where
  le : h0.next ≤ h.next
  live : ∀ a, h0.next < a → a ≤ h.next → (h.cells a).isSome = true
  frame : ∀ a, ¬(h0.next < a ∧ a ≤ h.next) → h.cells a = h0.cells a
  frees : h.frees = h0.frees
  junk : h.junk = h0.junk

/-- A heap `h` that holds, on top of `h0`, exactly the allocations of the query task `t`:
its two descriptors `DK`, `DV`, their current buffers `KB`, `VB`, the buffers the task
started with, and the two task records; `async_after` frees each of them once. -/
structure Ready (h0 h : Heap) (t : Req) (DK DV : DBT) (KB VB : Block) : Prop where
  hkd : h.cells t.data.key_dbt = some (.dbt DK)
  hdd : h.cells t.data.data_dbt = some (.dbt DV)
  hvb : DV.data ≠ 0 → h.cells DV.data = some (.raw VB)
  hkb : DK.data ≠ 0 → h.cells DK.data = some (.raw KB)
  grown : Grown h0 h
  nodup : (freeList t DK DV).Nodup
  cover : ∀ a, a ∈ freeList t DK DV ↔ h0.next < a ∧ a ≤ h.next
  ksz : DK.size ≤ KB.size
  vsz : DV.size ≤ VB.size

/-- The descriptor `dbt_set` builds on heap `h`; `um` tells whether `flags` has
`DB_DBT_USERMEM`. -/
def dbtOf (h : Heap) (buf : Option Bytes) (flags : Nat) (um : Bool) : DBT :=
  match buf with
  | some s => ⟨h.next + 2, strlen s, 0, flags⟩
  | none => if um then ⟨h.next + 2, 0, BUFFER_LENGTH, flags⟩ else ⟨0, 0, 0, flags⟩

/-- The buffer `dbt_set` builds on heap `h`, when it builds one. -/
def blockOf (h : Heap) (buf : Option Bytes) : Block :=
  match buf with
  | some s => (Block.mk (strlen s) (h.junk (h.next + 2))).write s (strlen s)
  | none => ⟨BUFFER_LENGTH, h.junk (h.next + 2)⟩

/-- The heap after `async_before` allocated the two task records. -/
def heap2 (h0 : Heap) : Heap := ((h0.alloc .node).2.alloc .node).2

/-- The heap after `async_before` built the key descriptor. -/
def heap3 (K : Consts) (h0 : Heap) (key : Option Bytes) : Heap :=
  (dbt_set K (heap2 h0) key K.DB_DBT_MALLOC).2

/-- The flags `async_before` gives the value descriptor. -/
def valFlags (K : Consts) (value : Option Bytes) (flags : Nat) : Nat :=
  if value.isSome then 0
  else if bulkFlags K flags then K.DB_DBT_USERMEM else K.DB_DBT_MALLOC

/-- The key descriptor of a fresh query task. -/
def keyD (K : Consts) (h0 : Heap) (key : Option Bytes) : DBT :=
  dbtOf (heap2 h0) key K.DB_DBT_MALLOC false

/-- The key buffer of a fresh query task. -/
def keyB (h0 : Heap) (key : Option Bytes) : Block := blockOf (heap2 h0) key

/-- The value descriptor of a fresh query task. -/
def valD (K : Consts) (h0 : Heap) (key value : Option Bytes) (flags : Nat) : DBT :=
  dbtOf (heap3 K h0 key) value (valFlags K value flags) (!value.isSome && bulkFlags K flags)

/-- The value buffer of a fresh query task. -/
def valB (K : Consts) (h0 : Heap) (key value : Option Bytes) : Block :=
  blockOf (heap3 K h0 key) value

/-- The key descriptor after an engine call with effect `e` on a heap whose last address
was `n`. -/
def effKeyD (e : Effect) (n : Nat) (DK : DBT) : DBT :=
  match e.key with
  | some b => { DK with data := n + (if e.val.isSome then 2 else 1), size := b.length }
  | none => DK

/-- The value descriptor after an engine call with effect `e`. -/
def effValD (e : Effect) (n : Nat) (DV : DBT) : DBT :=
  match e.val with
  | some b => { DV with data := n + 1, size := b.length }
  | none => DV

/-- The key buffer after an engine call with effect `e`. -/
def effKeyB (e : Effect) (KB : Block) : Block :=
  match e.key with
  | some b => Block.ofBytes b
  | none => KB

/-- The value buffer after an engine call with effect `e`. -/
def effValB (e : Effect) (VB : Block) : Block :=
  match e.val with
  | some b => Block.ofBytes b
  | none => ⟨VB.size, e.fill VB.byte⟩

/-- The task an operation hands to `uv_queue_work`, and the world in which its work
function starts: `async_before(db, txn, cur, key, value, cb, flags, query)` paired with
the operation's work function and completion handler. -/
def submitted {σ : Type} (K : Consts) (w : World σ) (db txn cur : Nat)
    (key value : Option Bytes) (cb : Value) (flags : Nat) (query : Bool) (work : Work)
    (after : After) : Task × World σ :=
  (⟨(async_before K w.heap db txn cur key value cb flags query).1, work, after⟩,
   { w with heap := (async_before K w.heap db txn cur key value cb flags query).2 })

/-- The task and the world after the work function of a submitted task ran. -/
def worked {σ : Type} (E : Engine σ) (x : Task × World σ) : Task × World σ :=
  runWork E x.1 x.2

/-- A sample engine effect: success, with a fresh three-byte buffer for the value. -/
def sampleHit : Effect := ⟨0, none, none, some [1, 2, 3], id⟩

/-- A sample engine effect: the engine's not-found code, nothing touched. -/
def sampleMiss : Effect := ⟨-30988, none, none, none, id⟩

/-- A sample engine: every call succeeds, hands out handle 5 and touches nothing. -/
def idleEngine : Engine Unit := fun s h _ => ⟨0, some 5, h, s⟩

/-! ## Bulk buffer layouts -/

/-- The buffer `b`, read from the word at offset `p` downwards, holds exactly the records
`recs` in the engine's `DB_MULTIPLE` format: per record a word with the offset of its
bytes and below it a word with its length, then the end mark. -/
def multipleLayout (b : Block) : Nat → List Bytes → Bool
  | p, [] => b.rd32 p == some 4294967295
  | p, r :: rs =>
    match b.rd32 p with
    | some off =>
      off != 4294967295 && decide (8 ≤ p) && b.rd32 (p - 4) == some r.length
        && (r.isEmpty || b.read off r.length == some r) && multipleLayout b (p - 8) rs
    | none => false

/-- The four bytes of the `u_int32_t` value `v` stored at offset `a`, low byte first. -/
def le32 (a v : Nat) : List (Nat × Nat) :=
  [(a, v % 256), (a + 1, v / 256 % 256), (a + 2, v / 65536 % 256), (a + 3, v / 16777216 % 256)]

/-- Store the listed bytes over the contents `f`. -/
def poke (cells : List (Nat × Nat)) (f : Nat → Nat) : Nat → Nat :=
  fun a => match cells.lookup a with
    | some v => v
    | none => f a

/-- An engine call that fills the bulk buffer with the two records `ab` and `c`. -/
def sampleBulk : Effect :=
  ⟨0, none, none, none,
    poke ([(0, 97), (1, 98), (2, 99)] ++ le32 5242876 0 ++ le32 5242872 2 ++ le32 5242868 2
      ++ le32 5242864 1 ++ le32 5242860 4294967295)⟩

/-- An engine call that leaves the bulk buffer holding no record. -/
def sampleBulkNone : Effect :=
  ⟨0, none, none, none, poke (le32 5242876 4294967295)⟩

/-- A sample engine: every call fails with code 12 and stores no handle. -/
def failEngine : Engine Unit := fun s h _ => ⟨12, none, h, s⟩

/-! ## Lemmas -/

theorem async_before_fields (K : Consts) (h : Heap) (db txn cur : Nat)
    (key value : Option Bytes) (cb : Value) (flags : Nat) (query : Bool) :
    (async_before K h db txn cur key value cb flags query).1.data.flags = flags
    ∧ (async_before K h db txn cur key value cb flags query).1.data.callback = cb
    ∧ (async_before K h db txn cur key value cb flags query).1.data.db = db
    ∧ (async_before K h db txn cur key value cb flags query).1.data.txn = txn
    ∧ (async_before K h db txn cur key value cb flags query).1.data.cur = cur := by
  cases query <;> simp [async_before]

theorem release_nil (h : Heap) : h.release [] = h := by
  simp [Heap.release]

theorem release_release (h : Heap) (A B : List Nat) :
    (h.release A).release B = h.release (A ++ B) := by
  simp only [Heap.release, List.append_assoc, List.mem_append]
  congr 1
  funext a
  by_cases hB : a ∈ B <;> by_cases hA : a ∈ A <;> simp [hA, hB]

theorem release_cells (h : Heap) (L : List Nat) (a : Nat) (ha : a ∉ L) :
    (h.release L).cells a = h.cells a := by
  simp [Heap.release, ha]

theorem free_release (h : Heap) (A : List Nat) (p : Nat) (hp : p ≠ 0) (hA : p ∉ A)
    (hl : (h.cells p).isSome = true) :
    (h.release A).free p = some (h.release (A ++ [p])) := by
  obtain ⟨c, hc⟩ := Option.isSome_iff_exists.mp hl
  have h1 : (h.release A).find p = some c := by
    simp [Heap.find, hp, release_cells h A p hA, hc]
  simp only [Heap.free, hp, if_false, h1]
  congr 1
  simp only [Heap.release, List.append_assoc, List.mem_append, List.mem_singleton]
  congr 1
  funext a
  by_cases h2 : a = p <;> by_cases h3 : a ∈ A <;> simp [h2, h3]

theorem freeBoth_release (h : Heap) (A : List Nat) (orig cur : Nat) (hc : cur ≠ 0)
    (hcA : cur ∉ A) (hcl : (h.cells cur).isSome = true)
    (hoA : orig ≠ 0 → orig ≠ cur → orig ∉ A)
    (hol : orig ≠ 0 → orig ≠ cur → (h.cells orig).isSome = true) :
    (h.release A).freeBoth orig cur = some (h.release (A ++ slotFrees orig cur)) := by
  unfold Heap.freeBoth slotFrees
  by_cases ho : orig ≠ 0 ∧ orig ≠ cur
  · rw [if_neg hc, if_pos ho, if_pos ho,
      free_release h A orig ho.1 (hoA ho.1 ho.2) (hol ho.1 ho.2)]
    show (h.release (A ++ [orig])).free cur = _
    rw [free_release h (A ++ [orig]) cur hc (by simp [hcA]; exact fun h => ho.2 h.symm) hcl]
    simp
  · rw [if_neg hc, if_neg ho, if_neg ho]
    exact free_release h A cur hc hcA hcl

theorem Ready.live {h0 h : Heap} {t : Req} {DK DV : DBT} {KB VB : Block}
    (R : Ready h0 h t DK DV KB VB) (a : Nat) (ha : a ∈ freeList t DK DV) :
    (h.cells a).isSome = true :=
  R.grown.live a ((R.cover a).mp ha).1 ((R.cover a).mp ha).2

theorem afterValue_ready (K : Consts) {h0 h : Heap} {t : Req} {DK DV : DBT} {KB VB : Block}
    (R : Ready h0 h t DK DV KB VB) (res : Value)
    (hres : valuePart K t.data.flags DV VB = some res) :
    afterValue K t.data DV h = some (res, h.release (slotFrees t.data.value DV.data)) := by
  unfold afterValue
  by_cases hv : DV.data = 0
  · simp [valuePart, hv] at hres
    simp [hv, slotFrees, release_nil, hres]
  · have hb : h.getBlock DV.data = some VB := by
      simp [Heap.getBlock, Heap.find, hv, R.hvb hv]
    simp only [valuePart, hv, if_false] at hres
    simp only [ne_eq, hv, not_false_eq_true, if_true, hb, Option.bind_some, Option.map_some']
    have hmem : DV.data ∈ freeList t DK DV := by simp [freeList, slotFrees, hv]
    have hf := freeBoth_release h [] t.data.value DV.data hv (by simp) (R.live _ hmem) (by simp)
      (fun h1 h2 => R.live _ (by simp [freeList, slotFrees, hv, h1, h2]))
    rw [release_nil] at hf
    simp only [List.nil_append] at hf
    rw [hf]
    split at hres <;> simp_all
theorem freeList_pos {h0 h : Heap} {t : Req} {DK DV : DBT} {KB VB : Block}
    (R : Ready h0 h t DK DV KB VB) (a : Nat) (ha : a ∈ freeList t DK DV) : a ≠ 0 := by
  have := (R.cover a).mp ha
  omega

theorem afterKey_ready {h0 h : Heap} {t : Req} {DK DV : DBT} {KB VB : Block}
    (R : Ready h0 h t DK DV KB VB) (kres : Value) (hres : keyPart DK KB = some kres) :
    afterKey t.data DK (h.release (slotFrees t.data.value DV.data))
      = some (kres, h.release (slotFrees t.data.value DV.data ++ slotFrees t.data.key DK.data)) := by
  unfold afterKey
  have hnd := R.nodup
  simp only [freeList, List.append_assoc, List.nodup_append] at hnd
  by_cases hk : DK.data = 0
  · simp [keyPart, hk] at hres
    simp [hk, slotFrees, hres]
  · have hmem : DK.data ∈ slotFrees t.data.key DK.data := by simp [slotFrees, hk]
    have hnv : DK.data ∉ slotFrees t.data.value DV.data := by
      intro h1
      exact hnd.2.2 h1 (by simp [hmem])
    have hb : (h.release (slotFrees t.data.value DV.data)).getBlock DK.data = some KB := by
      simp [Heap.getBlock, Heap.find, hk, release_cells _ _ _ hnv, R.hkb hk]
    simp only [keyPart, hk, if_false] at hres
    simp only [ne_eq, hk, not_false_eq_true, if_true, hb, Option.map_some', hres]
    rw [freeBoth_release h _ t.data.key DK.data hk hnv
      (R.live _ (by simp [freeList, hmem]))
      (fun h1 h2 h3 => hnd.2.2 h3 (by simp [slotFrees, hk, h1, h2]))
      (fun h1 h2 => R.live _ (by simp [freeList, slotFrees, hk, h1, h2]))]
    simp

theorem not_mem_snoc {A : List Nat} {a p : Nat} (h1 : a ∉ A) (h2 : a ≠ p) : a ∉ A ++ [p] := by
  simp [h1, h2]

theorem async_after_ready (K : Consts) {h0 h : Heap} {t : Req} {DK DV : DBT} {KB VB : Block}
    (R : Ready h0 h t DK DV KB VB) (res kres : Value)
    (hres : valuePart K t.data.flags DV VB = some res) (hkres : keyPart DK KB = some kres) :
    async_after K t h = some ⟨h.release (freeList t DK DV),
      ⟨t.data.callback, [err_object K t.data.err, res, kres]⟩,
      K.throws t.data.callback [err_object K t.data.err, res, kres]⟩ := by
  have hpos := freeList_pos R
  have hlive := R.live
  have hnd : ((slotFrees t.data.value DV.data ++ slotFrees t.data.key DK.data)
      ++ [t.data.key_dbt, t.data.data_dbt, t.datap, t.req]).Nodup := by
    have := R.nodup
    simpa [freeList] using this
  obtain ⟨-, hB, hdis⟩ := List.nodup_append.mp hnd
  simp only [List.nodup_cons, List.mem_cons, List.mem_singleton, not_or, List.not_mem_nil,
    not_false_eq_true, List.nodup_nil, and_true] at hB
  obtain ⟨⟨n1, n2, n3⟩, ⟨n4, n5⟩, n6⟩ := hB
  have d1 : t.data.key_dbt ∉ slotFrees t.data.value DV.data ++ slotFrees t.data.key DK.data :=
    fun hm => hdis hm (by simp)
  have d2 : t.data.data_dbt ∉ slotFrees t.data.value DV.data ++ slotFrees t.data.key DK.data :=
    fun hm => hdis hm (by simp)
  have d3 : t.datap ∉ slotFrees t.data.value DV.data ++ slotFrees t.data.key DK.data :=
    fun hm => hdis hm (by simp)
  have d4 : t.req ∉ slotFrees t.data.value DV.data ++ slotFrees t.data.key DK.data :=
    fun hm => hdis hm (by simp)
  have hkd0 : t.data.key_dbt ≠ 0 := hpos _ (by simp [freeList])
  have hdd0 : t.data.data_dbt ≠ 0 := hpos _ (by simp [freeList])
  have hdp0 : t.datap ≠ 0 := hpos _ (by simp [freeList])
  have hrq0 : t.req ≠ 0 := hpos _ (by simp [freeList])
  have h1 : h.getDBT t.data.key_dbt = some DK := by
    simp [Heap.getDBT, Heap.find, hkd0, R.hkd]
  have h2 : h.getDBT t.data.data_dbt = some DV := by
    simp [Heap.getDBT, Heap.find, hdd0, R.hdd]
  unfold async_after
  simp only [ne_eq, hkd0, not_false_eq_true, if_true, h1, h2, afterValue_ready K R res hres,
    afterKey_ready R kres hkres]
  rw [free_release h _ _ hkd0 d1 (hlive _ (by simp [freeList]))]
  simp only
  rw [free_release h _ _ hdd0 (not_mem_snoc d2 (Ne.symm n1))
    (hlive _ (by simp [freeList]))]
  simp only [ASYNC_AFTER_TAIL]
  rw [free_release h _ _ hdp0 (not_mem_snoc (not_mem_snoc d3 (Ne.symm n2)) (Ne.symm n4))
    (hlive _ (by simp [freeList]))]
  simp only
  rw [free_release h _ _ hrq0
    (not_mem_snoc (not_mem_snoc (not_mem_snoc d4 (Ne.symm n3)) (Ne.symm n5)) (Ne.symm n6))
    (hlive _ (by simp [freeList]))]
  simp [freeList]

theorem release_restores {h0 h : Heap} {t : Req} {DK DV : DBT} {KB VB : Block}
    (R : Ready h0 h t DK DV KB VB) (hwf : ∀ a, h0.next < a → h0.cells a = none) :
    (h.release (freeList t DK DV)).cells = h0.cells := by
  funext a
  by_cases ha : a ∈ freeList t DK DV
  · simp [Heap.release, ha, hwf a ((R.cover a).mp ha).1]
  · simp [Heap.release, ha, R.grown.frame a (fun hc => ha ((R.cover a).mpr hc))]

theorem tail_spec (K : Consts) (t : Req) (h : Heap) (argn : Nat) (res kres : Value)
    (hd0 : t.datap ≠ 0) (hr0 : t.req ≠ 0) (hne : t.req ≠ t.datap)
    (hd : (h.cells t.datap).isSome = true) (hr : (h.cells t.req).isSome = true) :
    ASYNC_AFTER_TAIL K t h argn res kres = some ⟨h.release [t.datap, t.req],
      ⟨t.data.callback, [err_object K t.data.err, res, kres].take argn⟩,
      K.throws t.data.callback ([err_object K t.data.err, res, kres].take argn)⟩ := by
  unfold ASYNC_AFTER_TAIL
  have h1 := free_release h [] t.datap hd0 (by simp) hd
  rw [release_nil] at h1
  simp only [h1, List.nil_append]
  rw [free_release h [t.datap] t.req hr0 (by simpa using hne) hr]
  rfl

theorem Grown.refl (h : Heap) : Grown h h :=
  ⟨le_refl _, fun a h1 h2 => absurd h2 (by omega), fun _ _ => rfl, rfl, rfl⟩

theorem Grown.trans {h0 h1 h2 : Heap} (g1 : Grown h0 h1) (g2 : Grown h1 h2) : Grown h0 h2 := by
  refine ⟨le_trans g1.le g2.le, ?_, ?_, g2.frees.trans g1.frees, g2.junk.trans g1.junk⟩
  · intro a h3 h4
    by_cases h5 : a ≤ h1.next
    · rw [g2.frame a (by omega)]
      exact g1.live a h3 h5
    · exact g2.live a (by omega) h4
  · intro a h3
    have := g1.le
    have := g2.le
    rw [g2.frame a (by omega), g1.frame a (by omega)]

theorem Grown.alloc (h : Heap) (c : Cell) : Grown h (h.alloc c).2 := by
  refine ⟨by simp [Heap.alloc], ?_, ?_, rfl, rfl⟩
  · intro a h1 h2
    have : a = h.next + 1 := by simp [Heap.alloc] at h2; omega
    simp [Heap.alloc, this]
  · intro a h1
    have : a ≠ h.next + 1 := by simp [Heap.alloc] at h1; omega
    simp [Heap.alloc, this]

theorem Grown.store {h0 h : Heap} (g : Grown h0 h) (p : Nat) (c : Cell) (h1 : h0.next < p)
    (h2 : p ≤ h.next) : Grown h0 (h.store p c) := by
  refine ⟨g.le, ?_, ?_, g.frees, g.junk⟩
  · intro a h3 h4
    by_cases h5 : a = p
    · simp [Heap.store, h5]
    · simpa [Heap.store, h5] using g.live a h3 h4
  · intro a h3
    have : a ≠ p := by
      intro h5
      exact h3 (by simpa [Heap.store, h5] using And.intro h1 h2)
    simpa [Heap.store, this] using g.frame a h3

theorem dbt_set_spec (K : Consts) (h : Heap) (buf : Option Bytes) (f : Nat) (um : Bool)
    (hum : (f &&& K.DB_DBT_USERMEM ≠ 0) ↔ um = true) :
    (dbt_set K h buf f).1 = h.next + 1
    ∧ (dbt_set K h buf f).2.cells (h.next + 1) = some (.dbt (dbtOf h buf f um))
    ∧ ((dbtOf h buf f um).data ≠ 0 →
        (dbt_set K h buf f).2.cells (dbtOf h buf f um).data = some (.raw (blockOf h buf)))
    ∧ ((dbtOf h buf f um).data = 0 ∧ (dbt_set K h buf f).2.next = h.next + 1
        ∨ (dbtOf h buf f um).data = h.next + 2 ∧ (dbt_set K h buf f).2.next = h.next + 2)
    ∧ Grown h (dbt_set K h buf f).2 := by
  rcases buf with _ | s
  · rcases um with _ | _
    · have hf : f &&& K.DB_DBT_USERMEM = 0 := by simpa using hum
      refine ⟨by simp [dbt_set, hf, Heap.alloc], by simp [dbt_set, hf, Heap.alloc, Heap.store, dbtOf],
        by simp [dbtOf], by simp [dbt_set, hf, Heap.alloc, Heap.store, dbtOf], ?_⟩
      simp only [dbt_set, hf, ne_eq, not_true_eq_false, if_false]
      exact (Grown.alloc h _).store _ _ (by simp [Heap.alloc, Heap.store]) (by simp [Heap.alloc, Heap.store])
    · have hf : f &&& K.DB_DBT_USERMEM ≠ 0 := by simpa using hum
      refine ⟨by simp [dbt_set, hf, Heap.alloc],
        by simp [dbt_set, hf, Heap.alloc, Heap.malloc, Heap.store, dbtOf],
        by simp [dbt_set, hf, Heap.alloc, Heap.malloc, Heap.store, dbtOf, blockOf, Nat.add_assoc],
        by simp [dbt_set, hf, Heap.alloc, Heap.malloc, Heap.store, dbtOf, Nat.add_assoc], ?_⟩
      simp only [dbt_set, hf, ne_eq, not_false_eq_true, if_true, Heap.malloc]
      exact ((Grown.alloc h _).trans (Grown.alloc _ _)).store _ _ (by simp [Heap.alloc, Heap.store])
        (by simp [Heap.alloc, Heap.store])
  · refine ⟨by simp [dbt_set, Heap.alloc],
      by simp [dbt_set, Heap.alloc, Heap.malloc, Heap.store, dbtOf],
      by simp [dbt_set, Heap.alloc, Heap.malloc, Heap.store, dbtOf, blockOf, Nat.add_assoc],
      by simp [dbt_set, Heap.alloc, Heap.malloc, Heap.store, dbtOf, Nat.add_assoc], ?_⟩
    simp only [dbt_set, Heap.malloc]
    exact (((Grown.alloc h _).trans (Grown.alloc _ _)).store _ _
      (by simp only [Heap.alloc]; omega) (by simp [Heap.alloc, Heap.store])).store _ _ (by simp [Heap.alloc, Heap.store])
        (by simp [Heap.alloc, Heap.store])

theorem valFlags_um (K : Consts) (hK : K.WF) (value : Option Bytes) (flags : Nat) :
    (valFlags K value flags &&& K.DB_DBT_USERMEM ≠ 0)
      ↔ (!value.isSome && bulkFlags K flags) = true := by
  have hm := hK.malloc_usermem
  have hu := hK.usermem_ne
  rcases value with _ | v <;> rcases hb : bulkFlags K flags <;>
    simp [valFlags, hb, hm, hu, Nat.and_self]

theorem heap2_next (h0 : Heap) : (heap2 h0).next = h0.next + 2 := by
  simp [heap2, Heap.alloc]

theorem heap2_grown (h0 : Heap) : Grown h0 (heap2 h0) :=
  (Grown.alloc h0 _).trans (Grown.alloc _ _)

theorem heap3_spec (K : Consts) (hK : K.WF) (h0 : Heap) (key : Option Bytes) :
    (heap3 K h0 key).cells (h0.next + 3) = some (.dbt (keyD K h0 key))
    ∧ ((keyD K h0 key).data ≠ 0 →
        (heap3 K h0 key).cells (keyD K h0 key).data = some (.raw (keyB h0 key)))
    ∧ ((keyD K h0 key).data = 0 ∧ (heap3 K h0 key).next = h0.next + 3
        ∨ (keyD K h0 key).data = h0.next + 4 ∧ (heap3 K h0 key).next = h0.next + 4)
    ∧ Grown (heap2 h0) (heap3 K h0 key) := by
  have hs := dbt_set_spec K (heap2 h0) key K.DB_DBT_MALLOC false
    (by simp [hK.malloc_usermem])
  simp only [heap2_next] at hs
  exact ⟨hs.2.1, hs.2.2.1, hs.2.2.2.1, hs.2.2.2.2⟩

theorem async_before_ready (K : Consts) (hK : K.WF) (h0 : Heap) (db txn cur : Nat)
    (key value : Option Bytes) (cb : Value) (flags : Nat) :
    Ready h0 (async_before K h0 db txn cur key value cb flags true).2
      (async_before K h0 db txn cur key value cb flags true).1
      (keyD K h0 key) (valD K h0 key value flags) (keyB h0 key) (valB K h0 key value)
    ∧ (async_before K h0 db txn cur key value cb flags true).1.data.key = (keyD K h0 key).data
    ∧ (async_before K h0 db txn cur key value cb flags true).1.data.value
        = (valD K h0 key value flags).data
    ∧ (async_before K h0 db txn cur key value cb flags true).1.data.key_dbt = h0.next + 3
    ∧ (async_before K h0 db txn cur key value cb flags true).1.data.data_dbt
        = (heap3 K h0 key).next + 1 := by
  obtain ⟨k1, k2, k3, k4⟩ := heap3_spec K hK h0 key
  obtain ⟨v0, v1, v2, v3, v4⟩ := dbt_set_spec K (heap3 K h0 key) value (valFlags K value flags)
    (!value.isSome && bulkFlags K flags) (valFlags_um K hK value flags)
  have hd : (dbt_set K (heap2 h0) key K.DB_DBT_MALLOC).1 = h0.next + 3 := by
    have := (dbt_set_spec K (heap2 h0) key K.DB_DBT_MALLOC false
      (by simp [hK.malloc_usermem])).1
    simpa [heap2_next] using this
  have e2 : (async_before K h0 db txn cur key value cb flags true).2
      = (dbt_set K (heap3 K h0 key) value (valFlags K value flags)).2 := rfl
  have g24 : Grown (heap3 K h0 key) (dbt_set K (heap3 K h0 key) value (valFlags K value flags)).2 := v4
  have hle3 : h0.next + 3 ≤ (heap3 K h0 key).next := by rcases k3 with h | h <;> omega
  have c3 : (dbt_set K (heap3 K h0 key) value (valFlags K value flags)).2.cells (h0.next + 3)
      = some (.dbt (keyD K h0 key)) := by
    rw [g24.frame _ (by omega)]; exact k1
  have ck : (keyD K h0 key).data ≠ 0 →
      (dbt_set K (heap3 K h0 key) value (valFlags K value flags)).2.cells (keyD K h0 key).data
        = some (.raw (keyB h0 key)) := by
    intro hne
    rw [g24.frame _ (by rcases k3 with h | h <;> omega)]
    exact k2 hne
  have hkey : (dbt_set K (heap3 K h0 key) value (valFlags K value flags)).2.dataOf (h0.next + 3)
      = (keyD K h0 key).data := by
    simp [Heap.dataOf, Heap.getDBT, Heap.find, c3]
  have hval : (dbt_set K (heap3 K h0 key) value (valFlags K value flags)).2.dataOf
      ((heap3 K h0 key).next + 1) = (valD K h0 key value flags).data := by
    simp [Heap.dataOf, Heap.getDBT, Heap.find, v1, valD]
  have e1 : (async_before K h0 db txn cur key value cb flags true).1
      = ⟨h0.next + 1, h0.next + 2,
          ⟨db, txn, cur, h0.next + 3, (heap3 K h0 key).next + 1, flags,
            (keyD K h0 key).data, (valD K h0 key value flags).data, cb, 0, 0⟩⟩ := by
    simp only [heap3, heap2, valFlags] at hd v0 hkey hval
    simp only [async_before, if_true, hd, v0, hkey, hval]
    simp [Heap.alloc, heap3, heap2]
  rw [e1, e2]
  have v3' : ((valD K h0 key value flags).data = 0
        ∧ (dbt_set K (heap3 K h0 key) value (valFlags K value flags)).2.next
            = (heap3 K h0 key).next + 1)
      ∨ ((valD K h0 key value flags).data = (heap3 K h0 key).next + 2
        ∧ (dbt_set K (heap3 K h0 key) value (valFlags K value flags)).2.next
            = (heap3 K h0 key).next + 2) := v3
  refine ⟨⟨c3, v1, v2, ck, (heap2_grown h0).trans (k4.trans v4), ?_, ?_, ?_, ?_⟩,
    rfl, rfl, rfl, rfl⟩
  · simp only [freeList]
    generalize (valD K h0 key value flags).data = vd at v3'
    generalize (keyD K h0 key).data = kd at k3
    generalize (heap3 K h0 key).next = n3 at k3 v3'
    rcases k3 with ⟨ka, kb⟩ | ⟨ka, kb⟩ <;> rcases v3' with ⟨va, vb⟩ | ⟨va, vb⟩ <;>
      subst ka va kb <;> simp [slotFrees]
  · intro a
    simp only [freeList]
    generalize (valD K h0 key value flags).data = vd at v3'
    generalize (keyD K h0 key).data = kd at k3
    generalize (dbt_set K (heap3 K h0 key) value (valFlags K value flags)).2.next = n4 at v3'
    generalize (heap3 K h0 key).next = n3 at k3 v3'
    rcases k3 with ⟨ka, kb⟩ | ⟨ka, kb⟩ <;> rcases v3' with ⟨va, vb⟩ | ⟨va, vb⟩ <;>
      subst ka va kb vb <;> simp [slotFrees] <;> omega
  · rcases key with _ | k <;> simp [keyD, keyB, dbtOf, blockOf, Block.write]
  · rcases value with _ | v
    · rcases hb : bulkFlags K flags <;> simp [valD, valB, dbtOf, blockOf, hb]
    · simp [valD, valB, dbtOf, blockOf, Block.write]

theorem mem_slotFrees_cur (orig cur : Nat) (h : cur ≠ 0) : cur ∈ slotFrees orig cur := by
  simp [slotFrees, h]

theorem Ready.facts {h0 h : Heap} {t : Req} {DK DV : DBT} {KB VB : Block}
    (R : Ready h0 h t DK DV KB VB) :
    t.data.key_dbt ≠ t.data.data_dbt
    ∧ (h0.next < t.data.key_dbt ∧ t.data.key_dbt ≤ h.next)
    ∧ (h0.next < t.data.data_dbt ∧ t.data.data_dbt ≤ h.next)
    ∧ (DK.data ≠ 0 → DK.data ≠ t.data.key_dbt ∧ DK.data ≠ t.data.data_dbt
        ∧ h0.next < DK.data ∧ DK.data ≤ h.next)
    ∧ (DV.data ≠ 0 → DV.data ≠ t.data.key_dbt ∧ DV.data ≠ t.data.data_dbt
        ∧ h0.next < DV.data ∧ DV.data ≤ h.next)
    ∧ (DK.data ≠ 0 → DV.data ≠ 0 → DK.data ≠ DV.data) := by
  have hnd : (slotFrees t.data.value DV.data ++ (slotFrees t.data.key DK.data
      ++ [t.data.key_dbt, t.data.data_dbt, t.datap, t.req])).Nodup := by
    have := R.nodup
    simpa [freeList] using this
  obtain ⟨-, hB, hdv⟩ := List.nodup_append.mp hnd
  obtain ⟨-, hC, hdk⟩ := List.nodup_append.mp hB
  have hc := R.cover
  simp only [List.nodup_cons, List.mem_cons, List.mem_singleton, not_or] at hC
  refine ⟨hC.1.1, (hc _).mp (by simp [freeList]), (hc _).mp (by simp [freeList]), ?_, ?_, ?_⟩
  · intro hk
    have hm := mem_slotFrees_cur t.data.key DK.data hk
    have h1 := (hc DK.data).mp (by simp [freeList, hm])
    exact ⟨fun e => hdk hm (by simp [e]), fun e => hdk hm (by simp [e]), h1.1, h1.2⟩
  · intro hv
    have hm := mem_slotFrees_cur t.data.value DV.data hv
    have h1 := (hc DV.data).mp (by simp [freeList, hm])
    exact ⟨fun e => hdv hm (by simp [e]), fun e => hdv hm (by simp [e]), h1.1, h1.2⟩
  · intro hk hv e
    exact hdv (mem_slotFrees_cur t.data.value DV.data hv)
      (by simp [← e, mem_slotFrees_cur t.data.key DK.data hk])

theorem fillData_ready {h0 h : Heap} {t : Req} {DK DV : DBT} {KB VB : Block}
    (R : Ready h0 h t DK DV KB VB) (f : (Nat → Nat) → (Nat → Nat)) :
    Ready h0 (fillData h t.data.data_dbt f) t DK DV KB ⟨VB.size, f VB.byte⟩ := by
  obtain ⟨f1, f2, f3, f4, f5, f6⟩ := R.facts
  have hdd : h.getDBT t.data.data_dbt = some DV := by
    simp [Heap.getDBT, Heap.find, R.hdd, show t.data.data_dbt ≠ 0 by omega]
  by_cases hv : DV.data = 0
  · have : fillData h t.data.data_dbt f = h := by
      simp [fillData, hdd, Heap.getBlock, Heap.find, hv]
    rw [this]
    exact ⟨R.hkd, R.hdd, fun h1 => absurd hv h1, R.hkb, R.grown, R.nodup, R.cover, R.ksz,
      R.vsz⟩
  · have hb : h.getBlock DV.data = some VB := by
      simp [Heap.getBlock, Heap.find, hv, R.hvb hv]
    have : fillData h t.data.data_dbt f = h.store DV.data (.raw ⟨VB.size, f VB.byte⟩) := by
      simp [fillData, hdd, hb]
    rw [this]
    obtain ⟨g1, g2, g3, g4⟩ := f5 hv
    refine ⟨?_, ?_, ?_, ?_, R.grown.store _ _ g3 g4, R.nodup, R.cover, R.ksz, R.vsz⟩
    · simp [Heap.store, Ne.symm g1, R.hkd]
    · simp [Heap.store, Ne.symm g2, R.hdd]
    · intro _
      simp [Heap.store]
    · intro hk
      simp [Heap.store, f6 hk hv, R.hkb hk]

theorem list_grow {L M : List Nat} {n m : Nat} (hp : M.Perm ((m + 1) :: L)) (hn : L.Nodup)
    (hc : ∀ a, a ∈ L ↔ n < a ∧ a ≤ m) (hnm : n ≤ m) :
    M.Nodup ∧ ∀ a, a ∈ M ↔ n < a ∧ a ≤ m + 1 := by
  constructor
  · rw [hp.nodup_iff, List.nodup_cons]
    refine ⟨fun hm => ?_, hn⟩
    have := (hc _).mp hm
    omega
  · intro a
    rw [hp.mem_iff, List.mem_cons, hc]
    omega

theorem slotFrees_fresh (orig N : Nat) (h1 : orig ≠ N) (h2 : N ≠ 0) :
    slotFrees orig N = slotFrees orig orig ++ [N] := by
  by_cases h : orig = 0 <;> simp [slotFrees, h, h1, h2]

theorem replaceVal_ready {h0 h : Heap} {t : Req} {DK DV : DBT} {KB VB : Block}
    (R : Ready h0 h t DK DV KB VB) (hun : DV.data = t.data.value) (b : Bytes) :
    Ready h0 (replaceData h t.data.data_dbt (some b)) t DK
      { DV with data := h.next + 1, size := b.length } KB (Block.ofBytes b) := by
  obtain ⟨f1, f2, f3, f4, f5, f6⟩ := R.facts
  have hdd : h.getDBT t.data.data_dbt = some DV := by
    simp [Heap.getDBT, Heap.find, R.hdd, show t.data.data_dbt ≠ 0 by omega]
  have hr : replaceData h t.data.data_dbt (some b)
      = (h.alloc (.raw (Block.ofBytes b))).2.store t.data.data_dbt
          (.dbt { DV with data := h.next + 1, size := b.length }) := by
    simp [replaceData, hdd, Heap.alloc]
  rw [hr]
  have hvo : t.data.value ≠ h.next + 1 := by
    by_cases hv : DV.data = 0
    · omega
    · have := f5 hv; omega
  have hperm : (freeList t DK { DV with data := h.next + 1, size := b.length }).Perm
      ((h.next + 1) :: freeList t DK DV) := by
    simp only [freeList, hun, slotFrees_fresh _ _ hvo (Nat.succ_ne_zero _), List.append_assoc,
      List.singleton_append]
    exact List.perm_middle
  obtain ⟨l1, l2⟩ := list_grow hperm R.nodup R.cover R.grown.le
  refine ⟨?_, ?_, ?_, ?_, (R.grown.trans (Grown.alloc h _)).store _ _ f3.1
    (by simp [Heap.alloc]; omega), l1, l2, R.ksz, by simp [Block.ofBytes]⟩
  · simp [Heap.store, Heap.alloc, f1, R.hkd, show t.data.key_dbt ≠ h.next + 1 by omega]
  · simp [Heap.store]
  · intro _
    simp [Heap.store, Heap.alloc, show h.next + 1 ≠ t.data.data_dbt by omega]
  · intro hk
    obtain ⟨g1, g2, g3, g4⟩ := f4 hk
    simp [Heap.store, Heap.alloc, g2, R.hkb hk, show DK.data ≠ h.next + 1 by omega]

theorem replaceKey_ready {h0 h : Heap} {t : Req} {DK DV : DBT} {KB VB : Block}
    (R : Ready h0 h t DK DV KB VB) (hun : DK.data = t.data.key) (b : Bytes) :
    Ready h0 (replaceData h t.data.key_dbt (some b)) t
      { DK with data := h.next + 1, size := b.length } DV (Block.ofBytes b) VB := by
  obtain ⟨f1, f2, f3, f4, f5, f6⟩ := R.facts
  have hkd : h.getDBT t.data.key_dbt = some DK := by
    simp [Heap.getDBT, Heap.find, R.hkd, show t.data.key_dbt ≠ 0 by omega]
  have hr : replaceData h t.data.key_dbt (some b)
      = (h.alloc (.raw (Block.ofBytes b))).2.store t.data.key_dbt
          (.dbt { DK with data := h.next + 1, size := b.length }) := by
    simp [replaceData, hkd, Heap.alloc]
  rw [hr]
  have hko : t.data.key ≠ h.next + 1 := by
    by_cases hk : DK.data = 0
    · omega
    · have := f4 hk; omega
  have hperm : (freeList t { DK with data := h.next + 1, size := b.length } DV).Perm
      ((h.next + 1) :: freeList t DK DV) := by
    simp only [freeList, hun, slotFrees_fresh _ _ hko (Nat.succ_ne_zero _), List.append_assoc,
      List.singleton_append]
    rw [← List.append_assoc, ← List.append_assoc]
    exact List.perm_middle
  obtain ⟨l1, l2⟩ := list_grow hperm R.nodup R.cover R.grown.le
  refine ⟨?_, ?_, ?_, ?_, (R.grown.trans (Grown.alloc h _)).store _ _ f2.1
    (by simp [Heap.alloc]; omega), l1, l2, by simp [Block.ofBytes], R.vsz⟩
  · simp [Heap.store]
  · simp [Heap.store, Heap.alloc, Ne.symm f1, R.hdd, show t.data.data_dbt ≠ h.next + 1 by omega]
  · intro hv
    obtain ⟨g1, g2, g3, g4⟩ := f5 hv
    simp [Heap.store, Heap.alloc, g1, R.hvb hv, show DV.data ≠ h.next + 1 by omega]
  · intro _
    simp [Heap.store, Heap.alloc, show h.next + 1 ≠ t.data.key_dbt by omega]

theorem applyEffect_ready {h0 h : Heap} {t : Req} {DK DV : DBT} {KB VB : Block}
    (R : Ready h0 h t DK DV KB VB) (hk : DK.data = t.data.key) (hv : DV.data = t.data.value)
    (e : Effect) :
    Ready h0 (applyEffect e h t.data.key_dbt t.data.data_dbt) t
      (effKeyD e h.next DK) (effValD e h.next DV) (effKeyB e KB) (effValB e VB) := by
  have R1 := fillData_ready R e.fill
  have n1 : (fillData h t.data.data_dbt e.fill).next = h.next := by
    unfold fillData
    split
    · split <;> rfl
    · rfl
  unfold applyEffect
  rcases hev : e.val with _ | bv <;> rcases hek : e.key with _ | bk
  · simpa [replaceData, effKeyD, effValD, effKeyB, effValB, hev, hek] using R1
  · have R2 := replaceKey_ready R1 hk bk
    simpa [replaceData, effKeyD, effValD, effKeyB, effValB, hev, hek, n1] using R2
  · have R2 := replaceVal_ready R1 hv bv
    simpa [effKeyD, effValD, effKeyB, effValB, hev, hek, n1, replaceData] using R2
  · have R2 := replaceVal_ready R1 hv bv
    have R3 := replaceKey_ready R2 hk bk
    have n2 : (replaceData (fillData h t.data.data_dbt e.fill) t.data.data_dbt (some bv)).next
        = h.next + 1 := by
      have hdd : (fillData h t.data.data_dbt e.fill).getDBT t.data.data_dbt = some DV := by
        simp [Heap.getDBT, Heap.find, R1.hdd, show t.data.data_dbt ≠ 0 by have := R1.facts; omega]
      simp [replaceData, hdd, Heap.alloc, Heap.store, n1]
    simpa [effKeyD, effValD, effKeyB, effValB, hev, hek, n1, n2] using R3

theorem Ready.setOut {h0 h : Heap} {t : Req} {DK DV : DBT} {KB VB : Block}
    (R : Ready h0 h t DK DV KB VB) (c : Int) (d : Nat) :
    Ready h0 h { t with data := { t.data with err := c, data := d } } DK DV KB VB :=
  ⟨R.hkd, R.hdd, R.hvb, R.hkb, R.grown, R.nodup, R.cover, R.ksz, R.vsz⟩

theorem String_New_le (b : Block) (len : Nat) (h : len ≤ b.size) :
    String_New (some (b, 0)) len = some (.str ((List.range len).map b.byte)) := by
  unfold String_New
  by_cases h0 : len = 0
  · simp [h0]
  · simp [h0, Block.read, h]

theorem parts_defined (K : Consts) {h0 h : Heap} {t : Req} {DK DV : DBT} {KB VB : Block}
    (R : Ready h0 h t DK DV KB VB) (flags : Nat) (hsafe : bulkSafe K flags h t.data.data_dbt) :
    ∃ res kres, valuePart K flags DV VB = some res ∧ keyPart DK KB = some kres := by
  obtain ⟨f1, f2, f3, f4, f5, f6⟩ := R.facts
  have hk : ∃ kres, keyPart DK KB = some kres := by
    unfold keyPart
    by_cases h1 : DK.data = 0
    · exact ⟨.undefined, by simp [h1]⟩
    · exact ⟨_, by rw [if_neg h1]; exact String_New_le KB DK.size R.ksz⟩
  have hv : ∃ res, valuePart K flags DV VB = some res := by
    unfold valuePart
    by_cases h1 : DV.data = 0
    · exact ⟨.undefined, by simp [h1]⟩
    · by_cases h2 : DV.flags &&& K.DB_DBT_USERMEM ≠ 0
      · have hdd : h.getDBT t.data.data_dbt = some DV := by
          simp [Heap.getDBT, Heap.find, R.hdd, show t.data.data_dbt ≠ 0 by omega]
        have hb : h.getBlock DV.data = some VB := by
          simp [Heap.getBlock, Heap.find, h1, R.hvb h1]
        obtain ⟨res, hres⟩ := Option.isSome_iff_exists.mp (hsafe DV VB hdd h1 h2 hb)
        exact ⟨res, by rw [if_neg h1, if_pos h2]; exact hres⟩
      · exact ⟨_, by rw [if_neg h1, if_neg h2]; exact String_New_le VB DV.size R.vsz⟩
  obtain ⟨res, hres⟩ := hv
  obtain ⟨kres, hkres⟩ := hk
  exact ⟨res, kres, hres, hkres⟩

theorem applyEffect_null (e : Effect) (h : Heap) : applyEffect e h 0 0 = h := by
  simp [applyEffect, fillData, replaceData, Heap.getDBT, Heap.find]

theorem replaceData_none (h : Heap) (d : Nat) : replaceData h d none = h := by
  simp [replaceData]

/-- The heap a work function leaves in the allocation model, for a task whose descriptors
are at `kd` and `dd`. -/
theorem runWork_model (e : Effect) (rq : Req) (work : Work) (after : After) (w : World Unit) :
    ∃ d, (runWork (modelEngine e) ⟨rq, work, after⟩ w).1
        = ⟨{ rq with data := { rq.data with err := e.ret, data := d } }, work, after⟩
      ∧ ((runWork (modelEngine e) ⟨rq, work, after⟩ w).2.heap
            = applyEffect e w.heap rq.data.key_dbt rq.data.data_dbt
          ∨ (runWork (modelEngine e) ⟨rq, work, after⟩ w).2.heap
            = replaceData w.heap rq.data.key_dbt e.key
          ∨ (runWork (modelEngine e) ⟨rq, work, after⟩ w).2.heap = w.heap) := by
  cases work <;>
    exact ⟨_, rfl, by simp [runWork, engineCall, modelEngine]⟩

theorem query_lifecycle (K : Consts) (hK : K.WF) (e : Effect) (w : World Unit)
    (db txn cur : Nat) (key value : Option Bytes) (cb : Value) (flags : Nat) (work : Work)
    (after : After) :
    ∃ DK DV KB VB,
      Ready w.heap
        (worked (modelEngine e) (submitted K w db txn cur key value cb flags true work after)).2.heap
        (worked (modelEngine e) (submitted K w db txn cur key value cb flags true work after)).1.req
        DK DV KB VB
      ∧ (worked (modelEngine e)
          (submitted K w db txn cur key value cb flags true work after)).1.req.data.flags = flags
      ∧ (worked (modelEngine e)
          (submitted K w db txn cur key value cb flags true work after)).1.req.data.callback = cb
      ∧ (worked (modelEngine e)
          (submitted K w db txn cur key value cb flags true work after)).1.req.data.err = e.ret
      ∧ (worked (modelEngine e)
          (submitted K w db txn cur key value cb flags true work after)).1.after = after
      ∧ DV.flags = valFlags K value flags := by
  obtain ⟨R, hk, hv, -, -⟩ := async_before_ready K hK w.heap db txn cur key value cb flags
  obtain ⟨hf, hc, -⟩ := async_before_fields K w.heap db txn cur key value cb flags true
  obtain ⟨d, h1, h2⟩ := runWork_model e
    (async_before K w.heap db txn cur key value cb flags true).1 work after
    { w with heap := (async_before K w.heap db txn cur key value cb flags true).2 }
  simp only [worked, submitted]
  rw [h1]
  have hvf : (valD K w.heap key value flags).flags = valFlags K value flags := by
    rcases value with _ | v
    · rcases hb : bulkFlags K flags <;> simp [valD, dbtOf, hb]
    · simp [valD, dbtOf]
  rcases h2 with h2 | h2 | h2 <;> rw [h2]
  · refine ⟨_, _, _, _, (applyEffect_ready R hk.symm hv.symm e).setOut _ _, hf, hc, rfl, rfl, ?_⟩
    rw [← hvf]
    unfold effValD
    split <;> rfl
  · rcases hek : e.key with _ | bk
    · rw [replaceData_none]
      exact ⟨_, _, _, _, R.setOut _ _, hf, hc, rfl, rfl, hvf⟩
    · exact ⟨_, _, _, _, (replaceKey_ready R hk.symm bk).setOut _ _, hf, hc, rfl, rfl, hvf⟩
  · exact ⟨_, _, _, _, R.setOut _ _, hf, hc, rfl, rfl, hvf⟩

theorem bulkSafe_of_plain (K : Consts) (hK : K.WF) (e : Effect) (w : World Unit)
    (db txn cur : Nat) (key value : Option Bytes) (cb : Value) (flags : Nat) (work : Work)
    (after : After) (hp : (!value.isSome && bulkFlags K flags) = false) :
    bulkSafe K flags
      (worked (modelEngine e) (submitted K w db txn cur key value cb flags true work after)).2.heap
      (worked (modelEngine e)
        (submitted K w db txn cur key value cb flags true work after)).1.req.data.data_dbt := by
  obtain ⟨DK, DV, KB, VB, R, -, -, -, -, hvf⟩ :=
    query_lifecycle K hK e w db txn cur key value cb flags work after
  obtain ⟨f1, f2, f3, f4, f5, f6⟩ := R.facts
  intro d b h1 h2 h3 h4
  have hdd : d = DV := by
    simp [Heap.getDBT, Heap.find, R.hdd,
      show (worked (modelEngine e) (submitted K w db txn cur key value cb flags true work
        after)).1.req.data.data_dbt ≠ 0 by omega] at h1
    exact h1.symm
  subst hdd
  rw [hvf] at h3
  have := (valFlags_um K hK value flags).mp h3
  rw [hp] at this
  exact absurd this (by decide)

theorem sampleConsts_wf : sampleConsts.WF := ⟨by decide, by decide⟩

theorem tail_ready (K : Consts) {h0 h : Heap} {t : Req} {DK DV : DBT} {KB VB : Block}
    (R : Ready h0 h t DK DV KB VB) (argn : Nat) (res kres : Value) :
    ASYNC_AFTER_TAIL K t h argn res kres = some ⟨h.release [t.datap, t.req],
      ⟨t.data.callback, [err_object K t.data.err, res, kres].take argn⟩,
      K.throws t.data.callback ([err_object K t.data.err, res, kres].take argn)⟩ := by
  have hnd := R.nodup
  simp only [freeList, List.nodup_append, List.nodup_cons, List.mem_cons, List.mem_singleton,
    not_or] at hnd
  exact tail_spec K t h argn res kres (freeList_pos R _ (by simp [freeList]))
    (freeList_pos R _ (by simp [freeList])) (Ne.symm hnd.2.1.2.2.1.1)
    (R.live _ (by simp [freeList])) (R.live _ (by simp [freeList]))

/-- On the allocation model, in which the engine leaves each descriptor's data pointer
alone or replaces it by a fresh non-null allocation, for every query task (built by
`async_before` with `query = 1`, whatever work function it is paired with) and every
return code: when `async_after` starts nothing has been freed and every address allocated
since the call is live; provided the bulk decoder stays inside the receive buffer
(`hsafe`), `async_after` completes, the addresses it frees are exactly those allocated
since the call (at least the two descriptors and the two task records), none twice, and
the heap is left as it was before the call. -/
theorem query_buffers_freed_once (K : Consts) (hK : K.WF) (e : Effect) (w : World Unit)
    (hw : ∀ a, w.heap.next < a → w.heap.cells a = none)
    (db txn cur : Nat) (key value : Option Bytes) (cb : Value) (flags : Nat) (work : Work)
    (hsafe : bulkSafe K flags
      (worked (modelEngine e)
        (submitted K w db txn cur key value cb flags true work .generic)).2.heap
      (worked (modelEngine e)
        (submitted K w db txn cur key value cb flags true work .generic)).1.req.data.data_dbt) :
    ∃ c L,
      completion K
        (worked (modelEngine e) (submitted K w db txn cur key value cb flags true work .generic)).1
        (worked (modelEngine e)
          (submitted K w db txn cur key value cb flags true work .generic)).2.heap = some c
      ∧ (worked (modelEngine e)
          (submitted K w db txn cur key value cb flags true work .generic)).2.heap.frees
          = w.heap.frees
      ∧ (∀ a, a ∈ L ↔ w.heap.next < a ∧ a ≤ (worked (modelEngine e)
          (submitted K w db txn cur key value cb flags true work .generic)).2.heap.next)
      ∧ (∀ a ∈ L, ((worked (modelEngine e)
          (submitted K w db txn cur key value cb flags true work .generic)).2.heap.cells a).isSome
            = true)
      ∧ 4 ≤ L.length
      ∧ L.Nodup
      ∧ c.heap.frees = w.heap.frees ++ L
      ∧ c.heap.cells = w.heap.cells := by
  obtain ⟨DK, DV, KB, VB, R, hf, -, -, ha, -⟩ :=
    query_lifecycle K hK e w db txn cur key value cb flags work .generic
  obtain ⟨res, kres, hres, hkres⟩ := parts_defined K R flags hsafe
  rw [← hf] at hres
  have hc := async_after_ready K R res kres hres hkres
  have hcomp := hc
  rw [show async_after K _ _ = completion K
      (worked (modelEngine e) (submitted K w db txn cur key value cb flags true work .generic)).1
      (worked (modelEngine e)
        (submitted K w db txn cur key value cb flags true work .generic)).2.heap from by
    unfold completion; rw [ha]] at hcomp
  exact ⟨_, freeList _ DK DV, hcomp, R.grown.frees, R.cover, R.live,
    by simp only [freeList, List.length_append, List.length_cons, List.length_nil]; omega,
    R.nodup, by simp [Heap.release, R.grown.frees],
    release_restores R hw⟩

/-- An instance of `query_buffers_freed_once`: a `db.get` task without options on the empty
heap whose engine call succeeds. -/
theorem query_buffers_freed_once_witness :
    sampleConsts.WF ∧ (∀ a, World.empty.heap.next < a → World.empty.heap.cells a = none) ∧
    ∃ c L,
      completion sampleConsts
        (worked (modelEngine sampleHit)
          (submitted sampleConsts World.empty 7 0 0 (some [66]) none (.func "cb") 0 true
            .db_get .generic)).1
        (worked (modelEngine sampleHit)
          (submitted sampleConsts World.empty 7 0 0 (some [66]) none (.func "cb") 0 true
            .db_get .generic)).2.heap = some c
      ∧ 4 ≤ L.length ∧ L.Nodup
      ∧ c.heap.frees = World.empty.heap.frees ++ L
      ∧ c.heap.cells = World.empty.heap.cells := by
  refine ⟨sampleConsts_wf, fun a _ => rfl, ?_⟩
  obtain ⟨c, L, h1, -, -, -, h5, h6, h7, h8⟩ :=
    query_buffers_freed_once sampleConsts sampleConsts_wf sampleHit World.empty
      (fun a _ => rfl) 7 0 0 (some [66]) none (.func "cb") 0 .db_get
      (bulkSafe_of_plain sampleConsts sampleConsts_wf sampleHit World.empty 7 0 0 (some [66])
        none (.func "cb") 0 .db_get .generic (by decide))
  exact ⟨c, L, h1, h5, h6, h7, h8⟩

theorem replaceData_null (h : Heap) (b : Option Bytes) : replaceData h 0 b = h := by
  cases b <;> simp [replaceData, Heap.getDBT, Heap.find]

theorem plain_lifecycle (K : Consts) (e : Effect) (w : World Unit)
    (hw : ∀ a, w.heap.next < a → w.heap.cells a = none) (db txn cur : Nat)
    (key value : Option Bytes) (cb : Value) (flags : Nat) (work : Work) (after : After)
    (argn : Nat) (res kres : Value) :
    (worked (modelEngine e)
        (submitted K w db txn cur key value cb flags false work after)).1.req.data.key_dbt = 0
    ∧ (worked (modelEngine e)
        (submitted K w db txn cur key value cb flags false work after)).1.req.data.callback = cb
    ∧ (worked (modelEngine e)
        (submitted K w db txn cur key value cb flags false work after)).1.req.data.err = e.ret
    ∧ (worked (modelEngine e)
        (submitted K w db txn cur key value cb flags false work after)).1.after = after
    ∧ ∃ c, ASYNC_AFTER_TAIL K
        (worked (modelEngine e)
          (submitted K w db txn cur key value cb flags false work after)).1.req
        (worked (modelEngine e)
          (submitted K w db txn cur key value cb flags false work after)).2.heap argn res kres
        = some c ∧ c.call = ⟨cb, [err_object K e.ret, res, kres].take argn⟩
          ∧ c.fatal = K.throws cb ([err_object K e.ret, res, kres].take argn)
          ∧ c.heap.cells = w.heap.cells
          ∧ c.heap.frees = w.heap.frees ++ [w.heap.next + 2, w.heap.next + 1] := by
  obtain ⟨d, h1, h2⟩ := runWork_model e
    (async_before K w.heap db txn cur key value cb flags false).1 work after
    { w with heap := (async_before K w.heap db txn cur key value cb flags false).2 }
  have hk : (async_before K w.heap db txn cur key value cb flags false).1.data.key_dbt = 0 := by
    simp [async_before]
  have hd : (async_before K w.heap db txn cur key value cb flags false).1.data.data_dbt = 0 := by
    simp [async_before]
  have hh : (worked (modelEngine e)
      (submitted K w db txn cur key value cb flags false work after)).2.heap = heap2 w.heap := by
    simp only [worked, submitted]
    rcases h2 with h2 | h2 | h2 <;> rw [h2]
    · simp only [hk, hd, applyEffect_null]
      simp [async_before, heap2]
    · simp only [hk, replaceData_null]
      simp [async_before, heap2]
    · simp [async_before, heap2]
  simp only [worked, submitted] at hh ⊢
  rw [h1, hh]
  refine ⟨hk, by simp [async_before], rfl, rfl, ?_⟩
  rw [tail_spec K _ (heap2 w.heap) argn res kres (by simp [async_before, Heap.alloc])
    (by simp [async_before, Heap.alloc]) (by simp [async_before, Heap.alloc])
    (by simp [async_before, Heap.alloc, heap2]) (by simp [async_before, Heap.alloc, heap2])]
  refine ⟨_, rfl, by simp [async_before], by simp [async_before], ?_, ?_⟩
  · funext a
    by_cases h3 : a = w.heap.next + 2
    · simp [Heap.release, async_before, Heap.alloc, h3, hw]
    · by_cases h4 : a = w.heap.next + 1
      · simp [Heap.release, async_before, Heap.alloc, h4, hw]
      · simp [Heap.release, async_before, Heap.alloc, heap2, h3, h4]
  · simp [Heap.release, heap2, Heap.alloc, async_before]

theorem completion_generic (K : Consts) (t : Task) (h : Heap) (ha : t.after = .generic) :
    completion K t h = async_after K t.req h := by
  unfold completion; rw [ha]

theorem completion_txn (K : Consts) (t : Task) (h : Heap) (ha : t.after = .txn) :
    completion K t h
      = ASYNC_AFTER_TAIL K t.req h 2 (txn_object t.req.data.data) .undefined := by
  unfold completion; rw [ha]

theorem completion_cursor (K : Consts) (t : Task) (h : Heap) (ha : t.after = .cursor) :
    completion K t h
      = ASYNC_AFTER_TAIL K t.req h 2 (cursor_object t.req.data.data) .undefined := by
  unfold completion; rw [ha]

/-- Where the bulk decoder stays inside the receive buffer (`hsafe`; it concerns bulk query
tasks only): for every task built by `async_before` (any operation: any handles, key,
value, flags, work function and completion handler) and every return code `e.ret` the
engine call leaves in it, the completion handler calls the task's continuation with
`err_object(e.ret)` as first argument: `null` when the code is 0, and otherwise the object
with `message = db_strerror(code)` and `error = code`.  The call is made for every code;
the only fatal outcome is a throw by the continuation itself. -/
theorem continuation_first_argument (K : Consts) (hK : K.WF) (e : Effect) (w : World Unit)
    (hw : ∀ a, w.heap.next < a → w.heap.cells a = none)
    (db txn cur : Nat) (key value : Option Bytes) (cb : Value) (flags : Nat) (query : Bool)
    (work : Work) (after : After)
    (hsafe : query = true → after = .generic → bulkSafe K flags
      (worked (modelEngine e)
        (submitted K w db txn cur key value cb flags query work after)).2.heap
      (worked (modelEngine e)
        (submitted K w db txn cur key value cb flags query work after)).1.req.data.data_dbt) :
    ∃ c rest,
      completion K
        (worked (modelEngine e) (submitted K w db txn cur key value cb flags query work after)).1
        (worked (modelEngine e)
          (submitted K w db txn cur key value cb flags query work after)).2.heap = some c
      ∧ c.call.callback = cb
      ∧ c.call.args = err_object K e.ret :: rest
      ∧ c.fatal = K.throws cb c.call.args
      ∧ (e.ret = 0 → err_object K e.ret = .null)
      ∧ (e.ret ≠ 0 → err_object K e.ret
          = .obj [("message", .str (K.db_strerror e.ret)), ("error", .num e.ret)]) := by
  have herr0 : e.ret = 0 → err_object K e.ret = .null := fun h => by simp [err_object, h]
  have herr1 : e.ret ≠ 0 → err_object K e.ret
      = .obj [("message", .str (K.db_strerror e.ret)), ("error", .num e.ret)] :=
    fun h => by simp [err_object, h, Value.Set, Value.setProp]
  rcases query with _ | _
  · obtain ⟨hk, hc, he, ha, -⟩ := plain_lifecycle K e w hw db txn cur key value cb flags work
      after 0 .undefined .undefined
    rcases after with _ | _ | _
    · obtain ⟨-, -, -, -, c, h1, h2, h3, -⟩ := plain_lifecycle K e w hw db txn cur key value cb
        flags work .generic 1 .undefined .undefined
      refine ⟨c, [], ?_, by simp [h2], by simp [h2], by simp [h3, h2], herr0, herr1⟩
      unfold completion
      rw [ha]
      simp only [async_after, hk, ne_eq, not_true_eq_false, if_false]
      exact h1
    · obtain ⟨-, -, -, -, c, h1, h2, h3, -⟩ := plain_lifecycle K e w hw db txn cur key value cb
        flags work .txn 2 (txn_object (worked (modelEngine e)
          (submitted K w db txn cur key value cb flags false work .txn)).1.req.data.data)
        .undefined
      refine ⟨c, _, ?_, by simp [h2], by simp [h2]; rfl, by simp [h3, h2], herr0, herr1⟩
      unfold completion
      rw [ha]
      exact h1
    · obtain ⟨-, -, -, -, c, h1, h2, h3, -⟩ := plain_lifecycle K e w hw db txn cur key value cb
        flags work .cursor 2 (cursor_object (worked (modelEngine e)
          (submitted K w db txn cur key value cb flags false work .cursor)).1.req.data.data)
        .undefined
      refine ⟨c, _, ?_, by simp [h2], by simp [h2]; rfl, by simp [h3, h2], herr0, herr1⟩
      unfold completion
      rw [ha]
      exact h1
  · obtain ⟨DK, DV, KB, VB, R, hf, hc, he, ha, -⟩ :=
      query_lifecycle K hK e w db txn cur key value cb flags work after
    rcases after with _ | _ | _
    · obtain ⟨res, kres, hres, hkres⟩ := parts_defined K R flags (hsafe rfl rfl)
      rw [← hf] at hres
      have h1 := async_after_ready K R res kres hres hkres
      rw [hc, he] at h1
      rw [← completion_generic K _ _ ha] at h1
      exact ⟨_, [res, kres], h1, rfl, rfl, rfl, herr0, herr1⟩
    · have h1 := tail_ready K R 2 (txn_object (worked (modelEngine e)
        (submitted K w db txn cur key value cb flags true work .txn)).1.req.data.data) .undefined
      rw [hc, he, ← completion_txn K _ _ ha] at h1
      exact ⟨_, _, h1, rfl, rfl, rfl, herr0, herr1⟩
    · have h1 := tail_ready K R 2 (cursor_object (worked (modelEngine e)
        (submitted K w db txn cur key value cb flags true work .cursor)).1.req.data.data)
        .undefined
      rw [hc, he, ← completion_cursor K _ _ ha] at h1
      exact ⟨_, _, h1, rfl, rfl, rfl, herr0, herr1⟩

/-- An instance of `continuation_first_argument`: a `db.get` without options whose engine
call returns the not-found code. -/
theorem continuation_first_argument_witness :
    sampleConsts.WF ∧ (∀ a, World.empty.heap.next < a → World.empty.heap.cells a = none) ∧
    ∃ c rest,
      completion sampleConsts
        (worked (modelEngine sampleMiss)
          (submitted sampleConsts World.empty 7 0 0 (some [66]) none (.func "cb") 0 true
            .db_get .generic)).1
        (worked (modelEngine sampleMiss)
          (submitted sampleConsts World.empty 7 0 0 (some [66]) none (.func "cb") 0 true
            .db_get .generic)).2.heap = some c
      ∧ c.call.callback = .func "cb"
      ∧ c.call.args
          = .obj [("message", .str [110, 111]), ("error", .num (-30988))] :: rest := by
  refine ⟨sampleConsts_wf, fun a _ => rfl, ?_⟩
  obtain ⟨c, rest, h1, h2, h3, -, -, h6⟩ :=
    continuation_first_argument sampleConsts sampleConsts_wf sampleMiss World.empty
      (fun a _ => rfl) 7 0 0 (some [66]) none (.func "cb") 0 true .db_get .generic
      (fun _ _ => bulkSafe_of_plain sampleConsts sampleConsts_wf sampleMiss World.empty 7 0 0
        (some [66]) none (.func "cb") 0 .db_get .generic (by decide))
  refine ⟨c, rest, h1, h2, ?_⟩
  rw [h3, h6 (by decide)]
  rfl

theorem foldl_flags_testBit (K : Consts) (o : Value) (l : List String) (f i : Nat) :
    (l.foldl (IF_TRUE_SET_FLAG K o) f).testBit i
      = (f.testBit i || l.any fun n => GET_BOOLEAN o n && (K.flag n).testBit i) := by
  induction l generalizing f with
  | nil => simp
  | cons n rest ih =>
    simp only [List.foldl_cons, List.any_cons, ih]
    unfold IF_TRUE_SET_FLAG
    by_cases h : GET_BOOLEAN o n = true
    · simp [h, Nat.testBit_or, Bool.or_assoc]
    · simp [h]

theorem get_flags_testBit (K : Consts) (o : Value) (i : Nat) :
    (get_flags K o 0).testBit i = true
      ↔ ∃ n ∈ flagNames, GET_BOOLEAN o n = true ∧ (K.flag n).testBit i = true := by
  unfold get_flags
  by_cases ho : o.IsObject = true
  · simp [ho, foldl_flags_testBit]
  · have : ∀ n, GET_BOOLEAN o n = false := fun n => by simp [GET_BOOLEAN, ho]
    simp [ho, this]

theorem get_flags_ext (K : Consts) (o p : Value)
    (h : ∀ n ∈ flagNames, GET_BOOLEAN p n = GET_BOOLEAN o n) :
    get_flags K p 0 = get_flags K o 0 := by
  apply Nat.eq_of_testBit_eq
  intro i
  rw [Bool.eq_iff_iff, get_flags_testBit, get_flags_testBit]
  constructor
  · rintro ⟨n, hn, h1, h2⟩
    exact ⟨n, hn, by rw [← h n hn]; exact h1, h2⟩
  · rintro ⟨n, hn, h1, h2⟩
    exact ⟨n, hn, by rw [h n hn]; exact h1, h2⟩

theorem lookupProp_setProp_ne (ps : List (String × Value)) (name n : String) (v : Value)
    (h : n ≠ name) : Value.lookupProp (Value.setProp ps name v) n = Value.lookupProp ps n := by
  induction ps with
  | nil => simp [Value.setProp, Value.lookupProp, Ne.symm h]
  | cons p rest ih =>
    obtain ⟨m, x⟩ := p
    by_cases h1 : m = name
    · subst h1
      simp [Value.setProp, Value.lookupProp, Ne.symm h]
    · by_cases h2 : m = n
      · subst h2
        simp [Value.setProp, Value.lookupProp, h1]
      · simp [Value.setProp, Value.lookupProp, h1, h2, ih]

theorem GET_BOOLEAN_Set_ne (o : Value) (name n : String) (v : Value) (h : n ≠ name) :
    GET_BOOLEAN (o.Set name v) n = GET_BOOLEAN o n := by
  cases o <;> simp [Value.Set, GET_BOOLEAN, Value.IsObject, Value.Get,
    lookupProp_setProp_ne _ _ _ _ h]

/-- C6. `get_flags` returns exactly the bitwise OR of the constants of the table entries
whose name is truthy in the option set: a bit is set in the result iff it is set in the
constant of some table name that is truthy.  Hence only the truthiness of table names
matters (an entry set to false, or any name outside the table, changes nothing), an
option set with no truthy table name (the empty one included) yields 0, and an option set
in which a table name is truthy iff it is truthy in `a` or in `b` yields the OR of the
flags of `a` and `b`. -/
theorem get_flags_is_or (K : Consts) (o a b u : Value)
    (hu : ∀ n ∈ flagNames, GET_BOOLEAN u n = (GET_BOOLEAN a n || GET_BOOLEAN b n)) :
    (∀ i, (get_flags K o 0).testBit i = true
        ↔ ∃ n ∈ flagNames, GET_BOOLEAN o n = true ∧ (K.flag n).testBit i = true)
    ∧ (∀ p, (∀ n ∈ flagNames, GET_BOOLEAN p n = GET_BOOLEAN o n) →
        get_flags K p 0 = get_flags K o 0)
    ∧ (∀ name v, name ∉ flagNames → get_flags K (o.Set name v) 0 = get_flags K o 0)
    ∧ ((∀ n ∈ flagNames, GET_BOOLEAN o n = false) → get_flags K o 0 = 0)
    ∧ get_flags K (.obj []) 0 = 0
    ∧ get_flags K u 0 = get_flags K a 0 ||| get_flags K b 0 := by
  refine ⟨get_flags_testBit K o, get_flags_ext K o, ?_, ?_, ?_, ?_⟩
  · intro name v hname
    apply get_flags_ext
    intro n hn
    exact GET_BOOLEAN_Set_ne o name n v (fun h => hname (h ▸ hn))
  · intro h
    apply Nat.eq_of_testBit_eq
    intro i
    rw [Nat.zero_testBit, Bool.eq_false_iff, Ne, get_flags_testBit]
    rintro ⟨n, hn, h1, -⟩
    rw [h n hn] at h1
    exact absurd h1 (by decide)
  · apply Nat.eq_of_testBit_eq
    intro i
    rw [Nat.zero_testBit, Bool.eq_false_iff, Ne, get_flags_testBit]
    rintro ⟨n, hn, h1, -⟩
    simp [GET_BOOLEAN, Value.Get, Value.lookupProp, Value.BooleanValue] at h1
  · apply Nat.eq_of_testBit_eq
    intro i
    rw [Nat.testBit_or, Bool.eq_iff_iff, Bool.or_eq_true, get_flags_testBit, get_flags_testBit,
      get_flags_testBit]
    constructor
    · rintro ⟨n, hn, h1, h2⟩
      rw [hu n hn, Bool.or_eq_true] at h1
      rcases h1 with h1 | h1
      · exact Or.inl ⟨n, hn, h1, h2⟩
      · exact Or.inr ⟨n, hn, h1, h2⟩
    · rintro (⟨n, hn, h1, h2⟩ | ⟨n, hn, h1, h2⟩)
      · exact ⟨n, hn, by rw [hu n hn, h1]; rfl, h2⟩
      · exact ⟨n, hn, by rw [hu n hn, h1, Bool.or_true], h2⟩

/-- Witness for C6: the union of `{multiple: true}` and `{create: 1}`, with an unknown
name and a false entry thrown in. -/
theorem get_flags_is_or_witness :
    (∀ n ∈ flagNames,
      GET_BOOLEAN (.obj [("multiple", .bool true), ("create", .bool true),
          ("bogus", .bool true), ("next", .bool false)]) n
        = (GET_BOOLEAN (.obj [("multiple", .bool true)]) n
            || GET_BOOLEAN (.obj [("create", .num 1)]) n))
    ∧ get_flags sampleConsts (.obj [("multiple", .bool true), ("create", .bool true),
          ("bogus", .bool true), ("next", .bool false)]) 0
        = get_flags sampleConsts (.obj [("multiple", .bool true)]) 0
            ||| get_flags sampleConsts (.obj [("create", .num 1)]) 0 :=
  ⟨by decide,
   (get_flags_is_or sampleConsts .undefined (.obj [("multiple", .bool true)])
      (.obj [("create", .num 1)])
      (.obj [("multiple", .bool true), ("create", .bool true), ("bogus", .bool true),
        ("next", .bool false)]) (by decide)).2.2.2.2.2⟩

theorem checked_reject {σ : Type} (args : List Value) (n m : Nat) (w : World σ)
    (body : World σ → World σ)
    (h : args.length < n ∨ m < args.length ∨ (lastArg args).IsFunction = false) :
    checked args n m w body = (.typeError "Wrong number of arguments", w)
      ∨ checked args n m w body = (.typeError "Callback is not a function", w) := by
  unfold checked
  by_cases hb : badNumArgs args n m = true
  · exact Or.inl (by simp [hb])
  · refine Or.inr ?_
    have hf : (lastArg args).IsFunction = false := by
      rcases h with h | h | h
      · exact absurd (by simp [badNumArgs, h]) hb
      · exact absurd (by simp [badNumArgs, h]) hb
      · exact h
    simp [hb, hf]

/-- C7. Each of the eleven asynchronous operations, called with an argument count outside
its accepted range or with a last argument that is not a function, ends with a pending
`TypeError` and leaves the whole process state as it was: no task is created or queued,
nothing is allocated and no engine call is made. -/
theorem bad_call_rejected {σ : Type} (K : Consts) (this : Value) (args : List Value)
    (w : World σ) (op : Consts → Value → List Value → World σ → Outcome × World σ)
    (n m : Nat)
    (hop : (op, n, m) ∈
      [(_env_txn_begin, 1, 2), (_db_cursor, 1, 2), (_db_get, 2, 3), (_db_put, 3, 4),
       (_db_del, 2, 3), (_cursor_get, 2, 3), (_cursor_put, 4, 4), (_cursor_del, 1, 2),
       (_cursor_close, 1, 1), (_txn_commit, 1, 1), (_txn_abort, 1, 1)])
    (h : args.length < n ∨ m < args.length ∨ (lastArg args).IsFunction = false) :
    op K this args w = (.typeError "Wrong number of arguments", w)
      ∨ op K this args w = (.typeError "Callback is not a function", w) := by
  have H : ∀ x ∈ ([(_env_txn_begin, 1, 2), (_db_cursor, 1, 2), (_db_get, 2, 3), (_db_put, 3, 4),
      (_db_del, 2, 3), (_cursor_get, 2, 3), (_cursor_put, 4, 4), (_cursor_del, 1, 2),
      (_cursor_close, 1, 1), (_txn_commit, 1, 1), (_txn_abort, 1, 1)] :
        List ((Consts → Value → List Value → World σ → Outcome × World σ) × Nat × Nat)),
      (args.length < x.2.1 ∨ x.2.2 < args.length ∨ (lastArg args).IsFunction = false) →
      (x.1 K this args w = (.typeError "Wrong number of arguments", w)
        ∨ x.1 K this args w = (.typeError "Callback is not a function", w)) := by
    intro x hx hbad
    simp only [List.mem_cons, List.mem_singleton, List.not_mem_nil, or_false] at hx
    rcases hx with rfl | rfl | rfl | rfl | rfl | rfl | rfl | rfl | rfl | rfl | rfl <;>
      (dsimp only at hbad ⊢; exact checked_reject args _ _ w _ hbad)
  exact H (op, n, m) hop h

/-- Witness for C7: `db.put` called with two arguments. -/
theorem bad_call_rejected_witness :
    ([Value.str [66], Value.func "cb"].length < 3
      ∨ 4 < [Value.str [66], Value.func "cb"].length
      ∨ (lastArg [Value.str [66], Value.func "cb"]).IsFunction = false)
    ∧ (_db_put sampleConsts (db_object 7 0) [.str [66], .func "cb"] World.empty
          = (.typeError "Wrong number of arguments", World.empty)
        ∨ _db_put sampleConsts (db_object 7 0) [.str [66], .func "cb"] World.empty
          = (.typeError "Callback is not a function", World.empty)) :=
  ⟨by decide,
   bad_call_rejected sampleConsts (db_object 7 0) [.str [66], .func "cb"] World.empty
     _db_put 3 4 (by simp) (by decide)⟩

theorem sampleConsts_typewf : sampleConsts.TypeWF :=
  ⟨by decide, by decide, by decide, by decide, by decide⟩

/-- C10. `_db_open`, called with an accepted argument count, makes one engine call,
`DB->open`, whose access-method argument is `openType`: B-tree when there is no second
argument, when it is not an object, or when none of `hash`, `heap`, `recno`, `queue`,
`unknown` is truthy in it; and when exactly one of the five is truthy, the access method
of that name. -/
theorem db_open_access_method {σ : Type} (K : Consts) (hT : K.TypeWF) (E : Engine σ)
    (this : Value) (args : List Value) (w : World σ) (hn : badNumArgs args 1 3 = false) :
    (_db_open K E this args w).2.trace
        = w.trace ++ [.db_open (GET_EXTERNAL this "_db") (GET_EXTERNAL this "_txn")
            (Utf8Value K (argAt args 0)) (openType K args)
            (if args.length > 1 && (argAt args 1).IsObject then get_flags K (argAt args 1) 0
             else 0)
            (if args.length > 2 then K.Uint32Value (argAt args 2) else 0)]
    ∧ ((args.length ≤ 1 ∨ (argAt args 1).IsObject = false
          ∨ (GET_BOOLEAN (argAt args 1) "hash" = false
              ∧ GET_BOOLEAN (argAt args 1) "heap" = false
              ∧ GET_BOOLEAN (argAt args 1) "recno" = false
              ∧ GET_BOOLEAN (argAt args 1) "queue" = false
              ∧ GET_BOOLEAN (argAt args 1) "unknown" = false)) →
        openType K args = K.DB_BTREE)
    ∧ (1 < args.length →
        (GET_BOOLEAN (argAt args 1) "hash" = true
          ∧ GET_BOOLEAN (argAt args 1) "heap" = false
          ∧ GET_BOOLEAN (argAt args 1) "recno" = false
          ∧ GET_BOOLEAN (argAt args 1) "queue" = false
          ∧ GET_BOOLEAN (argAt args 1) "unknown" = false → openType K args = K.DB_HASH)
        ∧ (GET_BOOLEAN (argAt args 1) "hash" = false
          ∧ GET_BOOLEAN (argAt args 1) "heap" = true
          ∧ GET_BOOLEAN (argAt args 1) "recno" = false
          ∧ GET_BOOLEAN (argAt args 1) "queue" = false
          ∧ GET_BOOLEAN (argAt args 1) "unknown" = false → openType K args = K.DB_HEAP)
        ∧ (GET_BOOLEAN (argAt args 1) "hash" = false
          ∧ GET_BOOLEAN (argAt args 1) "heap" = false
          ∧ GET_BOOLEAN (argAt args 1) "recno" = true
          ∧ GET_BOOLEAN (argAt args 1) "queue" = false
          ∧ GET_BOOLEAN (argAt args 1) "unknown" = false → openType K args = K.DB_RECNO)
        ∧ (GET_BOOLEAN (argAt args 1) "hash" = false
          ∧ GET_BOOLEAN (argAt args 1) "heap" = false
          ∧ GET_BOOLEAN (argAt args 1) "recno" = false
          ∧ GET_BOOLEAN (argAt args 1) "queue" = true
          ∧ GET_BOOLEAN (argAt args 1) "unknown" = false → openType K args = K.DB_QUEUE)
        ∧ (GET_BOOLEAN (argAt args 1) "hash" = false
          ∧ GET_BOOLEAN (argAt args 1) "heap" = false
          ∧ GET_BOOLEAN (argAt args 1) "recno" = false
          ∧ GET_BOOLEAN (argAt args 1) "queue" = false
          ∧ GET_BOOLEAN (argAt args 1) "unknown" = true → openType K args = K.DB_UNKNOWN)) := by
  have hobj : ∀ name, GET_BOOLEAN (argAt args 1) name = true → (argAt args 1).IsObject = true := by
    intro name h
    by_contra hc
    simp [GET_BOOLEAN, hc] at h
  refine ⟨by simp [_db_open, counted, hn, engineCall], ?_, ?_⟩
  · rintro (h | h | ⟨h1, h2, h3, h4, h5⟩)
    · simp [openType, show ¬ (1 < args.length) by omega]
    · simp [openType, h]
    · by_cases ho : 1 < args.length ∧ (argAt args 1).IsObject = true
      · simp [openType, ho.1, ho.2, h1, h2, h3, h4, h5]
      · rw [not_and_or] at ho
        rcases ho with ho | ho <;> simp [openType, ho]
  · intro hlen
    refine ⟨?_, ?_, ?_, ?_, ?_⟩ <;> rintro ⟨h1, h2, h3, h4, h5⟩
    · simp [openType, hlen, hobj _ h1, h1, h2, h3, h4, h5, hT.hash]
    · simp [openType, hlen, hobj _ h2, h1, h2, h3, h4, h5, hT.heap]
    · simp [openType, hlen, hobj _ h3, h1, h2, h3, h4, h5, hT.recno]
    · simp [openType, hlen, hobj _ h4, h1, h2, h3, h4, h5, hT.queue]
    · simp [openType, hlen, hobj _ h5, h1, h2, h3, h4, h5, hT.unknown]

/-- Witness for C10: `db.open("f", {recno: true, create: true})`. -/
theorem db_open_access_method_witness :
    sampleConsts.TypeWF
    ∧ badNumArgs [Value.str [102], .obj [("recno", .bool true), ("create", .bool true)]] 1 3
        = false
    ∧ openType sampleConsts [.str [102], .obj [("recno", .bool true), ("create", .bool true)]]
        = sampleConsts.DB_RECNO :=
  ⟨sampleConsts_typewf, by decide,
   ((db_open_access_method sampleConsts sampleConsts_typewf (modelEngine sampleHit)
      (db_object 7 0) [.str [102], .obj [("recno", .bool true), ("create", .bool true)]]
      World.empty (by decide)).2.2 (by decide)).2.2.1 (by decide)⟩

theorem GET_EXTERNAL_db_object (db txn : Nat) :
    GET_EXTERNAL (db_object db txn) "_db" = db ∧ GET_EXTERNAL (db_object db txn) "_txn" = txn := by
  by_cases h : txn = 0
  · subst h
    constructor <;>
      simp [db_object, SET_METHOD, SET_EXTERNAL, Value.Set, Value.setProp, GET_EXTERNAL,
        Value.IsObject, Value.Get, Value.lookupProp, Value.Unwrap]
  · constructor <;>
      simp [db_object, SET_METHOD, SET_EXTERNAL, Value.Set, Value.setProp, GET_EXTERNAL,
        Value.IsObject, Value.Get, Value.lookupProp, Value.Unwrap, h]

theorem GET_EXTERNAL_txn_object (txn : Nat) : GET_EXTERNAL (txn_object txn) "_txn" = txn := by
  simp [txn_object, SET_METHOD, SET_EXTERNAL, Value.Set, Value.setProp, GET_EXTERNAL,
    Value.IsObject, Value.Get, Value.lookupProp, Value.Unwrap]

theorem GET_EXTERNAL_env_object : GET_EXTERNAL env_object "_txn" = 0 := by
  simp [env_object, SET_METHOD, Value.Set, Value.setProp, GET_EXTERNAL,
    Value.IsObject, Value.Get, Value.lookupProp, Value.Unwrap]

theorem checked_accept {σ : Type} (args : List Value) (n m : Nat) (w : World σ)
    (body : World σ → World σ) (h1 : badNumArgs args n m = false)
    (h2 : (lastArg args).IsFunction = true) :
    checked args n m w body = (.returned .undefined, body w) := by
  simp [checked, h1, h2]

/-- C8. `t.wrap(db)` makes no engine call and changes nothing; it returns the object
`db_object` builds from `db`'s database handle and `t`'s transaction handle.  Every task a
database operation (`cursor`, `get`, `put`, `del`) then builds from the wrapped handle
carries that database handle and `t`'s transaction, and every task it builds from the
original handle carries the database handle and the transaction association (`dt`, none
when `dt = 0` as for a handle from `createDb`) the original was built with. -/
theorem wrap_scopes_database {σ : Type} (K : Consts) (th dh dt : Nat) (w : World σ)
    (op : Consts → Value → List Value → World σ → Outcome × World σ) (n m : Nat)
    (hop : (op, n, m) ∈ [(_db_cursor, 1, 2), (_db_get, 2, 3), (_db_put, 3, 4), (_db_del, 2, 3)])
    (args : List Value) (h1 : badNumArgs args n m = false)
    (h2 : (lastArg args).IsFunction = true) :
    _txn_wrap (txn_object th) [db_object dh dt] w = (.returned (db_object dh th), w)
    ∧ GET_EXTERNAL (db_object dh th) "_db" = dh
    ∧ GET_EXTERNAL (db_object dh th) "_txn" = th
    ∧ (∃ t, (op K (db_object dh th) args (_txn_wrap (txn_object th) [db_object dh dt] w).2).2.queue
          = w.queue ++ [t] ∧ t.req.data.db = dh ∧ t.req.data.txn = th)
    ∧ (∃ t, (op K (db_object dh dt) args (_txn_wrap (txn_object th) [db_object dh dt] w).2).2.queue
          = w.queue ++ [t] ∧ t.req.data.db = dh ∧ t.req.data.txn = dt) := by
  have hw : _txn_wrap (txn_object th) [db_object dh dt] w = (.returned (db_object dh th), w) := by
    simp [_txn_wrap, counted, badNumArgs, argAt, GET_EXTERNAL_txn_object,
      (GET_EXTERNAL_db_object dh dt).1]
  have key : ∀ recv : Value, ∃ t, (op K recv args w).2.queue = w.queue ++ [t]
      ∧ t.req.data.db = GET_EXTERNAL recv "_db" ∧ t.req.data.txn = GET_EXTERNAL recv "_txn" := by
    intro recv
    simp only [List.mem_cons, Prod.mk.injEq, List.mem_singleton, List.not_mem_nil, or_false]
      at hop
    rcases hop with ⟨rfl, rfl, rfl⟩ | ⟨rfl, rfl, rfl⟩ | ⟨rfl, rfl, rfl⟩ | ⟨rfl, rfl, rfl⟩
    · simp only [_db_cursor, checked_accept _ _ _ _ _ h1 h2, uv_queue_work]
      exact ⟨_, rfl, (async_before_fields ..).2.2.1, (async_before_fields ..).2.2.2.1⟩
    · simp only [_db_get, checked_accept _ _ _ _ _ h1 h2, uv_queue_work]
      exact ⟨_, rfl, (async_before_fields ..).2.2.1, (async_before_fields ..).2.2.2.1⟩
    · simp only [_db_put, checked_accept _ _ _ _ _ h1 h2, uv_queue_work]
      exact ⟨_, rfl, (async_before_fields ..).2.2.1, (async_before_fields ..).2.2.2.1⟩
    · simp only [_db_del, checked_accept _ _ _ _ _ h1 h2, uv_queue_work]
      exact ⟨_, rfl, (async_before_fields ..).2.2.1, (async_before_fields ..).2.2.2.1⟩
  refine ⟨hw, (GET_EXTERNAL_db_object dh th).1, (GET_EXTERNAL_db_object dh th).2, ?_, ?_⟩
  · rw [hw]
    obtain ⟨t, e1, e2, e3⟩ := key (db_object dh th)
    exact ⟨t, e1, by rw [e2, (GET_EXTERNAL_db_object dh th).1],
      by rw [e3, (GET_EXTERNAL_db_object dh th).2]⟩
  · rw [hw]
    obtain ⟨t, e1, e2, e3⟩ := key (db_object dh dt)
    exact ⟨t, e1, by rw [e2, (GET_EXTERNAL_db_object dh dt).1],
      by rw [e3, (GET_EXTERNAL_db_object dh dt).2]⟩

/-- Witness for C8: wrapping a `createDb` handle and calling `get` on both handles. -/
theorem wrap_scopes_database_witness :
    badNumArgs [Value.str [66], Value.func "cb"] 2 3 = false
    ∧ (lastArg [Value.str [66], Value.func "cb"]).IsFunction = true
    ∧ (∃ t, (_db_get sampleConsts (db_object 7 9) [.str [66], .func "cb"]
          (_txn_wrap (txn_object 9) [db_object 7 0] World.empty).2).2.queue = [] ++ [t]
        ∧ t.req.data.db = 7 ∧ t.req.data.txn = 9)
    ∧ (∃ t, (_db_get sampleConsts (db_object 7 0) [.str [66], .func "cb"]
          (_txn_wrap (txn_object 9) [db_object 7 0] World.empty).2).2.queue = [] ++ [t]
        ∧ t.req.data.db = 7 ∧ t.req.data.txn = 0) :=
  ⟨by decide, by decide,
   (wrap_scopes_database sampleConsts 9 7 0 World.empty _db_get 2 3 (by simp)
      [.str [66], .func "cb"] (by decide) (by decide)).2.2.2.1,
   (wrap_scopes_database sampleConsts 9 7 0 World.empty _db_get 2 3 (by simp)
      [.str [66], .func "cb"] (by decide) (by decide)).2.2.2.2⟩

theorem heap2_cells (h : Heap) :
    ((heap2 h).cells (h.next + 2)).isSome = true ∧ ((heap2 h).cells (h.next + 1)).isSome = true := by
  simp [heap2, Heap.alloc]

theorem async_before_plain (K : Consts) (h : Heap) (db txn cur : Nat) (key value : Option Bytes)
    (cb : Value) (flags : Nat) :
    async_before K h db txn cur key value cb flags false
      = (⟨h.next + 1, h.next + 2, ⟨db, txn, cur, 0, 0, flags, 0, 0, cb, 0, 0⟩⟩, heap2 h) := by
  simp [async_before, heap2, Heap.alloc]

theorem tail_plain (K : Consts) (h : Heap) (d : AsyncData) (argn : Nat) (res kres : Value) :
    ASYNC_AFTER_TAIL K ⟨h.next + 1, h.next + 2, d⟩ (heap2 h) argn res kres
      = some ⟨(heap2 h).release [h.next + 2, h.next + 1],
          ⟨d.callback, [err_object K d.err, res, kres].take argn⟩,
          K.throws d.callback ([err_object K d.err, res, kres].take argn)⟩ :=
  tail_spec K ⟨h.next + 1, h.next + 2, d⟩ (heap2 h) argn res kres (by simp) (by simp)
    (by simp) (heap2_cells h).1 (heap2_cells h).2

theorem run_txn_begin {σ : Type} (K : Consts) (E : Engine σ) (hE : ∀ s h c, (E s h c).heap = h)
    (w : World σ) (hq : w.queue = []) (txn flags : Nat) (cb : Value) :
    runNext K E (uv_queue_work w (async_before K w.heap 0 txn 0 none none cb flags false)
        .txn_begin .txn)
      = some { w with
          heap := (heap2 w.heap).release [w.heap.next + 2, w.heap.next + 1]
          eng := (E w.eng (heap2 w.heap) (.txn_begin w.dbenv txn flags)).eng
          queue := []
          trace := w.trace ++ [.txn_begin w.dbenv txn flags]
          out := w.out ++ [⟨cb, [err_object K (E w.eng (heap2 w.heap)
              (.txn_begin w.dbenv txn flags)).ret,
            txn_object ((E w.eng (heap2 w.heap) (.txn_begin w.dbenv txn flags)).handle.getD
              w.stackJunk)]⟩]
          fatal := w.fatal || K.throws cb [err_object K (E w.eng (heap2 w.heap)
              (.txn_begin w.dbenv txn flags)).ret,
            txn_object ((E w.eng (heap2 w.heap) (.txn_begin w.dbenv txn flags)).handle.getD
              w.stackJunk)] } := by
  simp only [uv_queue_work, hq, List.nil_append, runNext, runWork, engineCall,
    async_before_plain, hE, runAfter, completion, Task.done, tail_plain]
  rfl

theorem run_txn_commit {σ : Type} (K : Consts) (E : Engine σ) (hE : ∀ s h c, (E s h c).heap = h)
    (w : World σ) (hq : w.queue = []) (txn : Nat) (cb : Value) :
    ∃ w2, runNext K E (uv_queue_work w (async_before K w.heap 0 txn 0 none none cb 0 false)
        .txn_commit .generic) = some w2
      ∧ w2.trace = w.trace ++ [.txn_commit txn 0] := by
  simp only [uv_queue_work, hq, List.nil_append, runNext, runWork, engineCall,
    async_before_plain, hE, runAfter, completion, Task.done, async_after, ne_eq,
    not_true_eq_false, if_false, tail_plain]
  exact ⟨_, rfl, rfl⟩

theorem run_txn_abort {σ : Type} (K : Consts) (E : Engine σ) (hE : ∀ s h c, (E s h c).heap = h)
    (w : World σ) (hq : w.queue = []) (txn : Nat) (cb : Value) :
    ∃ w2, runNext K E (uv_queue_work w (async_before K w.heap 0 txn 0 none none cb 0 false)
        .txn_abort .generic) = some w2
      ∧ w2.trace = w.trace ++ [.txn_abort txn] := by
  simp only [uv_queue_work, hq, List.nil_append, runNext, runWork, engineCall,
    async_before_plain, hE, runAfter, completion, Task.done, async_after, ne_eq,
    not_true_eq_false, if_false, tail_plain]
  exact ⟨_, rfl, rfl⟩

/-- C9. `begin` called on a receiver with valid arguments queues one task; running it makes
exactly one engine call, `txn_begin`, whose parent argument is the receiver's `_txn`
handle (the Transaction's own handle for a Transaction object, none for an Environment
object), and calls the continuation with the error object and a Transaction object that
wraps the handle the engine stored.  `commit` or `abort` called on that child object then
makes exactly one engine call, on the child's handle. -/
theorem nested_begin_and_commit {σ : Type} (K : Consts) (E : Engine σ)
    (hE : ∀ s h c, (E s h c).heap = h) (w : World σ) (hq : w.queue = [])
    (recv : Value) (args : List Value) (hargs : badNumArgs args 1 2 = false)
    (hcb : (lastArg args).IsFunction = true) (cb2 : Value) (hcb2 : cb2.IsFunction = true) :
    GET_EXTERNAL env_object "_txn" = 0
    ∧ (∀ th, GET_EXTERNAL (txn_object th) "_txn" = th)
    ∧ ∃ w1,
        runNext K E (_env_txn_begin K recv args w).2 = some w1
        ∧ w1.queue = []
        ∧ w1.trace = w.trace ++ [.txn_begin w.dbenv (GET_EXTERNAL recv "_txn")
            (if args.length > 1 then get_flags K (argAt args 0) 0 else 0)]
        ∧ w1.out = w.out ++ [⟨lastArg args,
            [err_object K (E w.eng (heap2 w.heap) (.txn_begin w.dbenv (GET_EXTERNAL recv "_txn")
                (if args.length > 1 then get_flags K (argAt args 0) 0 else 0))).ret,
             txn_object ((E w.eng (heap2 w.heap) (.txn_begin w.dbenv (GET_EXTERNAL recv "_txn")
                (if args.length > 1 then get_flags K (argAt args 0) 0 else 0))).handle.getD
                  w.stackJunk)]⟩]
        ∧ (∃ w2, runNext K E (_txn_commit K (txn_object ((E w.eng (heap2 w.heap)
              (.txn_begin w.dbenv (GET_EXTERNAL recv "_txn")
                (if args.length > 1 then get_flags K (argAt args 0) 0 else 0))).handle.getD
                  w.stackJunk)) [cb2] w1).2 = some w2
            ∧ w2.trace = w1.trace ++ [.txn_commit ((E w.eng (heap2 w.heap)
              (.txn_begin w.dbenv (GET_EXTERNAL recv "_txn")
                (if args.length > 1 then get_flags K (argAt args 0) 0 else 0))).handle.getD
                  w.stackJunk) 0])
        ∧ (∃ w3, runNext K E (_txn_abort K (txn_object ((E w.eng (heap2 w.heap)
              (.txn_begin w.dbenv (GET_EXTERNAL recv "_txn")
                (if args.length > 1 then get_flags K (argAt args 0) 0 else 0))).handle.getD
                  w.stackJunk)) [cb2] w1).2 = some w3
            ∧ w3.trace = w1.trace ++ [.txn_abort ((E w.eng (heap2 w.heap)
              (.txn_begin w.dbenv (GET_EXTERNAL recv "_txn")
                (if args.length > 1 then get_flags K (argAt args 0) 0 else 0))).handle.getD
                  w.stackJunk)]) := by
  refine ⟨GET_EXTERNAL_env_object, GET_EXTERNAL_txn_object, ?_⟩
  have hone : badNumArgs [cb2] 1 1 = false := by simp [badNumArgs]
  have hlast : (lastArg [cb2]).IsFunction = true := by simpa [lastArg, argAt] using hcb2
  have hb : (_env_txn_begin K recv args w).2
      = uv_queue_work w (async_before K w.heap 0 (GET_EXTERNAL recv "_txn") 0 none none
          (lastArg args) (if args.length > 1 then get_flags K (argAt args 0) 0 else 0) false)
          .txn_begin .txn := by
    simp only [_env_txn_begin, checked_accept _ _ _ _ _ hargs hcb]
  have hc : ∀ (v : World σ) (txn : Nat), (_txn_commit K (txn_object txn) [cb2] v).2
      = uv_queue_work v (async_before K v.heap 0 txn 0 none none cb2 0 false)
          .txn_commit .generic := by
    intro v txn
    simp only [_txn_commit, checked_accept _ _ _ _ _ hone hlast, GET_EXTERNAL_txn_object]
    rfl
  have ha : ∀ (v : World σ) (txn : Nat), (_txn_abort K (txn_object txn) [cb2] v).2
      = uv_queue_work v (async_before K v.heap 0 txn 0 none none cb2 0 false)
          .txn_abort .generic := by
    intro v txn
    simp only [_txn_abort, checked_accept _ _ _ _ _ hone hlast, GET_EXTERNAL_txn_object]
    rfl
  rw [hb, run_txn_begin K E hE w hq]
  refine ⟨_, rfl, rfl, rfl, rfl, ?_, ?_⟩
  · rw [hc]
    exact run_txn_commit K E hE _ rfl _ _
  · rw [ha]
    exact run_txn_abort K E hE _ rfl _ _

/-- Witness for C9: `t.begin(cb)` on the Transaction with handle 3, then `commit` on the
child. -/
theorem nested_begin_and_commit_witness :
    (∀ s h c, (idleEngine s h c).heap = h)
    ∧ World.empty.queue = []
    ∧ badNumArgs [Value.func "cb"] 1 2 = false
    ∧ (lastArg [Value.func "cb"]).IsFunction = true
    ∧ ∃ w1,
        runNext sampleConsts idleEngine
          (_env_txn_begin sampleConsts (txn_object 3) [.func "cb"] World.empty).2 = some w1
        ∧ w1.trace = [.txn_begin 0 3 0]
        ∧ w1.out = [⟨.func "cb", [.null, txn_object 5]⟩]
        ∧ ∃ w2, runNext sampleConsts idleEngine
            (_txn_commit sampleConsts (txn_object 5) [.func "done"] w1).2 = some w2
          ∧ w2.trace = w1.trace ++ [.txn_commit 5 0] := by
  refine ⟨fun _ _ _ => rfl, rfl, by decide, by decide, ?_⟩
  obtain ⟨-, -, w1, h1, -, h3, h4, h5, -⟩ :=
    nested_begin_and_commit sampleConsts idleEngine (fun _ _ _ => rfl) World.empty rfl
      (txn_object 3) [.func "cb"] (by decide) (by decide) (.func "done") (by decide)
  exact ⟨w1, h1, h3, h4, h5⟩

theorem setIndex_length (xs : List Value) (v : Value) :
    Value.setIndex xs xs.length v = xs ++ [v] := by
  induction xs with
  | nil => rfl
  | cons x rest ih => simp [Value.setIndex, ih]

theorem String_New_record (b : Block) (off : Nat) (r : Bytes)
    (h : (r.isEmpty || b.read off r.length == some r) = true) (o : Option Nat)
    (ho : r ≠ [] → o = some off) :
    String_New (o.map fun x => (b, x)) r.length = some (.str r) := by
  unfold String_New
  by_cases hr : r = []
  · subst hr; simp
  · have h1 : b.read off r.length = some r := by simpa [hr] using h
    simp [hr, ho hr, h1]

theorem multipleLayout_len (b : Block) (recs : List Bytes) (p : Nat)
    (h : multipleLayout b p recs = true) : 8 * recs.length ≤ p := by
  induction recs generalizing p with
  | nil => simp
  | cons r rs ih =>
    unfold multipleLayout at h
    split at h
    · simp only [Bool.and_eq_true, decide_eq_true_eq] at h
      have := ih (p - 8) h.2
      simp only [List.length_cons]
      omega
    · exact absurd h (by decide)

theorem multipleLoop_layout (b : Block) (recs : List Bytes) (fuel p : Nat) (xs : List Value)
    (h : multipleLayout b p recs = true) (hf : recs.length < fuel) :
    multipleLoop b fuel p xs.length (.array xs) = some (.array (xs ++ recs.map Value.str)) := by
  induction recs generalizing fuel p xs with
  | nil =>
    obtain ⟨f, rfl⟩ : ∃ f, fuel = f + 1 := ⟨fuel - 1, by simp at hf; omega⟩
    simp only [multipleLayout, beq_iff_eq] at h
    simp [multipleLoop, DB_MULTIPLE_NEXT, h]
  | cons r rs ih =>
    obtain ⟨f, rfl⟩ : ∃ f, fuel = f + 1 := ⟨fuel - 1, by simp at hf; omega⟩
    unfold multipleLayout at h
    split at h
    · rename_i off hoff
      simp only [Bool.and_eq_true, decide_eq_true_eq, bne_iff_ne, ne_eq, beq_iff_eq] at h
      obtain ⟨⟨⟨⟨h1, h2⟩, h3⟩, h4⟩, h5⟩ := h
      have hs : String_New ((if r.length = 0 ∧ off = 0 then none else some off).map
          fun x => (b, x)) r.length = some (.str r) := by
        apply String_New_record b off r h4
        intro hr
        have : r.length ≠ 0 := by simpa using hr
        simp [this]
      have hrec := ih f (p - 8) (xs ++ [.str r]) h5 (by simp at hf; omega)
      simp only [List.length_append, List.length_singleton] at hrec
      simp only [multipleLoop, DB_MULTIPLE_NEXT, hoff, h1, if_false, show ¬ p < 8 by omega, h3,
        hs, Value.SetAt, setIndex_length, hrec]
      simp
    · exact absurd h (by decide)

theorem keyPart_defined {h0 h : Heap} {t : Req} {DK DV : DBT} {KB VB : Block}
    (R : Ready h0 h t DK DV KB VB) : ∃ kres, keyPart DK KB = some kres := by
  unfold keyPart
  by_cases h1 : DK.data = 0
  · exact ⟨.undefined, by simp [h1]⟩
  · exact ⟨_, by rw [if_neg h1]; exact String_New_le KB DK.size R.ksz⟩

theorem query_ready_apply (K : Consts) (hK : K.WF) (e : Effect) (w : World Unit)
    (db txn cur : Nat) (key value : Option Bytes) (cb : Value) (flags : Nat) (work : Work)
    (after : After)
    (hwork : work = .db_get ∨ work = .db_put ∨ work = .c_get ∨ work = .c_put) :
    Ready w.heap
      (worked (modelEngine e) (submitted K w db txn cur key value cb flags true work after)).2.heap
      (worked (modelEngine e) (submitted K w db txn cur key value cb flags true work after)).1.req
      (effKeyD e (async_before K w.heap db txn cur key value cb flags true).2.next
        (keyD K w.heap key))
      (effValD e (async_before K w.heap db txn cur key value cb flags true).2.next
        (valD K w.heap key value flags))
      (effKeyB e (keyB w.heap key)) (effValB e (valB K w.heap key value))
    ∧ (worked (modelEngine e)
        (submitted K w db txn cur key value cb flags true work after)).1.req.data.flags = flags
    ∧ (worked (modelEngine e)
        (submitted K w db txn cur key value cb flags true work after)).1.req.data.callback = cb
    ∧ (worked (modelEngine e)
        (submitted K w db txn cur key value cb flags true work after)).1.req.data.err = e.ret
    ∧ (worked (modelEngine e)
        (submitted K w db txn cur key value cb flags true work after)).1.after = after := by
  obtain ⟨R, hk, hv, -, -⟩ := async_before_ready K hK w.heap db txn cur key value cb flags
  obtain ⟨hf, hc, -⟩ := async_before_fields K w.heap db txn cur key value cb flags true
  have R2 := applyEffect_ready R hk.symm hv.symm e
  rcases hwork with rfl | rfl | rfl | rfl <;>
    exact ⟨R2.setOut _ _, hf, hc, rfl, rfl⟩

/-- What the continuation of a completed query task receives, given the values the two
halves of `async_after` compute. -/
theorem query_delivers (K : Consts) (hK : K.WF) (e : Effect) (w : World Unit)
    (db txn cur : Nat) (key value : Option Bytes) (cb : Value) (flags : Nat) (work : Work)
    (hwork : work = .db_get ∨ work = .db_put ∨ work = .c_get ∨ work = .c_put)
    (res kres : Value)
    (hres : valuePart K flags
      (effValD e (async_before K w.heap db txn cur key value cb flags true).2.next
        (valD K w.heap key value flags)) (effValB e (valB K w.heap key value)) = some res)
    (hkres : keyPart
      (effKeyD e (async_before K w.heap db txn cur key value cb flags true).2.next
        (keyD K w.heap key)) (effKeyB e (keyB w.heap key)) = some kres) :
    ∃ c, completion K
        (worked (modelEngine e)
          (submitted K w db txn cur key value cb flags true work .generic)).1
        (worked (modelEngine e)
          (submitted K w db txn cur key value cb flags true work .generic)).2.heap = some c
      ∧ c.call = ⟨cb, [err_object K e.ret, res, kres]⟩
      ∧ c.fatal = K.throws cb [err_object K e.ret, res, kres] := by
  obtain ⟨R, hf, hc, he, ha⟩ :=
    query_ready_apply K hK e w db txn cur key value cb flags work .generic hwork
  have hres2 : valuePart K (worked (modelEngine e)
      (submitted K w db txn cur key value cb flags true work .generic)).1.req.data.flags
      (effValD e (async_before K w.heap db txn cur key value cb flags true).2.next
        (valD K w.heap key value flags)) (effValB e (valB K w.heap key value)) = some res := by
    rw [hf]; exact hres
  have h1 := async_after_ready K R res kres hres2 hkres
  rw [hc, he, ← completion_generic K _ _ ha] at h1
  exact ⟨_, h1, rfl, rfl⟩

theorem decodeBulk_multiple (K : Consts) (flags : Nat) (d : DBT) (b : Block) (rs : List Bytes)
    (hm : flags &&& K.DB_MULTIPLE ≠ 0) (hu : 4 ≤ d.ulen)
    (hl : multipleLayout b (d.ulen - 4) rs = true) :
    decodeBulk K flags d b = some (.array (rs.map Value.str)) := by
  have hlen := multipleLayout_len b rs _ hl
  have := multipleLoop_layout b rs (d.ulen - 4 + 1) (d.ulen - 4) [] hl (by omega)
  simpa [decodeBulk, hm, DB_MULTIPLE_INIT, hu] using this

theorem valuePart_bulk (K : Consts) (hK : K.WF) (e : Effect) (h0 : Heap) (n : Nat)
    (key : Option Bytes) (flags : Nat) (hb : bulkFlags K flags = true) (hval : e.val = none) :
    valuePart K flags (effValD e n (valD K h0 key none flags)) (effValB e (valB K h0 key none))
      = decodeBulk K flags (valD K h0 key none flags)
          ⟨BUFFER_LENGTH, e.fill (valB K h0 key none).byte⟩
    ∧ (valD K h0 key none flags).ulen = BUFFER_LENGTH := by
  have hu := hK.usermem_ne
  simp [valuePart, effValD, effValB, hval, valD, valB, dbtOf, blockOf, hb, valFlags,
    Nat.and_self, hu]

/-- C4. In value-only bulk mode (`flags & DB_MULTIPLE`), for every `m ≥ 0` and every bulk
buffer holding `m` records in the engine's layout, the decoder loop of `async_after`
returns an array of exactly `m` strings whose `i`-th element is the `i`-th record in
iteration order; a buffer holding only the end mark decodes to the empty array; and a
`get` task whose engine call filled the receive buffer that way hands that array to the
continuation as its second argument. -/
theorem multiple_decode (K : Consts) (hK : K.WF) (flags : Nat)
    (hm : flags &&& K.DB_MULTIPLE ≠ 0) :
    (∀ (d : DBT) (b : Block) (recs : List Bytes), 4 ≤ d.ulen →
        multipleLayout b (d.ulen - 4) recs = true →
        ∃ xs, decodeBulk K flags d b = some (.array xs) ∧ xs.length = recs.length
          ∧ ∀ i, i < recs.length → xs[i]? = (recs[i]?).map Value.str)
    ∧ (∀ (d : DBT) (b : Block), 4 ≤ d.ulen → b.rd32 (d.ulen - 4) = some 4294967295 →
        decodeBulk K flags d b = some (.array []))
    ∧ (∀ (e : Effect) (w : World Unit) (db txn cur : Nat) (key : Option Bytes) (cb : Value)
        (work : Work) (recs : List Bytes),
        work = .db_get ∨ work = .c_get → e.val = none →
        multipleLayout ⟨BUFFER_LENGTH, e.fill (valB K w.heap key none).byte⟩
          (BUFFER_LENGTH - 4) recs = true →
        ∃ c kres, completion K
            (worked (modelEngine e)
              (submitted K w db txn cur key none cb flags true work .generic)).1
            (worked (modelEngine e)
              (submitted K w db txn cur key none cb flags true work .generic)).2.heap = some c
          ∧ c.call = ⟨cb, [err_object K e.ret, .array (recs.map Value.str), kres]⟩) := by
  refine ⟨?_, ?_, ?_⟩
  · intro d b recs hu hl
    exact ⟨recs.map Value.str, decodeBulk_multiple K flags d b recs hm hu hl, by simp,
      fun i _ => by simp⟩
  · intro d b hu hl
    have := decodeBulk_multiple K flags d b [] hm hu (by simp [multipleLayout, hl])
    simpa using this
  · intro e w db txn cur key cb work recs hwork hval hl
    have hb : bulkFlags K flags = true := by simp [bulkFlags, hm]
    obtain ⟨hv, hu⟩ := valuePart_bulk K hK e w.heap
      (async_before K w.heap db txn cur key none cb flags true).2.next key flags hb hval
    have hres := hv.trans (decodeBulk_multiple K flags _ _ recs hm (by rw [hu]; decide)
      (by rw [hu]; exact hl))
    obtain ⟨R, -⟩ := query_ready_apply K hK e w db txn cur key none cb flags work .generic
      (by rcases hwork with h | h <;> simp [h])
    obtain ⟨kres, hk⟩ := keyPart_defined R
    obtain ⟨c, h1, h2, -⟩ := query_delivers K hK e w db txn cur key none cb flags work
      (by rcases hwork with h | h <;> simp [h]) _ kres hres hk
    exact ⟨c, kres, h1, h2⟩

/-- Witness for C4: a `db.get` with `{multiple: true}` whose engine call stored the records
`ab` and `c`, and a buffer holding only the end mark. -/
theorem multiple_decode_witness :
    sampleConsts.flag "multiple" &&& sampleConsts.DB_MULTIPLE ≠ 0
    ∧ decodeBulk sampleConsts (sampleConsts.flag "multiple") ⟨1, 0, BUFFER_LENGTH, 2048⟩
        ⟨BUFFER_LENGTH, sampleBulkNone.fill fun _ => 7⟩ = some (.array [])
    ∧ ∃ c kres, completion sampleConsts
        (worked (modelEngine sampleBulk)
          (submitted sampleConsts World.empty 7 0 0 (some [66]) none (.func "cb")
            (sampleConsts.flag "multiple") true .db_get .generic)).1
        (worked (modelEngine sampleBulk)
          (submitted sampleConsts World.empty 7 0 0 (some [66]) none (.func "cb")
            (sampleConsts.flag "multiple") true .db_get .generic)).2.heap = some c
      ∧ c.call = ⟨.func "cb", [err_object sampleConsts 0,
          .array [.str [97, 98], .str [99]], kres]⟩ :=
  ⟨by decide,
   (multiple_decode sampleConsts sampleConsts_wf (sampleConsts.flag "multiple")
      (by decide)).2.1 ⟨1, 0, BUFFER_LENGTH, 2048⟩ ⟨BUFFER_LENGTH, sampleBulkNone.fill fun _ => 7⟩
      (by decide) (by decide),
   (multiple_decode sampleConsts sampleConsts_wf (sampleConsts.flag "multiple")
      (by decide)).2.2 sampleBulk World.empty 7 0 0 (some [66]) (.func "cb") .db_get
      [[97, 98], [99]] (Or.inl rfl) rfl (by decide)⟩

theorem strlen_le (s : Bytes) : strlen s ≤ s.length := by
  unfold strlen
  induction s with
  | nil => simp
  | cons a t ih =>
    simp only [List.takeWhile]
    split
    · simp only [List.length_cons]; omega
    · simp

theorem strlen_full (s : Bytes) (h : 0 ∉ s) : strlen s = s.length := by
  unfold strlen
  induction s with
  | nil => simp
  | cons a t ih =>
    simp only [List.mem_cons, not_or] at h
    have ha : (a != 0) = true := by simpa using fun e => h.1 e.symm
    simp only [List.takeWhile, ha, List.length_cons]
    rw [ih h.2]

theorem read_write (s : Bytes) (j : Nat → Nat) :
    ((Block.mk (strlen s) j).write s (strlen s)).read 0 (strlen s)
      = some (s.take (strlen s)) := by
  have hl := strlen_le s
  simp only [Block.read, Block.write, Nat.zero_add, le_refl, if_true]
  congr 1
  apply List.ext_getElem
  · simp [hl]
  · intro i h1 h2
    simp only [List.length_map, List.length_range] at h1
    simp [h1, List.getD_eq_getElem?_getD, List.getElem?_eq_getElem (show i < s.length by omega)]

theorem read_ofBytes (b : Bytes) : (Block.ofBytes b).read 0 b.length = some b := by
  simp only [Block.read, Block.ofBytes, Nat.zero_add, le_refl, if_true]
  congr 1
  apply List.ext_getElem
  · simp
  · intro i h1 h2
    simp only [List.length_map, List.length_range] at h1
    simp [h1, List.getD_eq_getElem?_getD]

theorem String_New_ofBytes (b : Bytes) :
    String_New (some (Block.ofBytes b, 0)) b.length = some (.str b) := by
  unfold String_New
  by_cases h0 : b.length = 0
  · simp [h0, List.length_eq_zero.mp h0]
  · simp [h0, read_ofBytes]

theorem String_New_write (s : Bytes) (j : Nat → Nat) :
    String_New (some ((Block.mk (strlen s) j).write s (strlen s), 0)) (strlen s)
      = some (.str (s.take (strlen s))) := by
  unfold String_New
  by_cases h0 : strlen s = 0
  · simp [h0]
  · simp [h0, read_write]

theorem getBlock_cells {h : Heap} {p : Nat} {b : Block} (hb : h.getBlock p = some b) :
    h.cells p = some (.raw b) := by
  unfold Heap.getBlock Heap.find at hb
  by_cases hp : p = 0
  · simp [hp] at hb
  · rw [if_neg hp] at hb
    rcases hc : h.cells p with _ | c
    · simp [hc] at hb
    · rcases c with b1 | d1 | _
      · simp [hc] at hb
        rw [hb]
      · simp [hc] at hb
      · simp [hc] at hb

theorem fillData_id (h : Heap) (d : Nat) : fillData h d id = h := by
  unfold fillData
  rcases h1 : h.getDBT d with _ | dbt
  · rfl
  · rcases h2 : h.getBlock dbt.data with _ | b
    · simp only [h2]
    · have hc := getBlock_cells h2
      simp only [h2, id]
      cases h
      simp only [Heap.store, Heap.mk.injEq, and_true, true_and]
      funext a
      by_cases ha : a = dbt.data
      · simp [ha]; exact hc.symm
      · simp [ha]

theorem Ready.readKey {h0 h : Heap} {t : Req} {DK DV : DBT} {KB VB : Block}
    (R : Ready h0 h t DK DV KB VB) (hd : DK.data ≠ 0) :
    readDBT h t.data.key_dbt = KB.read 0 DK.size := by
  have hp : t.data.key_dbt ≠ 0 := by
    have := (R.cover t.data.key_dbt).mp (by simp [freeList])
    omega
  simp [readDBT, Heap.getDBT, Heap.getBlock, Heap.find, hp, hd, R.hkd, R.hkb hd]

theorem Ready.readVal {h0 h : Heap} {t : Req} {DK DV : DBT} {KB VB : Block}
    (R : Ready h0 h t DK DV KB VB) (hd : DV.data ≠ 0) :
    readDBT h t.data.data_dbt = VB.read 0 DV.size := by
  have hp : t.data.data_dbt ≠ 0 := by
    have := (R.cover t.data.data_dbt).mp (by simp [freeList])
    omega
  simp [readDBT, Heap.getDBT, Heap.getBlock, Heap.find, hp, hd, R.hdd, R.hvb hd]

theorem runWork_db_put {σ : Type} (E : Engine σ) (rq : Req) (after : After) (w : World σ) :
    runWork E ⟨rq, .db_put, after⟩ w
      = (⟨{ rq with data := { rq.data with
              err := (E w.eng w.heap (.db_put rq.data.db rq.data.txn rq.data.key_dbt
                rq.data.data_dbt rq.data.flags)).ret,
              data := rq.data.data } }, .db_put, after⟩,
         { w with
            heap := (E w.eng w.heap (.db_put rq.data.db rq.data.txn rq.data.key_dbt
                rq.data.data_dbt rq.data.flags)).heap,
            eng := (E w.eng w.heap (.db_put rq.data.db rq.data.txn rq.data.key_dbt
                rq.data.data_dbt rq.data.flags)).eng,
            trace := w.trace ++ [.db_put rq.data.db rq.data.txn rq.data.key_dbt
                rq.data.data_dbt rq.data.flags] }) := rfl

theorem runWork_db_get {σ : Type} (E : Engine σ) (rq : Req) (after : After) (w : World σ) :
    runWork E ⟨rq, .db_get, after⟩ w
      = (⟨{ rq with data := { rq.data with
              err := (E w.eng w.heap (.db_get rq.data.db rq.data.txn rq.data.key_dbt
                rq.data.data_dbt rq.data.flags)).ret,
              data := rq.data.data } }, .db_get, after⟩,
         { w with
            heap := (E w.eng w.heap (.db_get rq.data.db rq.data.txn rq.data.key_dbt
                rq.data.data_dbt rq.data.flags)).heap,
            eng := (E w.eng w.heap (.db_get rq.data.db rq.data.txn rq.data.key_dbt
                rq.data.data_dbt rq.data.flags)).eng,
            trace := w.trace ++ [.db_get rq.data.db rq.data.txn rq.data.key_dbt
                rq.data.data_dbt rq.data.flags] }) := rfl

theorem kv_put_run (K : Consts) (hK : K.WF) (w : World (List (Bytes × Bytes)))
    (hq : w.queue = []) (db txn : Nat) (k v : Bytes) (cb : Value) (f : Nat) :
    ∃ w2, runNext K kvEngine (uv_queue_work w
        (async_before K w.heap db txn 0 (some k) (some v) cb f true) .db_put .generic) = some w2
      ∧ w2.queue = [] ∧ w2.eng = (k.take (strlen k), v.take (strlen v)) :: w.eng
      ∧ w2.out = w.out ++ [⟨cb, [.null, .str (v.take (strlen v)), .str (k.take (strlen k))]⟩] := by
  obtain ⟨R, -, -, -, -⟩ := async_before_ready K hK w.heap db txn 0 (some k) (some v) cb f
  obtain ⟨hf, hc, -⟩ := async_before_fields K w.heap db txn 0 (some k) (some v) cb f true
  have dk : (keyD K w.heap (some k)).data ≠ 0 := by simp [keyD, dbtOf]
  have dv : (valD K w.heap (some k) (some v) f).data ≠ 0 := by simp [valD, dbtOf]
  have rk := R.readKey dk
  have rv := R.readVal dv
  simp only [keyB, blockOf, keyD, dbtOf, read_write] at rk
  simp only [valB, blockOf, valD, dbtOf, read_write] at rv
  have hres : valuePart K (async_before K w.heap db txn 0 (some k) (some v) cb f true).1.data.flags
      (valD K w.heap (some k) (some v) f) (valB K w.heap (some k) (some v))
      = some (.str (v.take (strlen v))) := by
    simp [valuePart, valD, valB, dbtOf, blockOf, valFlags, String_New_write]
  have hkres : keyPart (keyD K w.heap (some k)) (keyB w.heap (some k))
      = some (.str (k.take (strlen k))) := by
    simp [keyPart, keyD, keyB, dbtOf, blockOf, String_New_write]
  have A := async_after_ready K
    (R.setOut 0 (async_before K w.heap db txn 0 (some k) (some v) cb f true).1.data.data)
    _ _ hres hkres
  refine ⟨?w2, ?h1, ?h2, ?h3, ?h4⟩
  case h1 =>
    simp only [runNext, uv_queue_work, hq, List.nil_append]
    rw [runWork_db_put]
    simp only [kvEngine, rk, rv, runAfter, completion, A]
    exact rfl
  case h2 => rfl
  case h3 => rfl
  case h4 => simp [hc, err_object]

theorem kv_get_run (K : Consts) (hK : K.WF) (w : World (List (Bytes × Bytes)))
    (hq : w.queue = []) (db txn : Nat) (k : Bytes) (cb : Value) (f : Nat)
    (hnb : bulkFlags K f = false) (v1 : Bytes)
    (hl : w.eng.lookup (k.take (strlen k)) = some v1) :
    ∃ w2, runNext K kvEngine (uv_queue_work w
        (async_before K w.heap db txn 0 (some k) none cb f true) .db_get .generic) = some w2
      ∧ w2.queue = [] ∧ w2.eng = w.eng
      ∧ w2.out = w.out ++ [⟨cb, [.null, .str v1, .str (k.take (strlen k))]⟩] := by
  obtain ⟨R, hk, hv, -, -⟩ := async_before_ready K hK w.heap db txn 0 (some k) none cb f
  obtain ⟨hf, hc, -⟩ := async_before_fields K w.heap db txn 0 (some k) none cb f true
  have dk : (keyD K w.heap (some k)).data ≠ 0 := by simp [keyD, dbtOf]
  have rk := R.readKey dk
  simp only [keyB, blockOf, keyD, dbtOf, read_write] at rk
  have R2 := applyEffect_ready R hk.symm hv.symm ⟨0, none, none, some v1, id⟩
  have hE : applyEffect ⟨0, none, none, some v1, id⟩
      (async_before K w.heap db txn 0 (some k) none cb f true).2
      (async_before K w.heap db txn 0 (some k) none cb f true).1.data.key_dbt
      (async_before K w.heap db txn 0 (some k) none cb f true).1.data.data_dbt
      = replaceData (async_before K w.heap db txn 0 (some k) none cb f true).2
          (async_before K w.heap db txn 0 (some k) none cb f true).1.data.data_dbt (some v1) := by
    simp only [applyEffect, fillData_id, replaceData_none]
  rw [hE] at R2
  have hmu := hK.malloc_usermem
  have hres : valuePart K (async_before K w.heap db txn 0 (some k) none cb f true).1.data.flags
      (effValD ⟨0, none, none, some v1, id⟩
        (async_before K w.heap db txn 0 (some k) none cb f true).2.next
        (valD K w.heap (some k) none f))
      (effValB ⟨0, none, none, some v1, id⟩ (valB K w.heap (some k) none))
      = some (.str v1) := by
    simp [valuePart, effValD, effValB, valD, dbtOf, valFlags, hnb, hmu, String_New_ofBytes]
  have hkres : keyPart
      (effKeyD ⟨0, none, none, some v1, id⟩
        (async_before K w.heap db txn 0 (some k) none cb f true).2.next (keyD K w.heap (some k)))
      (effKeyB ⟨0, none, none, some v1, id⟩ (keyB w.heap (some k)))
      = some (.str (k.take (strlen k))) := by
    simp [keyPart, effKeyD, effKeyB, keyD, keyB, dbtOf, blockOf, String_New_write]
  have A := async_after_ready K
    (R2.setOut 0 (async_before K w.heap db txn 0 (some k) none cb f true).1.data.data)
    _ _ hres hkres
  refine ⟨?w2, ?h1, ?h2, ?h3, ?h4⟩
  case h1 =>
    simp only [runNext, uv_queue_work, hq, List.nil_append]
    rw [runWork_db_get]
    simp only [kvEngine, rk, hl, runAfter, completion, A]
    exact rfl
  case h2 => rfl
  case h3 => rfl
  case h4 => simp [hc, err_object]

theorem db_put_queues {σ : Type} (K : Consts) (this : Value) (k v : Bytes) (o : Option Value)
    (cb : String) (w : World σ) :
    _db_put K this ([.str k, .str v] ++ o.toList ++ [.func cb]) w
      = (.returned .undefined, uv_queue_work w
          (async_before K w.heap (GET_EXTERNAL this "_db") (GET_EXTERNAL this "_txn") 0 (some k)
            (some v) (.func cb) (match o with | some x => get_flags K x 0 | none => 0) true)
          .db_put .generic) := by
  rcases o with _ | x <;>
    simp [_db_put, checked, badNumArgs, lastArg, argAt, Value.IsFunction, Utf8Value]

theorem db_get_queues {σ : Type} (K : Consts) (this : Value) (k : Bytes) (o : Option Value)
    (cb : String) (w : World σ) :
    _db_get K this ([.str k] ++ o.toList ++ [.func cb]) w
      = (.returned .undefined, uv_queue_work w
          (async_before K w.heap (GET_EXTERNAL this "_db") (GET_EXTERNAL this "_txn") 0 (some k)
            none (.func cb) (match o with | some x => get_flags K x 0 | none => 0) true)
          .db_get .generic) := by
  rcases o with _ | x <;>
    simp [_db_get, checked, badNumArgs, lastArg, argAt, Value.IsFunction, Utf8Value]

theorem put_get_general (K : Consts) (hK : K.WF) (w : World (List (Bytes × Bytes)))
    (hq : w.queue = []) (this : Value) (k v : Bytes) (o1 o2 : Option Value) (cb1 cb2 : String)
    (hnb : bulkFlags K (match o2 with | some x => get_flags K x 0 | none => 0) = false) :
    ∃ w4, putThenGet K kvEngine this ([.str k, .str v] ++ o1.toList ++ [.func cb1])
        ([.str k] ++ o2.toList ++ [.func cb2]) w = some w4
      ∧ w4.out = w.out ++
          [⟨.func cb1, [.null, .str (v.take (strlen v)), .str (k.take (strlen k))]⟩,
           ⟨.func cb2, [.null, .str (v.take (strlen v)), .str (k.take (strlen k))]⟩] := by
  obtain ⟨w2, h1, q2, e2, o2w⟩ := kv_put_run K hK w hq (GET_EXTERNAL this "_db")
    (GET_EXTERNAL this "_txn") k v (.func cb1) (match o1 with | some x => get_flags K x 0 | none => 0)
  obtain ⟨w4, h3, -, -, o4⟩ := kv_get_run K hK w2 q2 (GET_EXTERNAL this "_db")
    (GET_EXTERNAL this "_txn") k (.func cb2) _ hnb (v.take (strlen v))
    (by rw [e2]; simp [List.lookup])
  refine ⟨w4, ?_, ?_⟩
  · unfold putThenGet
    rw [db_put_queues]
    simp only [h1]
    rw [db_get_queues]
    simp only [h3]
  · rw [o4, o2w]
    simp

/-- C2 (amended). Over the engine modelled as a key-value map, with no other task pending,
for every key `k` and value `v` that contain no zero byte and every non-bulk option set of
the `get`: `db.put(k, v[, options], cb1)` run to completion (its continuation receives
`null` first, so it completed with code 0) followed by `db.get(k[, options], cb2)` run to
completion invokes the `get` continuation with exactly `(null, v, k)`. -/
theorem put_then_get_roundtrip (K : Consts) (hK : K.WF) (w : World (List (Bytes × Bytes)))
    (hq : w.queue = []) (this : Value) (k v : Bytes) (o1 o2 : Option Value) (cb1 cb2 : String)
    (hk : 0 ∉ k) (hv : 0 ∉ v)
    (hnb : bulkFlags K (match o2 with | some x => get_flags K x 0 | none => 0) = false) :
    ∃ w4, putThenGet K kvEngine this ([.str k, .str v] ++ o1.toList ++ [.func cb1])
        ([.str k] ++ o2.toList ++ [.func cb2]) w = some w4
      ∧ w4.out = w.out ++
          [⟨.func cb1, [.null, .str v, .str k]⟩, ⟨.func cb2, [.null, .str v, .str k]⟩] := by
  obtain ⟨w4, h1, h2⟩ := put_get_general K hK w hq this k v o1 o2 cb1 cb2 hnb
  rw [strlen_full k hk, strlen_full v hv, List.take_length, List.take_length] at h2
  exact ⟨w4, h1, h2⟩

/-- Witness for C2: `put("a", "xy", cb)` then `get("a", {rmw: true}, cb)` on a fresh
database handle. -/
theorem put_then_get_roundtrip_witness :
    World.kvEmpty.queue = [] ∧ 0 ∉ [97] ∧ 0 ∉ [120, 121]
    ∧ bulkFlags sampleConsts (get_flags sampleConsts (.obj [("rmw", .bool true)]) 0) = false
    ∧ ∃ w4, putThenGet sampleConsts kvEngine (db_object 7 0)
        [.str [97], .str [120, 121], .func "p"]
        [.str [97], .obj [("rmw", .bool true)], .func "g"] World.kvEmpty = some w4
      ∧ w4.out = [⟨.func "p", [.null, .str [120, 121], .str [97]]⟩,
                  ⟨.func "g", [.null, .str [120, 121], .str [97]]⟩] :=
  ⟨rfl, by decide, by decide, by decide,
   put_then_get_roundtrip sampleConsts sampleConsts_wf World.kvEmpty rfl (db_object 7 0)
     [97] [120, 121] none (some (.obj [("rmw", .bool true)])) "p" "g" (by decide) (by decide)
     (by decide)⟩

/-- Counterexample to C2 as stated: a key or a value with a zero byte comes back cut at
that byte, because `dbt_set` measures its argument with `strlen`.  `put("a\0b", "x")` then
`get("a\0b")` hands the `get` continuation `(null, "x", "a")`, and `put("a", "x\0y")` then
`get("a")` hands it `(null, "x", "a")`. -/
theorem put_then_get_zero_byte :
    (∃ w4, putThenGet sampleConsts kvEngine (db_object 7 0)
        [.str [97, 0, 98], .str [120], .func "p"] [.str [97, 0, 98], .func "g"]
        World.kvEmpty = some w4
      ∧ w4.out.getLast? = some ⟨.func "g", [.null, .str [120], .str [97]]⟩
      ∧ w4.out.getLast? ≠ some ⟨.func "g", [.null, .str [120], .str [97, 0, 98]]⟩)
    ∧ (∃ w4, putThenGet sampleConsts kvEngine (db_object 7 0)
        [.str [97], .str [120, 0, 121], .func "p"] [.str [97], .func "g"]
        World.kvEmpty = some w4
      ∧ w4.out.getLast? = some ⟨.func "g", [.null, .str [120], .str [97]]⟩
      ∧ w4.out.getLast? ≠ some ⟨.func "g", [.null, .str [120, 0, 121], .str [97]]⟩) := by
  constructor
  · obtain ⟨w4, h1, h2⟩ := put_get_general sampleConsts sampleConsts_wf World.kvEmpty rfl
      (db_object 7 0) [97, 0, 98] [120] none none "p" "g" (by decide)
    refine ⟨w4, h1, ?_, ?_⟩ <;> rw [h2] <;> simp [World.kvEmpty, strlen]
  · obtain ⟨w4, h1, h2⟩ := put_get_general sampleConsts sampleConsts_wf World.kvEmpty rfl
      (db_object 7 0) [97] [120, 0, 121] none none "p" "g" (by decide)
    refine ⟨w4, h1, ?_, ?_⟩ <;> rw [h2] <;> simp [World.kvEmpty, strlen]

theorem Ready.getKey {h0 h : Heap} {t : Req} {DK DV : DBT} {KB VB : Block}
    (R : Ready h0 h t DK DV KB VB) : h.getDBT t.data.key_dbt = some DK := by
  have hp : t.data.key_dbt ≠ 0 := freeList_pos R _ (by simp [freeList])
  simp [Heap.getDBT, Heap.find, hp, R.hkd]

theorem Ready.getVal {h0 h : Heap} {t : Req} {DK DV : DBT} {KB VB : Block}
    (R : Ready h0 h t DK DV KB VB) : h.getDBT t.data.data_dbt = some DV := by
  have hp : t.data.data_dbt ≠ 0 := freeList_pos R _ (by simp [freeList])
  simp [Heap.getDBT, Heap.find, hp, R.hdd]

theorem Ready.getKeyBlock {h0 h : Heap} {t : Req} {DK DV : DBT} {KB VB : Block}
    (R : Ready h0 h t DK DV KB VB) (hd : DK.data ≠ 0) : h.getBlock DK.data = some KB := by
  simp [Heap.getBlock, Heap.find, hd, R.hkb hd]

theorem Ready.getValBlock {h0 h : Heap} {t : Req} {DK DV : DBT} {KB VB : Block}
    (R : Ready h0 h t DK DV KB VB) (hd : DV.data ≠ 0) : h.getBlock DV.data = some VB := by
  simp [Heap.getBlock, Heap.find, hd, R.hvb hd]

/-- C16. For a query task built without a value, the value descriptor `async_before`
leaves on the heap is: when the flags have `DB_MULTIPLE` or `DB_MULTIPLE_KEY`, a
descriptor in `DB_DBT_USERMEM` mode with `size = 0`, `ulen = 5242880` and `data` a fresh
non-null block of exactly 5242880 bytes; otherwise a descriptor in `DB_DBT_MALLOC` mode
with `data = NULL`, `size = 0` and `ulen = 0`.  The task's `value` field is that same
`data` pointer. -/
theorem value_descriptor_modes (K : Consts) (hK : K.WF) (h0 : Heap) (db txn cur : Nat)
    (key : Option Bytes) (cb : Value) (flags : Nat) :
    BUFFER_LENGTH = 5242880
    ∧ (flags &&& K.DB_MULTIPLE ≠ 0 ∨ flags &&& K.DB_MULTIPLE_KEY ≠ 0 →
        ∃ p b,
          (async_before K h0 db txn cur key none cb flags true).2.getDBT
              (async_before K h0 db txn cur key none cb flags true).1.data.data_dbt
            = some ⟨p, 0, 5242880, K.DB_DBT_USERMEM⟩
          ∧ p ≠ 0 ∧ h0.next < p
          ∧ (async_before K h0 db txn cur key none cb flags true).2.getBlock p = some b
          ∧ b.size = 5242880
          ∧ (async_before K h0 db txn cur key none cb flags true).1.data.value = p)
    ∧ (flags &&& K.DB_MULTIPLE = 0 ∧ flags &&& K.DB_MULTIPLE_KEY = 0 →
        (async_before K h0 db txn cur key none cb flags true).2.getDBT
            (async_before K h0 db txn cur key none cb flags true).1.data.data_dbt
          = some ⟨0, 0, 0, K.DB_DBT_MALLOC⟩
        ∧ (async_before K h0 db txn cur key none cb flags true).1.data.value = 0) := by
  obtain ⟨R, -, hv, -, -⟩ := async_before_ready K hK h0 db txn cur key none cb flags
  obtain ⟨-, -, -, -, f5, -⟩ := R.facts
  refine ⟨by decide, ?_, ?_⟩
  · intro hb
    have hbf : bulkFlags K flags = true := by
      rcases hb with h | h <;> simp [bulkFlags, h]
    have hD : valD K h0 key none flags
        = ⟨(heap3 K h0 key).next + 2, 0, 5242880, K.DB_DBT_USERMEM⟩ := by
      simp [valD, dbtOf, valFlags, hbf, BUFFER_LENGTH]
    have hd : (valD K h0 key none flags).data ≠ 0 := by rw [hD]; simp
    refine ⟨(valD K h0 key none flags).data, valB K h0 key none, ?_, hd, (f5 hd).2.2.1,
      R.getValBlock hd, by simp [valB, blockOf, BUFFER_LENGTH], hv⟩
    rw [R.getVal, hD]
  · intro hb
    have hbf : bulkFlags K flags = false := by simp [bulkFlags, hb.1, hb.2]
    have hD : valD K h0 key none flags = ⟨0, 0, 0, K.DB_DBT_MALLOC⟩ := by
      simp [valD, dbtOf, valFlags, hbf]
    exact ⟨by rw [R.getVal, hD], by rw [hv, hD]⟩

/-- Witness for C16: `db.get("B", {multiple: true}, cb)` and `db.get("B", cb)` on the empty
heap. -/
theorem value_descriptor_modes_witness :
    sampleConsts.WF
    ∧ (∃ p b,
        (async_before sampleConsts Heap.empty 7 0 0 (some [66]) none (.func "cb")
            (sampleConsts.flag "multiple") true).2.getDBT
          (async_before sampleConsts Heap.empty 7 0 0 (some [66]) none (.func "cb")
            (sampleConsts.flag "multiple") true).1.data.data_dbt
          = some ⟨p, 0, 5242880, 2048⟩
        ∧ p ≠ 0
        ∧ (async_before sampleConsts Heap.empty 7 0 0 (some [66]) none (.func "cb")
            (sampleConsts.flag "multiple") true).2.getBlock p = some b
        ∧ b.size = 5242880)
    ∧ (async_before sampleConsts Heap.empty 7 0 0 (some [66]) none (.func "cb") 0 true).2.getDBT
          (async_before sampleConsts Heap.empty 7 0 0 (some [66]) none (.func "cb") 0
            true).1.data.data_dbt
        = some ⟨0, 0, 0, 16⟩ := by
  refine ⟨sampleConsts_wf, ?_, ?_⟩
  · obtain ⟨p, b, h1, h2, -, h4, h5, -⟩ :=
      (value_descriptor_modes sampleConsts sampleConsts_wf Heap.empty 7 0 0 (some [66])
        (.func "cb") (sampleConsts.flag "multiple")).2.1 (Or.inl (by decide))
    exact ⟨p, b, h1, h2, h4, h5⟩
  · exact ((value_descriptor_modes sampleConsts sampleConsts_wf Heap.empty 7 0 0 (some [66])
        (.func "cb") 0).2.2 ⟨by decide, by decide⟩).1

theorem take_strlen_full (s : Bytes) (h : 0 ∉ s) : s.take (strlen s) = s := by
  rw [strlen_full s h, List.take_length]

theorem key_descriptor_built (K : Consts) (hK : K.WF) (h0 : Heap) (db txn cur : Nat)
    (k : Bytes) (value : Option Bytes) (cb : Value) (flags : Nat) :
    ∃ p b,
      (async_before K h0 db txn cur (some k) value cb flags true).2.getDBT
          (async_before K h0 db txn cur (some k) value cb flags true).1.data.key_dbt
        = some ⟨p, strlen k, 0, K.DB_DBT_MALLOC⟩
      ∧ p ≠ 0 ∧ h0.next < p
      ∧ (async_before K h0 db txn cur (some k) value cb flags true).2.getBlock p = some b
      ∧ b.size = strlen k
      ∧ b.read 0 (strlen k) = some (k.take (strlen k)) := by
  obtain ⟨R, -, -, -, -⟩ := async_before_ready K hK h0 db txn cur (some k) value cb flags
  obtain ⟨-, -, -, f4, -, -⟩ := R.facts
  have hD : keyD K h0 (some k) = ⟨(heap2 h0).next + 2, strlen k, 0, K.DB_DBT_MALLOC⟩ := by
    simp [keyD, dbtOf]
  have hd : (keyD K h0 (some k)).data ≠ 0 := by rw [hD]; simp
  refine ⟨(keyD K h0 (some k)).data, keyB h0 (some k), ?_, hd, (f4 hd).2.2.1,
    R.getKeyBlock hd, by simp [keyB, blockOf, Block.write], ?_⟩
  · rw [R.getKey, hD]
  · simp only [keyB, blockOf, read_write]

theorem value_descriptor_built (K : Consts) (hK : K.WF) (h0 : Heap) (db txn cur : Nat)
    (key : Option Bytes) (v : Bytes) (cb : Value) (flags : Nat) :
    ∃ p b,
      (async_before K h0 db txn cur key (some v) cb flags true).2.getDBT
          (async_before K h0 db txn cur key (some v) cb flags true).1.data.data_dbt
        = some ⟨p, strlen v, 0, 0⟩
      ∧ p ≠ 0 ∧ h0.next < p
      ∧ (async_before K h0 db txn cur key (some v) cb flags true).2.getBlock p = some b
      ∧ b.size = strlen v
      ∧ b.read 0 (strlen v) = some (v.take (strlen v)) := by
  obtain ⟨R, -, -, -, -⟩ := async_before_ready K hK h0 db txn cur key (some v) cb flags
  obtain ⟨-, -, -, -, f5, -⟩ := R.facts
  have hD : valD K h0 key (some v) flags = ⟨(heap3 K h0 key).next + 2, strlen v, 0, 0⟩ := by
    simp [valD, dbtOf, valFlags]
  have hd : (valD K h0 key (some v) flags).data ≠ 0 := by rw [hD]; simp
  refine ⟨(valD K h0 key (some v) flags).data, valB K h0 key (some v), ?_, hd, (f5 hd).2.2.1,
    R.getValBlock hd, by simp [valB, blockOf, Block.write], ?_⟩
  · rw [R.getVal, hD]
  · simp only [valB, blockOf, read_write]

/-- C15 (amended). For every byte string `s` without a zero byte supplied as key, or as
value, of a query task, the descriptor `async_before` builds through `dbt_set` has
`size = length(s)` and `data` pointing to a fresh block of exactly `length(s)` bytes
whose contents are `s`.  The value descriptor is caller-supplied (`flags = 0`, neither
`DB_DBT_MALLOC` nor `DB_DBT_USERMEM`); the key descriptor carries `DB_DBT_MALLOC` and no
`DB_DBT_USERMEM`. -/
theorem input_descriptors (K : Consts) (hK : K.WF) (h0 : Heap) (db txn cur : Nat)
    (s : Bytes) (other : Option Bytes) (cb : Value) (flags : Nat) (hs : 0 ∉ s) :
    (∃ p b,
      (async_before K h0 db txn cur (some s) other cb flags true).2.getDBT
          (async_before K h0 db txn cur (some s) other cb flags true).1.data.key_dbt
        = some ⟨p, s.length, 0, K.DB_DBT_MALLOC⟩
      ∧ p ≠ 0 ∧ h0.next < p
      ∧ (async_before K h0 db txn cur (some s) other cb flags true).2.getBlock p = some b
      ∧ b.size = s.length ∧ b.read 0 s.length = some s
      ∧ K.DB_DBT_MALLOC &&& K.DB_DBT_USERMEM = 0)
    ∧ (∃ p b,
      (async_before K h0 db txn cur other (some s) cb flags true).2.getDBT
          (async_before K h0 db txn cur other (some s) cb flags true).1.data.data_dbt
        = some ⟨p, s.length, 0, 0⟩
      ∧ p ≠ 0 ∧ h0.next < p
      ∧ (async_before K h0 db txn cur other (some s) cb flags true).2.getBlock p = some b
      ∧ b.size = s.length ∧ b.read 0 s.length = some s
      ∧ 0 &&& K.DB_DBT_MALLOC = 0 ∧ 0 &&& K.DB_DBT_USERMEM = 0) := by
  constructor
  · obtain ⟨p, b, h1, h2, h3, h4, h5, h6⟩ :=
      key_descriptor_built K hK h0 db txn cur s other cb flags
    rw [strlen_full s hs] at h1 h5
    rw [take_strlen_full s hs, strlen_full s hs] at h6
    exact ⟨p, b, h1, h2, h3, h4, h5, h6, hK.malloc_usermem⟩
  · obtain ⟨p, b, h1, h2, h3, h4, h5, h6⟩ :=
      value_descriptor_built K hK h0 db txn cur other s cb flags
    rw [strlen_full s hs] at h1 h5
    rw [take_strlen_full s hs, strlen_full s hs] at h6
    exact ⟨p, b, h1, h2, h3, h4, h5, h6, by simp, by simp⟩

/-- Witness for C15: the descriptors of `db.put("ab", "xyz", cb)` on the empty heap. -/
theorem input_descriptors_witness :
    sampleConsts.WF ∧ 0 ∉ [97, 98] ∧
    ∃ p b,
      (async_before sampleConsts Heap.empty 7 0 0 (some [97, 98]) (some [120, 121, 122])
          (.func "cb") 0 true).2.getDBT
        (async_before sampleConsts Heap.empty 7 0 0 (some [97, 98]) (some [120, 121, 122])
          (.func "cb") 0 true).1.data.key_dbt = some ⟨p, 2, 0, 16⟩
      ∧ (async_before sampleConsts Heap.empty 7 0 0 (some [97, 98]) (some [120, 121, 122])
          (.func "cb") 0 true).2.getBlock p = some b
      ∧ b.read 0 2 = some [97, 98] := by
  refine ⟨sampleConsts_wf, by decide, ?_⟩
  obtain ⟨p, b, h1, -, -, h4, -, h6, -⟩ :=
    (input_descriptors sampleConsts sampleConsts_wf Heap.empty 7 0 0 [97, 98]
      (some [120, 121, 122]) (.func "cb") 0 (by decide)).1
  exact ⟨p, b, h1, h4, h6⟩

/-- Counterexample to C15 as stated: the key descriptor of `db.put("a\0b", "x\0y", cb)` has
length 1, not 3, and is marked `DB_DBT_MALLOC` (engine-allocated); its value descriptor has
length 1, not 3. -/
theorem input_descriptors_zero_byte :
    (∃ d,
      (async_before sampleConsts Heap.empty 7 0 0 (some [97, 0, 98]) (some [120, 0, 121])
          (.func "cb") 0 true).2.getDBT
        (async_before sampleConsts Heap.empty 7 0 0 (some [97, 0, 98]) (some [120, 0, 121])
          (.func "cb") 0 true).1.data.key_dbt = some d
      ∧ d.size = 1 ∧ d.size ≠ [97, 0, 98].length
      ∧ d.flags &&& sampleConsts.DB_DBT_MALLOC ≠ 0)
    ∧ (∃ d,
      (async_before sampleConsts Heap.empty 7 0 0 (some [97, 0, 98]) (some [120, 0, 121])
          (.func "cb") 0 true).2.getDBT
        (async_before sampleConsts Heap.empty 7 0 0 (some [97, 0, 98]) (some [120, 0, 121])
          (.func "cb") 0 true).1.data.data_dbt = some d
      ∧ d.size = 1 ∧ d.size ≠ [120, 0, 121].length) := by
  constructor
  · obtain ⟨p, b, h1, -⟩ := key_descriptor_built sampleConsts sampleConsts_wf Heap.empty 7 0 0
      [97, 0, 98] (some [120, 0, 121]) (.func "cb") 0
    exact ⟨_, h1, rfl, by simp [strlen], by simp [sampleConsts]⟩
  · obtain ⟨p, b, h1, -⟩ := value_descriptor_built sampleConsts sampleConsts_wf Heap.empty 7 0 0
      (some [97, 0, 98]) [120, 0, 121] (.func "cb") 0
    exact ⟨_, h1, rfl, by simp [strlen]⟩

theorem GET_EXTERNAL_cursor_object (cur : Nat) :
    GET_EXTERNAL (cursor_object cur) "_cur" = cur := by
  simp [cursor_object, SET_METHOD, SET_EXTERNAL, Value.Set, Value.setProp, GET_EXTERNAL,
    Value.IsObject, Value.Get, Value.lookupProp, Value.Unwrap]

theorem run_db_cursor {σ : Type} (K : Consts) (E : Engine σ) (hE : ∀ s h c, (E s h c).heap = h)
    (w : World σ) (hq : w.queue = []) (db txn flags : Nat) (cb : Value) :
    ∃ w1, runNext K E (uv_queue_work w (async_before K w.heap db txn 0 none none cb flags false)
        .db_cursor .cursor) = some w1
      ∧ w1.trace = w.trace ++ [.db_cursor db txn flags]
      ∧ w1.out = w.out ++ [⟨cb, [err_object K (E w.eng (heap2 w.heap)
              (.db_cursor db txn flags)).ret,
            cursor_object ((E w.eng (heap2 w.heap) (.db_cursor db txn flags)).handle.getD 0)]⟩] := by
  simp only [uv_queue_work, hq, List.nil_append, runNext, runWork, engineCall,
    async_before_plain, hE, runAfter, completion, Task.done, tail_plain]
  exact ⟨_, rfl, rfl, rfl⟩

/-- C17. `begin` (on any receiver) and `db.cursor`, called with valid arguments and run to
completion, call the continuation with exactly two arguments, whatever code the engine
call returned: `err_object` of the code, and the object `txn_object` (resp.
`cursor_object`) builds around the handle value the work function stored.  Such an object
is an object, never `null` or `undefined`, and wraps that handle. -/
theorem handle_object_always_delivered {σ : Type} (K : Consts) (E : Engine σ)
    (hE : ∀ s h c, (E s h c).heap = h) (w : World σ) (hq : w.queue = [])
    (recv : Value) (args : List Value) (hargs : badNumArgs args 1 2 = false)
    (hcb : (lastArg args).IsFunction = true) :
    (∃ w1 code handle,
        runNext K E (_env_txn_begin K recv args w).2 = some w1
        ∧ (E w.eng (heap2 w.heap) (.txn_begin w.dbenv (GET_EXTERNAL recv "_txn")
            (if args.length > 1 then get_flags K (argAt args 0) 0 else 0))).ret = code
        ∧ (E w.eng (heap2 w.heap) (.txn_begin w.dbenv (GET_EXTERNAL recv "_txn")
            (if args.length > 1 then get_flags K (argAt args 0) 0 else 0))).handle.getD
              w.stackJunk = handle
        ∧ w1.out = w.out ++ [⟨lastArg args, [err_object K code, txn_object handle]⟩])
    ∧ (∃ w1 code handle,
        runNext K E (_db_cursor K recv args w).2 = some w1
        ∧ (E w.eng (heap2 w.heap) (.db_cursor (GET_EXTERNAL recv "_db")
            (GET_EXTERNAL recv "_txn")
            (if args.length > 1 then get_flags K (argAt args 0) 0 else 0))).ret = code
        ∧ (E w.eng (heap2 w.heap) (.db_cursor (GET_EXTERNAL recv "_db")
            (GET_EXTERNAL recv "_txn")
            (if args.length > 1 then get_flags K (argAt args 0) 0 else 0))).handle.getD 0
              = handle
        ∧ w1.out = w.out ++ [⟨lastArg args, [err_object K code, cursor_object handle]⟩])
    ∧ (∀ h, (txn_object h).IsObject = true ∧ txn_object h ≠ .null
        ∧ txn_object h ≠ .undefined ∧ GET_EXTERNAL (txn_object h) "_txn" = h)
    ∧ (∀ h, (cursor_object h).IsObject = true ∧ cursor_object h ≠ .null
        ∧ cursor_object h ≠ .undefined ∧ GET_EXTERNAL (cursor_object h) "_cur" = h) := by
  have hb : (_env_txn_begin K recv args w).2
      = uv_queue_work w (async_before K w.heap 0 (GET_EXTERNAL recv "_txn") 0 none none
          (lastArg args) (if args.length > 1 then get_flags K (argAt args 0) 0 else 0) false)
          .txn_begin .txn := by
    simp only [_env_txn_begin, checked_accept _ _ _ _ _ hargs hcb]
  have hc : (_db_cursor K recv args w).2
      = uv_queue_work w (async_before K w.heap (GET_EXTERNAL recv "_db")
          (GET_EXTERNAL recv "_txn") 0 none none
          (lastArg args) (if args.length > 1 then get_flags K (argAt args 0) 0 else 0) false)
          .db_cursor .cursor := by
    simp only [_db_cursor, checked_accept _ _ _ _ _ hargs hcb]
  refine ⟨?_, ?_, ?_, ?_⟩
  · rw [hb, run_txn_begin K E hE w hq]
    exact ⟨_, _, _, rfl, rfl, rfl, rfl⟩
  · rw [hc]
    obtain ⟨w1, h1, -, h3⟩ := run_db_cursor K E hE w hq (GET_EXTERNAL recv "_db")
      (GET_EXTERNAL recv "_txn") (if args.length > 1 then get_flags K (argAt args 0) 0 else 0)
      (lastArg args)
    exact ⟨w1, _, _, h1, rfl, rfl, h3⟩
  · intro h
    refine ⟨?_, ?_, ?_, GET_EXTERNAL_txn_object h⟩ <;>
      simp [txn_object, SET_METHOD, SET_EXTERNAL, Value.Set, Value.setProp, Value.IsObject]
  · intro h
    refine ⟨?_, ?_, ?_, GET_EXTERNAL_cursor_object h⟩ <;>
      simp [cursor_object, SET_METHOD, SET_EXTERNAL, Value.Set, Value.setProp, Value.IsObject]

/-- Witness for C17: `env.begin(cb)` and `db.cursor(cb)` over an engine whose calls all
fail with code 12. -/
theorem handle_object_always_delivered_witness :
    (∀ s h c, (failEngine s h c).heap = h)
    ∧ World.empty.queue = []
    ∧ badNumArgs [Value.func "cb"] 1 2 = false
    ∧ (lastArg [Value.func "cb"]).IsFunction = true
    ∧ (∃ w1, runNext sampleConsts failEngine
          (_env_txn_begin sampleConsts env_object [.func "cb"] World.empty).2 = some w1
        ∧ w1.out = [⟨.func "cb", [err_object sampleConsts 12, txn_object 0]⟩])
    ∧ (∃ w1, runNext sampleConsts failEngine
          (_db_cursor sampleConsts (db_object 7 0) [.func "cb"] World.empty).2 = some w1
        ∧ w1.out = [⟨.func "cb", [err_object sampleConsts 12, cursor_object 0]⟩]) := by
  refine ⟨fun _ _ _ => rfl, rfl, by decide, by decide, ?_, ?_⟩
  · obtain ⟨w1, code, handle, h1, h2, h3, h4⟩ :=
      (handle_object_always_delivered sampleConsts failEngine (fun _ _ _ => rfl) World.empty rfl
        env_object [.func "cb"] (by decide) (by decide)).1
    exact ⟨w1, h1, by rw [h4, ← h2, ← h3]; rfl⟩
  · obtain ⟨w1, code, handle, h1, h2, h3, h4⟩ :=
      (handle_object_always_delivered sampleConsts failEngine (fun _ _ _ => rfl) World.empty rfl
        (db_object 7 0) [.func "cb"] (by decide) (by decide)).2.1
    exact ⟨w1, h1, by rw [h4, ← h2, ← h3]; rfl⟩

theorem multipleLoop_array (b : Block) (fuel p i : Nat) (xs : List Value) (v : Value)
    (h : multipleLoop b fuel p i (.array xs) = some v) : ∃ ys, v = .array ys := by
  induction fuel generalizing p i xs with
  | zero => simp [multipleLoop] at h
  | succ f ih =>
    simp only [multipleLoop] at h
    split at h
    · simp at h
    · split at h
      · exact ⟨xs, by simpa using h.symm⟩
      · split at h
        · simp at h
        · exact ih _ _ _ h

theorem multipleKeyLoop_array (b : Block) (fuel p i : Nat) (xs : List Value) (v : Value)
    (h : multipleKeyLoop b fuel p i (.array xs) = some v) : ∃ ys, v = .array ys := by
  induction fuel generalizing p i xs with
  | zero => simp [multipleKeyLoop] at h
  | succ f ih =>
    simp only [multipleKeyLoop] at h
    split at h
    · simp at h
    · split at h
      · exact ⟨xs, by simpa using h.symm⟩
      · split at h
        · exact ih _ _ _ h
        · simp at h

theorem decodeBulk_array (K : Consts) (flags : Nat) (d : DBT) (b : Block) (v : Value)
    (h : decodeBulk K flags d b = some v) : ∃ ys, v = .array ys := by
  unfold decodeBulk at h
  split at h
  · split at h
    · exact multipleLoop_array _ _ _ _ _ _ h
    · simp at h
  · split at h
    · split at h
      · exact multipleKeyLoop_array _ _ _ _ _ _ h
      · simp at h
    · exact ⟨[], by simpa using h.symm⟩

theorem worked_out {σ : Type} (E : Engine σ) (t : Task) (w : World σ) :
    (runWork E t w).2.out = w.out ∧ (runWork E t w).2.queue = w.queue
    ∧ (runWork E t w).2.fatal = w.fatal := by
  rcases t with ⟨rq, work, after⟩
  cases work <;> exact ⟨rfl, rfl, rfl⟩

theorem runNext_queued {σ : Type} (K : Consts) (E : Engine σ) (w : World σ)
    (hq : w.queue = []) (db txn cur : Nat) (key value : Option Bytes) (cb : Value)
    (flags : Nat) (query : Bool) (work : Work) (after : After) :
    runNext K E (uv_queue_work w (async_before K w.heap db txn cur key value cb flags query)
        work after)
      = runAfter K (worked E (submitted K w db txn cur key value cb flags query work after)).1
          (worked E (submitted K w db txn cur key value cb flags query work after)).2 := by
  rcases w with ⟨h, dbenv, eng, queue, trace, out, fatal, sj⟩
  simp only at hq
  subst hq
  rfl

/-- Running a queued task to completion appends the call its completion handler makes. -/
theorem run_delivers {σ : Type} (K : Consts) (E : Engine σ) (w : World σ)
    (hq : w.queue = []) (db txn cur : Nat) (key value : Option Bytes) (cb : Value)
    (flags : Nat) (query : Bool) (work : Work) (after : After) (c : Completed)
    (hc : completion K (worked E (submitted K w db txn cur key value cb flags query work after)).1
      (worked E (submitted K w db txn cur key value cb flags query work after)).2.heap = some c) :
    ∃ w1, runNext K E (uv_queue_work w
        (async_before K w.heap db txn cur key value cb flags query) work after) = some w1
      ∧ w1.out = w.out ++ [c.call] ∧ w1.queue = [] := by
  rw [runNext_queued K E w hq]
  obtain ⟨h1, h2, -⟩ := worked_out E
    (submitted K w db txn cur key value cb flags query work after).1
    (submitted K w db txn cur key value cb flags query work after).2
  simp only [runAfter, hc]
  refine ⟨_, rfl, ?_, ?_⟩
  · show (worked E _).2.out ++ [c.call] = _
    simp only [worked]
    rw [h1]
    rfl
  · show (worked E _).2.queue = _
    simp only [worked]
    rw [h2]
    exact hq

theorem valuePart_single (K : Consts) (hK : K.WF) (e : Effect) (h0 : Heap) (n : Nat)
    (key : Option Bytes) (flags : Nat) (hnb : bulkFlags K flags = false) :
    valuePart K flags (effValD e n (valD K h0 key none flags)) (effValB e (valB K h0 key none))
      = some (match e.val with | some b => .str b | none => .undefined)
    ∧ (effValD e n (valD K h0 key none flags)).data
        = (match e.val with | some _ => n + 1 | none => 0) := by
  have hmu := hK.malloc_usermem
  rcases hv : e.val with _ | b
  · simp [valuePart, effValD, hv, valD, dbtOf, valFlags, hnb]
  · simp [valuePart, effValD, effValB, hv, valD, dbtOf, valFlags, hnb, hmu, String_New_ofBytes]

theorem keyPart_kept (K : Consts) (e : Effect) (h0 : Heap) (n : Nat) (k : Bytes)
    (he : e.key = none) :
    keyPart (effKeyD e n (keyD K h0 (some k))) (effKeyB e (keyB h0 (some k)))
      = some (.str (k.take (strlen k))) := by
  simp [keyPart, effKeyD, effKeyB, he, keyD, keyB, dbtOf, blockOf, String_New_write]

theorem get_completion (K : Consts) (hK : K.WF) (e : Effect) (w : World Unit)
    (hq : w.queue = []) (db txn : Nat) (k : Bytes) (cb : Value) (f : Nat)
    (hnb : bulkFlags K f = false) :
    (e.val = none → e.key = none →
      ∃ w1, runNext K (modelEngine e) (uv_queue_work w
          (async_before K w.heap db txn 0 (some k) none cb f true) .db_get .generic) = some w1
        ∧ w1.out = w.out ++ [⟨cb, [err_object K e.ret, .undefined, .str (k.take (strlen k))]⟩])
    ∧ (∃ w1 res kres, runNext K (modelEngine e) (uv_queue_work w
          (async_before K w.heap db txn 0 (some k) none cb f true) .db_get .generic) = some w1
        ∧ w1.out = w.out ++ [⟨cb, [err_object K e.ret, res, kres]⟩]
        ∧ (res = .undefined ↔
            (worked (modelEngine e) (submitted K w db txn 0 (some k) none cb f true .db_get
                .generic)).2.heap.dataOf
              (worked (modelEngine e) (submitted K w db txn 0 (some k) none cb f true .db_get
                .generic)).1.req.data.data_dbt = 0)) := by
  obtain ⟨hv, hd⟩ := valuePart_single K hK e w.heap
    (async_before K w.heap db txn 0 (some k) none cb f true).2.next (some k) f hnb
  obtain ⟨R, -⟩ := query_ready_apply K hK e w db txn 0 (some k) none cb f .db_get .generic
    (Or.inl rfl)
  obtain ⟨kres, hk⟩ := keyPart_defined R
  constructor
  · intro hval hkey
    rw [hval] at hv
    obtain ⟨c, h1, h2, -⟩ := query_delivers K hK e w db txn 0 (some k) none cb f .db_get
      (Or.inl rfl) _ _ hv (keyPart_kept K e w.heap _ k hkey)
    obtain ⟨w1, g1, g2, -⟩ := run_delivers K (modelEngine e) w hq _ _ _ _ _ _ _ _ _ _ c h1
    exact ⟨w1, g1, by rw [g2, h2]⟩
  · obtain ⟨c, h1, h2, -⟩ := query_delivers K hK e w db txn 0 (some k) none cb f .db_get
      (Or.inl rfl) _ _ hv hk
    obtain ⟨w1, g1, g2, -⟩ := run_delivers K (modelEngine e) w hq _ _ _ _ _ _ _ _ _ _ c h1
    refine ⟨w1, _, kres, g1, by rw [g2, h2], ?_⟩
    have hdo : (worked (modelEngine e) (submitted K w db txn 0 (some k) none cb f true .db_get
          .generic)).2.heap.dataOf
        (worked (modelEngine e) (submitted K w db txn 0 (some k) none cb f true .db_get
          .generic)).1.req.data.data_dbt
        = (effValD e (async_before K w.heap db txn 0 (some k) none cb f true).2.next
          (valD K w.heap (some k) none f)).data := by
      unfold Heap.dataOf
      rw [R.getVal]
    rw [hdo, hd]
    rcases e.val with _ | b <;> simp

/-- C18. A non-bulk `db.get(key, [options], cb)` run to completion over the allocation
model calls the continuation with exactly three arguments.  When the engine call leaves the
value descriptor's `data` null and the key descriptor as it was, they are `err_object` of
the return code, `undefined`, and the key bytes `dbt_set` copied into the key descriptor.
Whatever the engine call does, the second argument is `undefined` exactly when the value
descriptor's `data` is null after the engine call. -/
theorem get_without_value (K : Consts) (hK : K.WF) (e : Effect) (w : World Unit)
    (hq : w.queue = []) (this : Value) (k : Bytes) (o : Option Value) (cb : String)
    (hnb : bulkFlags K (match o with | some x => get_flags K x 0 | none => 0) = false) :
    (e.val = none → e.key = none →
      ∃ w1, runNext K (modelEngine e)
          (_db_get K this ([.str k] ++ o.toList ++ [.func cb]) w).2 = some w1
        ∧ w1.out = w.out ++
            [⟨.func cb, [err_object K e.ret, .undefined, .str (k.take (strlen k))]⟩])
    ∧ (∃ w1 res kres, runNext K (modelEngine e)
          (_db_get K this ([.str k] ++ o.toList ++ [.func cb]) w).2 = some w1
        ∧ w1.out = w.out ++ [⟨.func cb, [err_object K e.ret, res, kres]⟩]
        ∧ (res = .undefined ↔
            (worked (modelEngine e) (submitted K w (GET_EXTERNAL this "_db")
                (GET_EXTERNAL this "_txn") 0 (some k) none (.func cb)
                (match o with | some x => get_flags K x 0 | none => 0) true .db_get
                .generic)).2.heap.dataOf
              (worked (modelEngine e) (submitted K w (GET_EXTERNAL this "_db")
                (GET_EXTERNAL this "_txn") 0 (some k) none (.func cb)
                (match o with | some x => get_flags K x 0 | none => 0) true .db_get
                .generic)).1.req.data.data_dbt = 0)) := by
  rw [db_get_queues]
  exact get_completion K hK e w hq _ _ k (.func cb) _ hnb

/-- Witness for C18: `db.get("B", cb)` whose engine call returns the not-found code. -/
theorem get_without_value_witness :
    sampleConsts.WF ∧ World.empty.queue = []
    ∧ bulkFlags sampleConsts 0 = false
    ∧ ∃ w1, runNext sampleConsts (modelEngine sampleMiss)
        (_db_get sampleConsts (db_object 7 0) [.str [66], .func "cb"] World.empty).2 = some w1
      ∧ w1.out = [⟨.func "cb", [err_object sampleConsts (-30988), .undefined, .str [66]]⟩] :=
  ⟨sampleConsts_wf, rfl, by decide,
   (get_without_value sampleConsts sampleConsts_wf sampleMiss World.empty rfl (db_object 7 0)
      [66] none "cb" (by decide)).1 rfl rfl⟩

theorem db_del_queues {σ : Type} (K : Consts) (this : Value) (k : Bytes) (o : Option Value)
    (cb : String) (w : World σ) :
    _db_del K this ([.str k] ++ o.toList ++ [.func cb]) w
      = (.returned .undefined, uv_queue_work w
          (async_before K w.heap (GET_EXTERNAL this "_db") (GET_EXTERNAL this "_txn") 0 (some k)
            none (.func cb) (match o with | some x => get_flags K x 0 | none => 0) true)
          .db_del .generic) := by
  rcases o with _ | x <;>
    simp [_db_del, checked, badNumArgs, lastArg, argAt, Value.IsFunction, Utf8Value]

theorem del_ready (K : Consts) (hK : K.WF) (e : Effect) (he : e.key = none) (w : World Unit)
    (db txn cur : Nat) (key value : Option Bytes) (cb : Value) (flags : Nat) (after : After) :
    Ready w.heap
      (worked (modelEngine e)
        (submitted K w db txn cur key value cb flags true .db_del after)).2.heap
      (worked (modelEngine e)
        (submitted K w db txn cur key value cb flags true .db_del after)).1.req
      (keyD K w.heap key) (valD K w.heap key value flags) (keyB w.heap key)
      (valB K w.heap key value)
    ∧ (worked (modelEngine e)
        (submitted K w db txn cur key value cb flags true .db_del after)).1.req.data.flags = flags
    ∧ (worked (modelEngine e)
        (submitted K w db txn cur key value cb flags true .db_del after)).1.req.data.callback = cb
    ∧ (worked (modelEngine e)
        (submitted K w db txn cur key value cb flags true .db_del after)).1.req.data.err = e.ret
    ∧ (worked (modelEngine e)
        (submitted K w db txn cur key value cb flags true .db_del after)).1.after = after := by
  obtain ⟨R, -, -, -, -⟩ := async_before_ready K hK w.heap db txn cur key value cb flags
  obtain ⟨hf, hc, -⟩ := async_before_fields K w.heap db txn cur key value cb flags true
  have hh : (worked (modelEngine e)
      (submitted K w db txn cur key value cb flags true .db_del after)).2.heap
      = replaceData (async_before K w.heap db txn cur key value cb flags true).2
          (async_before K w.heap db txn cur key value cb flags true).1.data.key_dbt e.key := rfl
  rw [hh, he, replaceData_none]
  exact ⟨R.setOut _ _, hf, hc, rfl, rfl⟩

theorem del_completion (K : Consts) (hK : K.WF) (e : Effect) (he : e.key = none)
    (w : World Unit) (hq : w.queue = []) (db txn : Nat) (k : Bytes) (cb : Value) (f : Nat)
    (res : Value)
    (hres : valuePart K f (valD K w.heap (some k) none f) (valB K w.heap (some k) none)
      = some res) :
    ∃ w1, runNext K (modelEngine e) (uv_queue_work w
        (async_before K w.heap db txn 0 (some k) none cb f true) .db_del .generic) = some w1
      ∧ w1.out = w.out ++ [⟨cb, [err_object K e.ret, res, .str (k.take (strlen k))]⟩] := by
  obtain ⟨R, hf, hc, her, ha⟩ := del_ready K hK e he w db txn 0 (some k) none cb f .generic
  have hkres : keyPart (keyD K w.heap (some k)) (keyB w.heap (some k))
      = some (.str (k.take (strlen k))) := by
    simp [keyPart, keyD, keyB, dbtOf, blockOf, String_New_write]
  have hres2 : valuePart K (worked (modelEngine e)
      (submitted K w db txn 0 (some k) none cb f true .db_del .generic)).1.req.data.flags
      (valD K w.heap (some k) none f) (valB K w.heap (some k) none) = some res := by
    rw [hf]; exact hres
  have h1 := async_after_ready K R res _ hres2 hkres
  rw [hc, her, ← completion_generic K _ _ ha] at h1
  obtain ⟨w1, g1, g2, -⟩ := run_delivers K (modelEngine e) w hq _ _ _ _ _ _ _ _ _ _ _ h1
  exact ⟨w1, g1, g2⟩

theorem del_plain (K : Consts) (hK : K.WF) (e : Effect) (he : e.key = none)
    (w : World Unit) (hq : w.queue = []) (db txn : Nat) (k : Bytes) (cb : Value) (f : Nat)
    (hnb : bulkFlags K f = false) :
    ∃ w1, runNext K (modelEngine e) (uv_queue_work w
        (async_before K w.heap db txn 0 (some k) none cb f true) .db_del .generic) = some w1
      ∧ w1.out = w.out ++ [⟨cb, [err_object K e.ret, .undefined, .str (k.take (strlen k))]⟩] :=
  del_completion K hK e he w hq db txn k cb f .undefined
    (by simp [valuePart, valD, dbtOf, valFlags, hnb])

/-- C12 (amended). For every `db.del(key, [options], cb)` call with valid arguments whose
key has no zero byte and whose option set selects neither `multiple` nor `multiple_key`,
run to completion over an engine whose `del` leaves the key descriptor as it is, and for
every engine return code: the call returns `undefined` and the continuation is called with
`err_object` of the code, `undefined`, and the key that was passed. -/
theorem del_delivers_key (K : Consts) (hK : K.WF) (e : Effect) (he : e.key = none)
    (w : World Unit) (hq : w.queue = []) (this : Value) (k : Bytes) (o : Option Value)
    (cb : String) (hk : 0 ∉ k)
    (hnb : bulkFlags K (match o with | some x => get_flags K x 0 | none => 0) = false) :
    (_db_del K this ([.str k] ++ o.toList ++ [.func cb]) w).1 = .returned .undefined
    ∧ ∃ w1, runNext K (modelEngine e)
        (_db_del K this ([.str k] ++ o.toList ++ [.func cb]) w).2 = some w1
      ∧ w1.out = w.out ++ [⟨.func cb, [err_object K e.ret, .undefined, .str k]⟩] := by
  rw [db_del_queues]
  refine ⟨rfl, ?_⟩
  have h := del_plain K hK e he w hq (GET_EXTERNAL this "_db") (GET_EXTERNAL this "_txn")
    k (.func cb) _ hnb
  rw [take_strlen_full k hk] at h
  exact h

/-- Witness for C12: `db.del("B", cb)` whose engine call returns the not-found code. -/
theorem del_delivers_key_witness :
    sampleConsts.WF ∧ sampleMiss.key = none ∧ World.empty.queue = [] ∧ 0 ∉ [66]
    ∧ bulkFlags sampleConsts 0 = false
    ∧ ∃ w1, runNext sampleConsts (modelEngine sampleMiss)
        (_db_del sampleConsts (db_object 7 0) [.str [66], .func "cb"] World.empty).2 = some w1
      ∧ w1.out = [⟨.func "cb", [err_object sampleConsts (-30988), .undefined, .str [66]]⟩] :=
  ⟨sampleConsts_wf, rfl, rfl, by decide, by decide,
   (del_delivers_key sampleConsts sampleConsts_wf sampleMiss rfl World.empty rfl (db_object 7 0)
      [66] none "cb" (by decide) (by decide)).2⟩

theorem del_bulk (K : Consts) (hK : K.WF) (e : Effect) (he : e.key = none)
    (w : World Unit) (hq : w.queue = []) (db txn : Nat) (k : Bytes) (cb : Value) (f : Nat)
    (hm : f &&& K.DB_MULTIPLE ≠ 0)
    (hl : multipleLayout (valB K w.heap (some k) none) (BUFFER_LENGTH - 4) [] = true) :
    ∃ w1, runNext K (modelEngine e) (uv_queue_work w
        (async_before K w.heap db txn 0 (some k) none cb f true) .db_del .generic) = some w1
      ∧ w1.out = w.out ++ [⟨cb, [err_object K e.ret, .array [], .str (k.take (strlen k))]⟩] := by
  have hb : bulkFlags K f = true := by simp [bulkFlags, hm]
  have hu := hK.usermem_ne
  have hlen : (valD K w.heap (some k) none f).ulen = BUFFER_LENGTH := by
    simp [valD, dbtOf, hb]
  have hv : valuePart K f (valD K w.heap (some k) none f) (valB K w.heap (some k) none)
      = decodeBulk K f (valD K w.heap (some k) none f) (valB K w.heap (some k) none) := by
    simp [valuePart, valD, dbtOf, valFlags, hb, Nat.and_self, hu]
  have hd := decodeBulk_multiple K f (valD K w.heap (some k) none f)
    (valB K w.heap (some k) none) [] hm (by rw [hlen]; decide) (by rw [hlen]; exact hl)
  exact del_completion K hK e he w hq db txn k cb f _ (hv.trans hd)

/-- Counterexample to C12 as stated.  `db.del("a\0b", cb)` hands the continuation the key
`"a"`, cut at the zero byte.  `db.del("a", {multiple: true}, cb)`, on a heap whose fresh
allocations hold `0xFF` bytes, hands it an empty array as second argument, not `undefined`:
`async_before` gave the task a receive buffer and `async_after` decodes it although
`DB->del` never fills it. -/
theorem del_not_as_documented :
    (∃ w1, runNext sampleConsts (modelEngine sampleMiss)
        (_db_del sampleConsts (db_object 7 0) [.str [97, 0, 98], .func "cb"] World.empty).2
          = some w1
      ∧ w1.out = [⟨.func "cb", [err_object sampleConsts (-30988), .undefined, .str [97]]⟩]
      ∧ w1.out ≠ [⟨.func "cb", [err_object sampleConsts (-30988), .undefined,
          .str [97, 0, 98]]⟩])
    ∧ (∃ w1, runNext sampleConsts (modelEngine sampleMiss)
        (_db_del sampleConsts (db_object 7 0)
          [.str [97], .obj [("multiple", .bool true)], .func "cb"] World.stale).2 = some w1
      ∧ w1.out = [⟨.func "cb", [err_object sampleConsts (-30988), .array [], .str [97]]⟩]
      ∧ w1.out ≠ [⟨.func "cb", [err_object sampleConsts (-30988), .undefined, .str [97]]⟩]) := by
  constructor
  · have hq := db_del_queues sampleConsts (db_object 7 0) [97, 0, 98] none "cb" World.empty
    obtain ⟨w1, h1, h2⟩ := del_plain sampleConsts sampleConsts_wf sampleMiss rfl World.empty rfl
      (GET_EXTERNAL (db_object 7 0) "_db") (GET_EXTERNAL (db_object 7 0) "_txn") [97, 0, 98]
      (.func "cb") 0 (by decide)
    refine ⟨w1, ?_, ?_, ?_⟩
    · rw [show _db_del sampleConsts (db_object 7 0) [.str [97, 0, 98], .func "cb"] World.empty
        = _ from hq]
      exact h1
    · rw [h2]; simp [World.empty, strlen, sampleMiss]
    · rw [h2]; simp [World.empty, strlen]
  · have hq := db_del_queues sampleConsts (db_object 7 0) [97]
      (some (.obj [("multiple", .bool true)])) "cb" World.stale
    obtain ⟨w1, h1, h2⟩ := del_bulk sampleConsts sampleConsts_wf sampleMiss rfl World.stale rfl
      (GET_EXTERNAL (db_object 7 0) "_db") (GET_EXTERNAL (db_object 7 0) "_txn") [97]
      (.func "cb") (get_flags sampleConsts (.obj [("multiple", .bool true)]) 0) (by decide)
      (by decide)
    refine ⟨w1, ?_, ?_, ?_⟩
    · rw [show _db_del sampleConsts (db_object 7 0)
          [.str [97], .obj [("multiple", .bool true)], .func "cb"] World.stale = _ from hq]
      exact h1
    · rw [h2]; simp [World.stale, strlen, sampleMiss]
    · rw [h2]; simp [World.stale, strlen]

theorem effValD_bulk (K : Consts) (e : Effect) (n : Nat) (h0 : Heap) (key : Option Bytes)
    (flags : Nat) (hb : bulkFlags K flags = true) :
    (effValD e n (valD K h0 key none flags)).data ≠ 0
    ∧ (effValD e n (valD K h0 key none flags)).flags = K.DB_DBT_USERMEM := by
  rcases hv : e.val with _ | b <;> simp [effValD, hv, valD, dbtOf, valFlags, hb]

theorem bulkSafe_of_layout (K : Consts) (hK : K.WF) (e : Effect) (w : World Unit)
    (db txn cur : Nat) (key : Option Bytes) (cb : Value) (flags : Nat) (work : Work)
    (after : After) (hwork : work = .db_get ∨ work = .db_put ∨ work = .c_get ∨ work = .c_put)
    (hval : e.val = none) (hm : flags &&& K.DB_MULTIPLE ≠ 0) (recs : List Bytes)
    (hl : multipleLayout ⟨BUFFER_LENGTH, e.fill (valB K w.heap key none).byte⟩
      (BUFFER_LENGTH - 4) recs = true) :
    bulkSafe K flags
      (worked (modelEngine e) (submitted K w db txn cur key none cb flags true work after)).2.heap
      (worked (modelEngine e)
        (submitted K w db txn cur key none cb flags true work after)).1.req.data.data_dbt := by
  obtain ⟨R, -⟩ := query_ready_apply K hK e w db txn cur key none cb flags work after hwork
  have hb : bulkFlags K flags = true := by simp [bulkFlags, hm]
  obtain ⟨hv, hu⟩ := valuePart_bulk K hK e w.heap
    (async_before K w.heap db txn cur key none cb flags true).2.next key flags hb hval
  obtain ⟨hd, hf⟩ := effValD_bulk K e
    (async_before K w.heap db txn cur key none cb flags true).2.next w.heap key flags hb
  have hdec := decodeBulk_multiple K flags (valD K w.heap key none flags)
    ⟨BUFFER_LENGTH, e.fill (valB K w.heap key none).byte⟩ recs hm (by rw [hu]; decide)
    (by rw [hu]; exact hl)
  have hvp : valuePart K flags
      (effValD e (async_before K w.heap db txn cur key none cb flags true).2.next
        (valD K w.heap key none flags)) (effValB e (valB K w.heap key none))
      = decodeBulk K flags
          (effValD e (async_before K w.heap db txn cur key none cb flags true).2.next
            (valD K w.heap key none flags)) (effValB e (valB K w.heap key none)) := by
    simp [valuePart, hd, hf, Nat.and_self, hK.usermem_ne]
  intro d b h1 h2 h3 h4
  rw [R.getVal] at h1
  cases h1
  rw [R.getValBlock h2] at h4
  cases h4
  rw [← hvp, hv, hdec]
  rfl

theorem single_or_undefined (K : Consts) (hK : K.WF) {h0 h : Heap} {t : Req} {DK DV : DBT}
    {KB VB : Block} (R : Ready h0 h t DK DV KB VB) (flags : Nat) (value : Option Bytes)
    (f : Nat) (hnb : bulkFlags K f = false) (hf : DV.flags = valFlags K value f) :
    (∃ res, valuePart K flags DV VB = some res ∧ (res = .undefined ∨ ∃ b, res = .str b))
    ∧ (∃ kres, keyPart DK KB = some kres ∧ (kres = .undefined ∨ ∃ b, kres = .str b)) := by
  have hmu := hK.malloc_usermem
  constructor
  · unfold valuePart
    by_cases h1 : DV.data = 0
    · exact ⟨.undefined, by simp [h1], Or.inl rfl⟩
    · have hu : DV.flags &&& K.DB_DBT_USERMEM = 0 := by
        rw [hf]
        rcases value with _ | v <;> simp [valFlags, hnb, hmu]
      refine ⟨_, by rw [if_neg h1, if_neg (by simp [hu])]; exact String_New_le VB DV.size R.vsz,
        Or.inr ⟨_, rfl⟩⟩
  · unfold keyPart
    by_cases h1 : DK.data = 0
    · exact ⟨.undefined, by simp [h1], Or.inl rfl⟩
    · exact ⟨_, by rw [if_neg h1]; exact String_New_le KB DK.size R.ksz, Or.inr ⟨_, rfl⟩⟩

/-- Shapes of the delivered values.  For a `get` task (database or cursor) whose flags have `DB_MULTIPLE` or
`DB_MULTIPLE_KEY`, the value the completion handler hands to the continuation is an array
(given that the decoder's reads stay inside the receive buffer).  For every query task
(`get`, `put`, `del` on a database, `get`, `put` on a cursor) whose flags have neither, the
continuation receives three arguments of which the value is a single string or `undefined`
and the key is a single string or `undefined`; and `cursor.del`, which builds no
descriptors, receives the error argument alone, so its value and key are `undefined`. -/
theorem result_shape (K : Consts) (hK : K.WF) (e : Effect) (w : World Unit)
    (hw : ∀ a, w.heap.next < a → w.heap.cells a = none) (db txn cur : Nat)
    (key value : Option Bytes) (cb : Value) (flags : Nat) (work : Work) :
    (work = .db_get ∨ work = .c_get → bulkFlags K flags = true →
      bulkSafe K flags
        (worked (modelEngine e)
          (submitted K w db txn cur key none cb flags true work .generic)).2.heap
        (worked (modelEngine e)
          (submitted K w db txn cur key none cb flags true work .generic)).1.req.data.data_dbt →
      ∃ c xs kres, completion K
          (worked (modelEngine e)
            (submitted K w db txn cur key none cb flags true work .generic)).1
          (worked (modelEngine e)
            (submitted K w db txn cur key none cb flags true work .generic)).2.heap = some c
        ∧ c.call = ⟨cb, [err_object K e.ret, .array xs, kres]⟩)
    ∧ (bulkFlags K flags = false →
      ∃ c res kres, completion K
          (worked (modelEngine e)
            (submitted K w db txn cur key value cb flags true work .generic)).1
          (worked (modelEngine e)
            (submitted K w db txn cur key value cb flags true work .generic)).2.heap = some c
        ∧ c.call = ⟨cb, [err_object K e.ret, res, kres]⟩
        ∧ (res = .undefined ∨ ∃ b, res = .str b)
        ∧ (kres = .undefined ∨ ∃ b, kres = .str b))
    ∧ (∃ c, completion K
          (worked (modelEngine e)
            (submitted K w 0 0 cur none none cb flags false .c_del .generic)).1
          (worked (modelEngine e)
            (submitted K w 0 0 cur none none cb flags false .c_del .generic)).2.heap = some c
        ∧ c.call = ⟨cb, [err_object K e.ret]⟩
        ∧ argAt c.call.args 1 = .undefined ∧ argAt c.call.args 2 = .undefined) := by
  refine ⟨?_, ?_, ?_⟩
  · intro hwork hb hsafe
    have hwork4 : work = .db_get ∨ work = .db_put ∨ work = .c_get ∨ work = .c_put := by
      rcases hwork with h | h <;> simp [h]
    obtain ⟨R, hf, -⟩ := query_ready_apply K hK e w db txn cur key none cb flags work .generic
      hwork4
    obtain ⟨hd, hfl⟩ := effValD_bulk K e
      (async_before K w.heap db txn cur key none cb flags true).2.next w.heap key flags hb
    obtain ⟨kres, hk⟩ := keyPart_defined R
    have hsome := hsafe _ _ R.getVal hd (by rw [hfl, Nat.and_self]; exact hK.usermem_ne)
      (R.getValBlock hd)
    obtain ⟨v, hv⟩ := Option.isSome_iff_exists.mp hsome
    obtain ⟨xs, rfl⟩ := decodeBulk_array K flags _ _ v hv
    have hvp : valuePart K flags
        (effValD e (async_before K w.heap db txn cur key none cb flags true).2.next
          (valD K w.heap key none flags)) (effValB e (valB K w.heap key none))
        = some (.array xs) := by
      rw [← hv]
      simp [valuePart, hd, hfl, Nat.and_self, hK.usermem_ne]
    obtain ⟨c, h1, h2, -⟩ := query_delivers K hK e w db txn cur key none cb flags work hwork4
      _ kres hvp hk
    exact ⟨c, xs, kres, h1, h2⟩
  · intro hnb
    obtain ⟨DK, DV, KB, VB, R, hf, hc, he, ha, hvf⟩ :=
      query_lifecycle K hK e w db txn cur key value cb flags work .generic
    obtain ⟨⟨res, hres, hr⟩, ⟨kres, hkres, hkr⟩⟩ := single_or_undefined K hK R
      (worked (modelEngine e)
        (submitted K w db txn cur key value cb flags true work .generic)).1.req.data.flags
      value flags hnb hvf
    have h1 := async_after_ready K R res kres hres hkres
    rw [hc, he, ← completion_generic K _ _ ha] at h1
    exact ⟨_, res, kres, h1, rfl, hr, hkr⟩
  · obtain ⟨hk, -, -, ha, c, h1, h2, -⟩ := plain_lifecycle K e w hw 0 0 cur none none cb flags
      .c_del .generic 1 .undefined .undefined
    refine ⟨c, ?_, by rw [h2]; rfl, by rw [h2]; rfl, by rw [h2]; rfl⟩
    unfold completion
    rw [ha]
    simp only [async_after, hk, ne_eq, not_true_eq_false, if_false]
    exact h1

/-- An instance of `result_shape`: a `db.get` with `{multiple: true}` whose engine call
stored two records, and the same `get` without options. -/
theorem result_shape_witness :
    sampleConsts.WF ∧ (∀ a, World.empty.heap.next < a → World.empty.heap.cells a = none)
    ∧ (∃ c xs kres, completion sampleConsts
          (worked (modelEngine sampleBulk)
            (submitted sampleConsts World.empty 7 0 0 (some [66]) none (.func "cb")
              (sampleConsts.flag "multiple") true .db_get .generic)).1
          (worked (modelEngine sampleBulk)
            (submitted sampleConsts World.empty 7 0 0 (some [66]) none (.func "cb")
              (sampleConsts.flag "multiple") true .db_get .generic)).2.heap = some c
        ∧ c.call = ⟨.func "cb", [err_object sampleConsts 0, .array xs, kres]⟩)
    ∧ (∃ c res kres, completion sampleConsts
          (worked (modelEngine sampleBulk)
            (submitted sampleConsts World.empty 7 0 0 (some [66]) none (.func "cb")
              0 true .db_get .generic)).1
          (worked (modelEngine sampleBulk)
            (submitted sampleConsts World.empty 7 0 0 (some [66]) none (.func "cb")
              0 true .db_get .generic)).2.heap = some c
        ∧ c.call = ⟨.func "cb", [err_object sampleConsts 0, res, kres]⟩
        ∧ (res = .undefined ∨ ∃ b, res = .str b)) := by
  refine ⟨sampleConsts_wf, fun a _ => rfl, ?_, ?_⟩
  · exact (result_shape sampleConsts sampleConsts_wf sampleBulk World.empty (fun a _ => rfl)
      7 0 0 (some [66]) none (.func "cb") (sampleConsts.flag "multiple") .db_get).1
      (Or.inl rfl) (by decide)
      (bulkSafe_of_layout sampleConsts sampleConsts_wf sampleBulk World.empty 7 0 0 (some [66])
        (.func "cb") (sampleConsts.flag "multiple") .db_get .generic (Or.inl rfl) rfl
        (by decide) [[97, 98], [99]] (by decide))
  · obtain ⟨c, res, kres, h1, h2, h3, -⟩ :=
      (result_shape sampleConsts sampleConsts_wf sampleBulk World.empty (fun a _ => rfl)
        7 0 0 (some [66]) none (.func "cb") 0 .db_get).2.1 (by decide)
    exact ⟨c, res, kres, h1, h2, h3⟩

theorem rd32_zero (b : Block) (hz : ∀ a, b.byte a = 0) (p : Nat) :
    b.rd32 p = if p + 4 ≤ b.size then some 0 else none := by
  simp [Block.rd32, hz]

theorem multipleLoop_zero (b : Block) (hz : ∀ a, b.byte a = 0) (fuel p i : Nat) (arr : Value) :
    multipleLoop b fuel p i arr = none := by
  induction fuel generalizing p i arr with
  | zero => rfl
  | succ f ih =>
    simp only [multipleLoop, DB_MULTIPLE_NEXT, rd32_zero b hz]
    by_cases h1 : p + 4 ≤ b.size
    · by_cases h2 : p < 8
      · simp [h1, h2]
      · have h3 : p - 4 + 4 ≤ b.size := by omega
        simp [h1, h2, h3, String_New, ih]
    · simp [h1]

theorem multipleKeyLoop_zero (b : Block) (hz : ∀ a, b.byte a = 0) (fuel p i : Nat)
    (arr : Value) : multipleKeyLoop b fuel p i arr = none := by
  induction fuel generalizing p i arr with
  | zero => rfl
  | succ f ih =>
    simp only [multipleKeyLoop, DB_MULTIPLE_KEY_NEXT, rd32_zero b hz]
    by_cases h1 : p + 4 ≤ b.size
    · by_cases h2 : p < 16
      · simp [h1, h2]
      · have h3 : p - 4 + 4 ≤ b.size := by omega
        have h4 : p - 8 + 4 ≤ b.size := by omega
        have h5 : p - 12 + 4 ≤ b.size := by omega
        simp [h1, h2, h3, h4, h5, String_New, ih]
    · simp [h1]

/-- On a receive buffer that holds only zero bytes the bulk decoder has no defined result
under either bulk flag: it never meets the end mark and runs off the start of the buffer. -/
theorem decodeBulk_zero (K : Consts) (flags : Nat) (d : DBT) (b : Block)
    (hz : ∀ a, b.byte a = 0) (hb : bulkFlags K flags = true) :
    decodeBulk K flags d b = none := by
  unfold decodeBulk
  by_cases hm : flags &&& K.DB_MULTIPLE ≠ 0
  · rw [if_pos hm]
    split
    · exact multipleLoop_zero b hz _ _ _ _
    · rfl
  · rw [if_neg hm]
    have hk : flags &&& K.DB_MULTIPLE_KEY ≠ 0 := by
      simp only [ne_eq, not_not] at hm
      simpa [bulkFlags, hm] using hb
    rw [if_pos hk]
    split
    · exact multipleKeyLoop_zero b hz _ _ _ _
    · rfl

theorem async_after_undefined (K : Consts) {h0 h : Heap} {t : Req} {DK DV : DBT}
    {KB VB : Block} (R : Ready h0 h t DK DV KB VB) (hd : DV.data ≠ 0)
    (hu : DV.flags &&& K.DB_DBT_USERMEM ≠ 0) (hdec : decodeBulk K t.data.flags DV VB = none) :
    async_after K t h = none := by
  have hp : t.data.key_dbt ≠ 0 := freeList_pos R _ (by simp [freeList])
  unfold async_after
  rw [if_pos hp, R.getKey, R.getVal]
  have hv : afterValue K t.data DV h = none := by
    unfold afterValue
    simp only [ne_eq, hd, not_false_eq_true, if_true]
    rw [if_pos hu, R.getValBlock hd]
    simp [hdec]
  simp only [hv]

/-- A bulk query task whose engine call wrote nothing into a zero-filled receive buffer:
the completion handler decodes the buffer all the same and has no defined result,
whatever the return code. -/
theorem unfilled_bulk_undefined (K : Consts) (hK : K.WF) (e : Effect) (hval : e.val = none)
    (w : World Unit) (db txn cur : Nat) (key : Option Bytes) (cb : Value) (flags : Nat)
    (work : Work) (hwork : work = .db_get ∨ work = .db_put ∨ work = .c_get ∨ work = .c_put)
    (hb : bulkFlags K flags = true)
    (hz : ∀ a, e.fill (valB K w.heap key none).byte a = 0) :
    completion K
      (worked (modelEngine e) (submitted K w db txn cur key none cb flags true work .generic)).1
      (worked (modelEngine e)
        (submitted K w db txn cur key none cb flags true work .generic)).2.heap = none
    ∧ ¬ bulkSafe K flags
      (worked (modelEngine e)
        (submitted K w db txn cur key none cb flags true work .generic)).2.heap
      (worked (modelEngine e)
        (submitted K w db txn cur key none cb flags true work .generic)).1.req.data.data_dbt := by
  obtain ⟨R, hf, -, -, ha⟩ :=
    query_ready_apply K hK e w db txn cur key none cb flags work .generic hwork
  obtain ⟨hd, hfl⟩ := effValD_bulk K e
    (async_before K w.heap db txn cur key none cb flags true).2.next w.heap key flags hb
  have hu : (effValD e (async_before K w.heap db txn cur key none cb flags true).2.next
      (valD K w.heap key none flags)).flags &&& K.DB_DBT_USERMEM ≠ 0 := by
    rw [hfl, Nat.and_self]; exact hK.usermem_ne
  have hzb : ∀ a, (effValB e (valB K w.heap key none)).byte a = 0 := by
    intro a
    simp only [effValB, hval]
    exact hz a
  constructor
  · rw [completion_generic K _ _ ha]
    exact async_after_undefined K R hd hu (by rw [hf]; exact decodeBulk_zero K flags _ _ hzb hb)
  · intro hs
    have := hs _ _ R.getVal hd hu (R.getValBlock hd)
    rw [decodeBulk_zero K flags _ _ hzb hb] at this
    exact absurd this (by simp)

theorem run_undefined {σ : Type} (K : Consts) (E : Engine σ) (w : World σ)
    (hq : w.queue = []) (db txn cur : Nat) (key value : Option Bytes) (cb : Value)
    (flags : Nat) (query : Bool) (work : Work) (after : After)
    (hc : completion K (worked E (submitted K w db txn cur key value cb flags query work after)).1
      (worked E (submitted K w db txn cur key value cb flags query work after)).2.heap = none) :
    runNext K E (uv_queue_work w
        (async_before K w.heap db txn cur key value cb flags query) work after) = none := by
  rw [runNext_queued K E w hq]
  simp only [runAfter, hc]

/-- C1 (code defect). `db.get("B", {multiple: true}, cb)` on a fresh heap, where the engine
answers with the nonzero not-found code and leaves the zero-filled receive buffer as it
is: the call is accepted and queues its task, but the completion handler decodes the
unfilled buffer before it builds the arguments, runs off the start of the buffer, and has
no defined outcome, so the continuation is not reached with the error object. -/
theorem bulk_get_miss_no_callback :
    sampleMiss.ret ≠ 0
    ∧ (_db_get sampleConsts (db_object 7 0)
        [.str [66], .obj [("multiple", .bool true)], .func "cb"] World.empty).1
        = .returned .undefined
    ∧ runNext sampleConsts (modelEngine sampleMiss)
        (_db_get sampleConsts (db_object 7 0)
          [.str [66], .obj [("multiple", .bool true)], .func "cb"] World.empty).2 = none := by
  have hq : _db_get sampleConsts (db_object 7 0)
      [.str [66], .obj [("multiple", .bool true)], .func "cb"] World.empty
      = (.returned .undefined, uv_queue_work World.empty
          (async_before sampleConsts World.empty.heap (GET_EXTERNAL (db_object 7 0) "_db")
            (GET_EXTERNAL (db_object 7 0) "_txn") 0 (some [66]) none (.func "cb")
            (get_flags sampleConsts (.obj [("multiple", .bool true)]) 0) true)
          .db_get .generic) :=
    db_get_queues sampleConsts (db_object 7 0) [66]
      (some (.obj [("multiple", .bool true)])) "cb" World.empty
  have hc := (unfilled_bulk_undefined sampleConsts sampleConsts_wf sampleMiss rfl World.empty
    (GET_EXTERNAL (db_object 7 0) "_db") (GET_EXTERNAL (db_object 7 0) "_txn") 0 (some [66])
    (.func "cb") (get_flags sampleConsts (.obj [("multiple", .bool true)]) 0) .db_get
    (Or.inl rfl) (by decide) (fun _ => rfl)).1
  have hr := run_undefined sampleConsts (modelEngine sampleMiss) World.empty rfl _ _ _ _ _ _ _
    _ _ _ hc
  rw [hq]
  exact ⟨by decide, rfl, hr⟩

/-- C3 (code defect). The task of `db.get("B", {multiple: true}, cb)` after an engine call
that returned the not-found code without touching the zero-filled receive buffer: the value
descriptor and its receive buffer are allocated, nothing has been freed, and `async_after`
has no defined outcome, because it decodes the unfilled buffer and runs off its start
before it reaches the first `free`. -/
theorem bulk_get_miss_frees_nothing :
    ∃ d b,
      (worked (modelEngine sampleMiss)
        (submitted sampleConsts World.empty 7 0 0 (some [66]) none (.func "cb")
          (sampleConsts.flag "multiple") true .db_get .generic)).2.heap.getDBT
        (worked (modelEngine sampleMiss)
          (submitted sampleConsts World.empty 7 0 0 (some [66]) none (.func "cb")
            (sampleConsts.flag "multiple") true .db_get .generic)).1.req.data.data_dbt = some d
      ∧ d.data ≠ 0 ∧ d.flags = sampleConsts.DB_DBT_USERMEM
      ∧ (worked (modelEngine sampleMiss)
          (submitted sampleConsts World.empty 7 0 0 (some [66]) none (.func "cb")
            (sampleConsts.flag "multiple") true .db_get .generic)).2.heap.getBlock d.data
          = some b
      ∧ (worked (modelEngine sampleMiss)
          (submitted sampleConsts World.empty 7 0 0 (some [66]) none (.func "cb")
            (sampleConsts.flag "multiple") true .db_get .generic)).2.heap.frees = []
      ∧ async_after sampleConsts
          (worked (modelEngine sampleMiss)
            (submitted sampleConsts World.empty 7 0 0 (some [66]) none (.func "cb")
              (sampleConsts.flag "multiple") true .db_get .generic)).1.req
          (worked (modelEngine sampleMiss)
            (submitted sampleConsts World.empty 7 0 0 (some [66]) none (.func "cb")
              (sampleConsts.flag "multiple") true .db_get .generic)).2.heap = none := by
  have hb : bulkFlags sampleConsts (sampleConsts.flag "multiple") = true := by decide
  obtain ⟨R, -, -, -, ha⟩ := query_ready_apply sampleConsts sampleConsts_wf sampleMiss World.empty
    7 0 0 (some [66]) none (.func "cb") (sampleConsts.flag "multiple") .db_get .generic
    (Or.inl rfl)
  obtain ⟨hd, hfl⟩ := effValD_bulk sampleConsts sampleMiss
    (async_before sampleConsts World.empty.heap 7 0 0 (some [66]) none (.func "cb")
      (sampleConsts.flag "multiple") true).2.next World.empty.heap (some [66])
    (sampleConsts.flag "multiple") hb
  have hc := (unfilled_bulk_undefined sampleConsts sampleConsts_wf sampleMiss rfl World.empty
    7 0 0 (some [66]) (.func "cb") (sampleConsts.flag "multiple") .db_get (Or.inl rfl) hb
    (fun _ => rfl)).1
  rw [completion_generic sampleConsts _ _ ha] at hc
  exact ⟨_, _, R.getVal, hd, hfl, R.getValBlock hd, R.grown.frees, hc⟩

/-- C11 (code defect). A `db.get` with `{multiple_key: true}` and a cursor `get` with
`{multiple: true}`, each on a fresh heap with an engine call that returned the not-found
code and left the zero-filled receive buffer as it is: the completion handler has no
defined outcome, so no sequence is delivered to the continuation. -/
theorem bulk_miss_no_sequence :
    completion sampleConsts
      (worked (modelEngine sampleMiss)
        (submitted sampleConsts World.empty 7 0 0 (some [66]) none (.func "cb")
          (sampleConsts.flag "multiple_key") true .db_get .generic)).1
      (worked (modelEngine sampleMiss)
        (submitted sampleConsts World.empty 7 0 0 (some [66]) none (.func "cb")
          (sampleConsts.flag "multiple_key") true .db_get .generic)).2.heap = none
    ∧ completion sampleConsts
      (worked (modelEngine sampleMiss)
        (submitted sampleConsts World.empty 0 0 9 none none (.func "cb")
          (sampleConsts.flag "multiple") true .c_get .generic)).1
      (worked (modelEngine sampleMiss)
        (submitted sampleConsts World.empty 0 0 9 none none (.func "cb")
          (sampleConsts.flag "multiple") true .c_get .generic)).2.heap = none :=
  ⟨(unfilled_bulk_undefined sampleConsts sampleConsts_wf sampleMiss rfl World.empty 7 0 0
      (some [66]) (.func "cb") (sampleConsts.flag "multiple_key") .db_get (Or.inl rfl)
      (by decide) (fun _ => rfl)).1,
   (unfilled_bulk_undefined sampleConsts sampleConsts_wf sampleMiss rfl World.empty 0 0 9
      none (.func "cb") (sampleConsts.flag "multiple") .c_get (Or.inr (Or.inr (Or.inl rfl)))
      (by decide) (fun _ => rfl)).1⟩

end Bdbstore
